import Mathlib

/-!
# picoclaw: agent profile resolution, routing and retry/backoff

A shallow embedding of `pkg/config/config.go` (agent profiles, model candidate
preparation, routing rules) and `pkg/utils/retry.go` (error classification and
`RetryWithBackoff`), with the properties of the specification proved over it.

Conventions of the embedding

* Go `string` is `String` (valid UTF-8 text); `strings.Contains` is the infix test
  on the characters.
* Go slices are `List`s.  The embedded code observes slices only through `len`,
  `range` and indexing, so a nil slice and an empty slice are both `[]`.
* Go `map[string]AgentProfile` is an association list read with `List.lookup`.
* Go `int` and `time.Duration` are `Int`s kept in the signed 64-bit range; the
  arithmetic the code performs on them (`attempt++`, `wait *= 2`,
  `MaxRetries+1`) wraps with `wrap64`.
* Go `float64` is the IEEE-754 binary64 bit pattern (`Float64`); the code only
  copies such values and compares them with zero.
* The read lock taken by the `Config` methods does not change what they compute
  and is left out.
-/

namespace Picoclaw

/-! ## Machine numbers -/

/-- Two's-complement wrap-around of an integer into the signed 64-bit range. -/
def wrap64 (x : Int) : Int :=
  (x + 2 ^ 63) % 2 ^ 64 - 2 ^ 63

/-- Largest value of a Go `int` / `int64`. -/
def maxInt64 : Int := 2 ^ 63 - 1

/-- Smallest value of a Go `int` / `int64`. -/
def minInt64 : Int := -(2 ^ 63)

/-- The value is representable as a signed 64-bit integer. -/
def inInt64 (x : Int) : Prop :=
  minInt64 ≤ x ∧ x ≤ maxInt64

instance (x : Int) : Decidable (inInt64 x) := by
  unfold inInt64; exact inferInstance

/-- IEEE-754 binary64 value given by its sign bit, biased exponent and fraction. -/
structure Float64 where
  sign : Bool
  exponent : Fin 2048
  mantissa : Fin (2 ^ 52)
deriving DecidableEq

/-- Go's `x != 0` on a `float64`: false exactly for `+0` and `-0`; true for every
other value, NaN included. -/
def Float64.nonZero (x : Float64) : Bool :=
  !(x.exponent.val == 0 && x.mantissa.val == 0)

/-- The `float64` nearest to the decimal literal `0.7` (bits `0x3FE6666666666666`). -/
def float64_0_7 : Float64 :=
  { sign := false, exponent := ⟨0x3FE, by decide⟩, mantissa := ⟨0x6666666666666, by decide⟩ }

/-- The `float64` value `+0`. -/
def float64_zero : Float64 :=
  { sign := false, exponent := ⟨0, by decide⟩, mantissa := ⟨0, by decide⟩ }

/-! ## Strings -/

/-- Go's `unicode.IsSpace`: the code points with the White_Space property. -/
def isSpace (c : Char) : Bool :=
  let n := c.toNat
  (0x09 ≤ n && n ≤ 0x0D) || n == 0x20 || n == 0x85 || n == 0xA0 || n == 0x1680 ||
  (0x2000 ≤ n && n ≤ 0x200A) || n == 0x2028 || n == 0x2029 || n == 0x202F ||
  n == 0x205F || n == 0x3000

/-- Go's `strings.TrimSpace`: drop leading and trailing white space. -/
def TrimSpace (s : String) : String :=
  ⟨((s.data.dropWhile isSpace).reverse.dropWhile isSpace).reverse⟩

/-- Go's `strings.Contains(s, substr)` on character lists. -/
def containsChars (sub : List Char) : List Char → Bool
  | [] => sub.isEmpty
  | c :: cs => sub.isPrefixOf (c :: cs) || containsChars sub cs

/-- Go's `strings.Contains(s, substr)`. -/
def Contains (s substr : String) : Bool :=
  containsChars substr.data s.data

/-! ## Configuration data model (`pkg/config/config.go`) -/

/-- Go `ModelSpec`. -/
structure ModelSpec where
  Model : String := ""
  Provider : String := ""
deriving DecidableEq

/-- Go `ModelSpec.ResolvedModel`: the trimmed model name, without provider prefix. -/
def ModelSpec.ResolvedModel (m : ModelSpec) : String :=
  let name := TrimSpace m.Model
  name

/-- Go `AgentProfile`. -/
structure AgentProfile where
  Workspace : String := ""
  RestrictToWorkspace : Bool := false
  Provider : String := ""
  Model : String := ""
  MaxTokens : Int := 0
  Temperature : Float64 := float64_zero
  MaxToolIterations : Int := 0
  SystemPrompt : String := ""
  AllowedTools : List String := []
  Models : List ModelSpec := []
  ResolvedModels : List String := []
deriving DecidableEq

/-- Go `AgentDefaults`. -/
structure AgentDefaults where
  Workspace : String := ""
  RestrictToWorkspace : Bool := false
  Provider : String := ""
  Model : String := ""
  MaxTokens : Int := 0
  Temperature : Float64 := float64_zero
  MaxToolIterations : Int := 0
  Models : List ModelSpec := []
  ResolvedModels : List String := []
deriving DecidableEq

/-- Go `RoutingRule`. -/
structure RoutingRule where
  Channel : String := ""
  Agent : String := ""
  UserIDs : List String := []
  UserID : String := ""
deriving DecidableEq

/-- Go `AgentsConfig`. -/
structure AgentsConfig where
  Defaults : AgentDefaults := {}
  Profiles : List (String × AgentProfile) := []
  Routing : List RoutingRule := []

/-- Go `ProviderConfig`. -/
structure ProviderConfig where
  APIKey : String := ""
  APIBase : String := ""
  Proxy : String := ""
  AuthMethod : String := ""
  ConnectMode : String := ""
deriving DecidableEq

/-- Go `ProvidersConfig`. -/
structure ProvidersConfig where
  Anthropic : ProviderConfig := {}
  OpenAI : ProviderConfig := {}
  OpenRouter : ProviderConfig := {}
  Groq : ProviderConfig := {}
  Zhipu : ProviderConfig := {}
  VLLM : ProviderConfig := {}
  Gemini : ProviderConfig := {}
  Nvidia : ProviderConfig := {}
  Ollama : ProviderConfig := {}
  Moonshot : ProviderConfig := {}
  ShengSuanYun : ProviderConfig := {}
  DeepSeek : ProviderConfig := {}
  GitHubCopilot : ProviderConfig := {}
deriving DecidableEq

/-- Go `Config`, restricted to the part read by the agent resolution code and by
the provider selection. -/
structure Config where
  Agents : AgentsConfig := {}
  Providers : ProvidersConfig := {}

/-- Go `buildResolvedModelList`: the non-empty resolved names of the specs in
order, or the base model alone when there is none and the base is set. -/
def buildResolvedModelList (base : String) (specs : List ModelSpec) : List String :=
  let resolved := specs.foldl
    (fun (resolved : List String) (spec : ModelSpec) =>
      let name := spec.ResolvedModel
      if name = "" then resolved else resolved ++ [name])
    []
  if resolved.length = 0 ∧ base ≠ "" then resolved ++ [base] else resolved

/-- Go `(*AgentProfile).prepareModels`: store the built candidate list and, when it
is non-empty, make its first entry the `Model`. -/
def AgentProfile.prepareModels (ap : AgentProfile) : AgentProfile :=
  match buildResolvedModelList ap.Model ap.Models with
  | first :: rest => { ap with ResolvedModels := first :: rest, Model := first }
  | [] => { ap with ResolvedModels := [] }

/-- Go `AgentProfile.ModelCandidates`. -/
def AgentProfile.ModelCandidates (ap : AgentProfile) : List String :=
  if ap.ResolvedModels.length > 0 then ap.ResolvedModels
  else if ap.Model ≠ "" then [ap.Model]
  else []

/-- Go `(*AgentDefaults).prepareModels`: store the built candidate list and, when it
is non-empty, make its first entry the `Model`. -/
def AgentDefaults.prepareModels (d : AgentDefaults) : AgentDefaults :=
  match buildResolvedModelList d.Model d.Models with
  | first :: rest => { d with ResolvedModels := first :: rest, Model := first }
  | [] => { d with ResolvedModels := [] }

/-- Go `AgentDefaults.ModelCandidates`. -/
def AgentDefaults.ModelCandidates (d : AgentDefaults) : List String :=
  if d.ResolvedModels.length > 0 then d.ResolvedModels
  else if d.Model ≠ "" then [d.Model]
  else []

/-- Go `(*RoutingRule).EffectiveUserIDs`. -/
def RoutingRule.EffectiveUserIDs (r : RoutingRule) : List String :=
  if r.UserIDs.length = 0 ∧ r.UserID ≠ "" then [r.UserID] else r.UserIDs

/-- Go `(*Config).PrepareAgentModels`. -/
def Config.PrepareAgentModels (c : Config) : Config :=
  { c with Agents :=
    { c.Agents with
      Defaults := c.Agents.Defaults.prepareModels
      Profiles := c.Agents.Profiles.map (fun kv => (kv.1, kv.2.prepareModels)) } }

/-- Go `DefaultConfig`, the agents part. -/
def DefaultConfig : Config :=
  { Agents :=
    { Defaults :=
      { Workspace := "~/.picoclaw/workspace"
        RestrictToWorkspace := true
        Provider := ""
        Model := "glm-4.7"
        MaxTokens := 8192
        Temperature := float64_0_7
        MaxToolIterations := 20 } } }

/-- The profile `GetAgentProfile` starts from: a copy of the defaults. -/
def defaultsProfile (c : Config) : AgentProfile :=
  { Workspace := c.Agents.Defaults.Workspace
    RestrictToWorkspace := c.Agents.Defaults.RestrictToWorkspace
    Provider := c.Agents.Defaults.Provider
    Model := c.Agents.Defaults.Model
    Models := c.Agents.Defaults.Models
    ResolvedModels := c.Agents.Defaults.ResolvedModels
    MaxTokens := c.Agents.Defaults.MaxTokens
    Temperature := c.Agents.Defaults.Temperature
    MaxToolIterations := c.Agents.Defaults.MaxToolIterations }

/-- The merge block of `GetAgentProfile`: overlay the registered profile `p` on
`profile`, one `if` per field in source order. -/
def mergeProfile (profile p : AgentProfile) : AgentProfile :=
  let profile := if p.Workspace ≠ "" then { profile with Workspace := p.Workspace } else profile
  let profile := if p.Provider ≠ "" then { profile with Provider := p.Provider } else profile
  let profile := if p.Model ≠ "" then { profile with Model := p.Model } else profile
  let profile := if p.MaxTokens ≠ 0 then { profile with MaxTokens := p.MaxTokens } else profile
  let profile :=
    if p.Temperature.nonZero then { profile with Temperature := p.Temperature } else profile
  let profile :=
    if p.MaxToolIterations ≠ 0 then { profile with MaxToolIterations := p.MaxToolIterations }
    else profile
  let profile :=
    if p.SystemPrompt ≠ "" then { profile with SystemPrompt := p.SystemPrompt } else profile
  let profile :=
    if p.AllowedTools.length > 0 then { profile with AllowedTools := p.AllowedTools } else profile
  let profile := { profile with RestrictToWorkspace := p.RestrictToWorkspace }
  let profile := if p.Models.length > 0 then { profile with Models := p.Models } else profile
  let profile :=
    if p.ResolvedModels.length > 0 then { profile with ResolvedModels := p.ResolvedModels }
    else profile
  profile

/-- Go `(*Config).GetAgentProfile`. -/
def Config.GetAgentProfile (c : Config) (name : String) : AgentProfile :=
  let profile := defaultsProfile c
  if name = "" ∨ name = "default" then
    profile.prepareModels
  else
    let profile :=
      match c.Agents.Profiles.lookup name with
      | some p => mergeProfile profile p
      | none => profile
    profile.prepareModels

/-- The inner loop of `GetRoutedAgent` over the user ids of one rule: `true` when
some id makes the function return the rule's agent. -/
def userIDsMatch (userID : String) : List String → Bool
  | [] => false
  | uid :: rest =>
    if uid = "*" ∧ userID ≠ "" then true
    else if uid = userID then true
    else userIDsMatch userID rest

/-- The outer loop of `GetRoutedAgent` over the routing rules. -/
def routeRules (channel userID : String) : List RoutingRule → String
  | [] => ""
  | rule :: rest =>
    if rule.Channel ≠ channel then routeRules channel userID rest
    else
      let userIDs := rule.EffectiveUserIDs
      if userIDs.length = 0 then rule.Agent
      else if userIDsMatch userID userIDs then rule.Agent
      else routeRules channel userID rest

/-- Go `(*Config).GetRoutedAgent`. -/
def Config.GetRoutedAgent (c : Config) (channel userID : String) : String :=
  routeRules channel userID c.Agents.Routing

/-! ### The routing rule of the specification -/

/-- The specification's notion of a rule matching a channel and user id: same
channel, and no effective user ids, or the user id listed, or the wildcard listed
with a non-empty user id. -/
def ruleMatches (channel userID : String) (r : RoutingRule) : Prop :=
  r.Channel = channel ∧
    (r.EffectiveUserIDs = [] ∨ userID ∈ r.EffectiveUserIDs ∨
      ("*" ∈ r.EffectiveUserIDs ∧ userID ≠ ""))

instance (channel userID : String) (r : RoutingRule) : Decidable (ruleMatches channel userID r) := by
  unfold ruleMatches; exact inferInstance

/-- The specification's routing: the agent of the first matching rule in
declaration order, the empty string when none matches. -/
def firstMatchAgent (rules : List RoutingRule) (channel userID : String) : String :=
  match rules.find? (fun r => decide (ruleMatches channel userID r)) with
  | some r => r.Agent
  | none => ""

/-! ## Errors (`error` values as `pkg/utils/retry.go` observes them) -/

/-- The `syscall.Errno` values the classification looks for, and all the others. -/
inductive Errno where
  | ECONNRESET
  | EPIPE
  | ETIMEDOUT
  | other (code : Nat)
deriving DecidableEq

/-- The answers of a value that implements `net.Error`. -/
structure NetFlags where
  Temporary : Bool
  Timeout : Bool
deriving DecidableEq

/-- A non-nil Go `error`, described by what `IsRetryableError` can observe of it:
its message, whether its dynamic type is `*url.Error`, whether it implements
`net.Error` and with which answers, which `syscall.Errno` targets it equals (or
reports through an `Is` method), and the error or errors its `Unwrap` returns. -/
inductive GoError where
  /-- A value of a type other than `*url.Error` that wraps nothing. -/
  | leaf (msg : String) (net : Option NetFlags) (errnos : List Errno)
  /-- A value of a type other than `*url.Error` whose `Unwrap` returns `inner`;
  `fmt.Errorf` with `%w` builds such a value with no `net.Error` methods. -/
  | wrap (msg : String) (net : Option NetFlags) (errnos : List Errno) (inner : GoError)
  /-- A `*url.Error` whose `Err` field is `err`; `flags` are the answers of its
  `Temporary` and `Timeout` methods. -/
  | urlError (msg : String) (flags : NetFlags) (err : GoError)
  /-- A `*url.Error` whose `Err` field is nil; its `Temporary` and `Timeout` are false. -/
  | urlErrorNil (msg : String)
  /-- A value of a type other than `*url.Error` whose `Unwrap` returns a list of
  errors (`errors.Join`, `fmt.Errorf` with several `%w`), here two of them; a
  longer list nests to the right. -/
  | join (msg : String) (net : Option NetFlags) (errnos : List Errno) (first rest : GoError)
deriving DecidableEq

/-- Go `err.Error()`. -/
def GoError.Error : GoError → String
  | .leaf msg _ _ => msg
  | .wrap msg _ _ _ => msg
  | .urlError msg _ _ => msg
  | .urlErrorNil msg => msg
  | .join msg _ _ _ _ => msg

/-- Go `errors.Is(err, target)` for a `syscall.Errno` target. -/
def errorsIs : GoError → Errno → Bool
  | .leaf _ _ errnos, target => errnos.contains target
  | .wrap _ _ errnos inner, target => errnos.contains target || errorsIs inner target
  | .urlError _ _ err, target => errorsIs err target
  | .urlErrorNil _, _ => false
  | .join _ _ errnos first rest, target =>
    errnos.contains target || errorsIs first target || errorsIs rest target

/-- The body of `IsRetryableError` for a non-nil error. -/
def isRetryableNonNil (err : GoError) : Bool :=
  let errStr := err.Error
  if Contains errStr "i/o timeout" &&
      (Contains errStr "lookup" || Contains errStr "dial tcp") then true
  else if Contains errStr "connection timed out" ||
      Contains errStr "Connection refused" ||
      Contains errStr "no such host" then true
  else
    match err with
    | .urlError _ flags inner =>
      if flags.Temporary then true else isRetryableNonNil inner
    | .urlErrorNil _ => false
    | .leaf _ net _ =>
      if (match net with
          | some netErr => netErr.Temporary || netErr.Timeout
          | none => false) then true
      else if errorsIs err Errno.ECONNRESET || errorsIs err Errno.EPIPE ||
          errorsIs err Errno.ETIMEDOUT then true
      else false
    | .wrap _ net _ _ =>
      if (match net with
          | some netErr => netErr.Temporary || netErr.Timeout
          | none => false) then true
      else if errorsIs err Errno.ECONNRESET || errorsIs err Errno.EPIPE ||
          errorsIs err Errno.ETIMEDOUT then true
      else false
    | .join _ net _ _ _ =>
      if (match net with
          | some netErr => netErr.Temporary || netErr.Timeout
          | none => false) then true
      else if errorsIs err Errno.ECONNRESET || errorsIs err Errno.EPIPE ||
          errorsIs err Errno.ETIMEDOUT then true
      else false

/-- Go `IsRetryableError`; `none` is the nil error. -/
def IsRetryableError : Option GoError → Bool
  | none => false
  | some err => isRetryableNonNil err

/-- Go `errors.New(msg)`, and `fmt.Errorf` without `%w`. -/
def errorsNew (msg : String) : GoError :=
  GoError.leaf msg none []

/-- Go `fmt.Errorf(before + "%w", err)`: the message is the text before the verb
followed by the message of the wrapped error. -/
def fmtErrorfW (before : String) (err : GoError) : GoError :=
  GoError.wrap (before ++ err.Error) none [] err

/-! ## Retry with backoff (`pkg/utils/retry.go`) -/

/-- Go `RetryConfig`; the waits are `time.Duration` values, in nanoseconds. -/
structure RetryConfig where
  MaxRetries : Int
  InitialWait : Int
  MaxWait : Int
deriving DecidableEq

/-- Go `time.Second`, in nanoseconds. -/
def Second : Int := 1000000000

/-- Go `DefaultRetryConfig`. -/
def DefaultRetryConfig : RetryConfig :=
  { MaxRetries := 3, InitialWait := 1 * Second, MaxWait := 30 * Second }

/-- What a run of `RetryWithBackoff` does that can be seen from outside. -/
inductive RetryEvent where
  /-- One invocation of the operation. -/
  | call
  /-- A wait of the given duration that ran to its end (`<-time.After(wait)`). -/
  | waited (d : Int)
  /-- A wait of the given duration cut short by the context (`<-ctx.Done()`). -/
  | cancelled (d : Int)
deriving DecidableEq

/-- The result of a run: the returned error (`none` is nil) and the events in the
order they happened. -/
structure RetryOutcome where
  err : Option GoError
  trace : List RetryEvent
deriving DecidableEq

/-- The local variables of `RetryWithBackoff` at the head of the loop, with the
number of invocations and of `select`s made so far and the events so far. -/
structure LoopState where
  attempt : Int
  wait : Int
  lastErr : Option GoError
  calls : Nat
  selects : Nat
  trace : List RetryEvent

/-- The backoff update `wait *= 2; if wait > config.MaxWait { wait = config.MaxWait }`
on 64-bit durations. -/
def nextWait (config : RetryConfig) (wait : Int) : Int :=
  let wait := wrap64 (wait * 2)
  if wait > config.MaxWait then config.MaxWait else wait

/-- The error returned when the attempts are used up:
`fmt.Errorf("failed after %d attempts: %w", config.MaxRetries+1, lastErr)`.
With a nil `lastErr` the verb has no error to wrap and prints `%!w(<nil>)`. -/
def exhaustedError (config : RetryConfig) (lastErr : Option GoError) : GoError :=
  match lastErr with
  | some err =>
    fmtErrorfW ("failed after " ++ toString (wrap64 (config.MaxRetries + 1)) ++ " attempts: ") err
  | none =>
    errorsNew ("failed after " ++ toString (wrap64 (config.MaxRetries + 1)) ++
      " attempts: %!w(<nil>)")

/-- The error returned when the context ends a wait:
`fmt.Errorf("context cancelled during retry: %w", ctx.Err())`. -/
def cancelledError (ctxErr : GoError) : GoError :=
  fmtErrorfW "context cancelled during retry: " ctxErr

/-- The `if attempt > 0 { select ... }` block.  `ctxDone i` tells how the `i`-th
`select` of the run ends: `some e` when the `ctx.Done()` case is taken, with
`e = ctx.Err()`, and `none` when the timer case is taken.  The result is the
outcome returned from inside the block, or the state after it. -/
def waitPhase (config : RetryConfig) (ctxDone : Nat → Option GoError) (st : LoopState) :
    Except RetryOutcome LoopState :=
  if st.attempt > 0 then
    match ctxDone st.selects with
    | some ctxErr =>
      .error { err := some (cancelledError ctxErr)
               trace := st.trace ++ [RetryEvent.cancelled st.wait] }
    | none =>
      .ok { st with
            wait := nextWait config st.wait
            selects := st.selects + 1
            trace := st.trace ++ [RetryEvent.waited st.wait] }
  else .ok st

/-- The `for` loop of `RetryWithBackoff`, one iteration per unit of fuel.
`operation i` is the result of the `i`-th invocation of the operation (`none` is
nil).  The result is `none` when the fuel runs out before the loop returns. -/
def retryLoop (config : RetryConfig) (operation : Nat → Option GoError)
    (ctxDone : Nat → Option GoError) : Nat → LoopState → Option RetryOutcome
  | 0, _ => none
  | fuel + 1, st =>
    if st.attempt ≤ config.MaxRetries then
      match waitPhase config ctxDone st with
      | .error out => some out
      | .ok st =>
        match operation st.calls with
        | none => some { err := none, trace := st.trace ++ [RetryEvent.call] }
        | some err =>
          if !IsRetryableError (some err) then
            some { err := some err, trace := st.trace ++ [RetryEvent.call] }
          else
            retryLoop config operation ctxDone fuel
              { st with
                attempt := wrap64 (st.attempt + 1)
                lastErr := some err
                calls := st.calls + 1
                trace := st.trace ++ [RetryEvent.call] }
    else
      some { err := some (exhaustedError config st.lastErr), trace := st.trace }

/-- The state in which `RetryWithBackoff` enters its loop. -/
def initialState (config : RetryConfig) : LoopState :=
  { attempt := 0, wait := config.InitialWait, lastErr := none, calls := 0, selects := 0,
    trace := [] }

/-- Go `RetryWithBackoff`, run for at most `fuel` loop iterations. -/
def RetryWithBackoff (config : RetryConfig) (operation : Nat → Option GoError)
    (ctxDone : Nat → Option GoError) (fuel : Nat) : Option RetryOutcome :=
  retryLoop config operation ctxDone fuel (initialState config)

/-- Number of invocations of the operation in a trace. -/
def callCount (trace : List RetryEvent) : Nat :=
  trace.count RetryEvent.call

/-- The durations of the completed waits of a trace, in order. -/
def waitsOf (trace : List RetryEvent) : List Int :=
  trace.filterMap (fun ev =>
    match ev with
    | RetryEvent.waited d => some d
    | _ => none)

/-- The part of a loop iteration that follows the wait: invoke the operation,
return on success or on an error that is not retryable, otherwise go round. -/
def afterWait (config : RetryConfig) (operation : Nat → Option GoError)
    (ctxDone : Nat → Option GoError) (fuel : Nat) (st : LoopState) : Option RetryOutcome :=
  match operation st.calls with
  | none => some { err := none, trace := st.trace ++ [RetryEvent.call] }
  | some err =>
    if !IsRetryableError (some err) then
      some { err := some err, trace := st.trace ++ [RetryEvent.call] }
    else
      retryLoop config operation ctxDone fuel
        { st with
          attempt := wrap64 (st.attempt + 1)
          lastErr := some err
          calls := st.calls + 1
          trace := st.trace ++ [RetryEvent.call] }

/-- The value of the variable `wait` after `i` completed waits. -/
def waitAfter (config : RetryConfig) (i : Nat) : Int :=
  (nextWait config)^[i] config.InitialWait

/-- The events up to the `i`-th retry, when the operation has failed `i` times with
a retryable error and no wait was cut short: each failed invocation is followed
by a completed wait. -/
def retryTrace (config : RetryConfig) : Nat → List RetryEvent
  | 0 => []
  | i + 1 => retryTrace config i ++ [RetryEvent.call, RetryEvent.waited (waitAfter config i)]

/-- The state just before the invocation of attempt `i`, when the operation has
failed `i` times with a retryable error and no wait was cut short. -/
def retryState (config : RetryConfig) (operation : Nat → Option GoError) (i : Nat) :
    LoopState :=
  { attempt := i
    wait := waitAfter config i
    lastErr := match i with
      | 0 => none
      | k + 1 => operation k
    calls := i
    selects := i
    trace := retryTrace config i }

/-- A context that is never done. -/
def neverDone : Nat → Option GoError :=
  fun _ => none

/-- Go `context.Canceled`. -/
def contextCanceled : GoError :=
  errorsNew "context canceled"

/-- A DNS lookup timeout, as the resolver reports it. -/
def dnsTimeout : GoError :=
  errorsNew "dial tcp: lookup api.example.com: i/o timeout"

/-- An error that the classification does not retry. -/
def unauthorized : GoError :=
  errorsNew "401 unauthorized"

/-- An operation that fails `n` times with a DNS timeout and then succeeds. -/
def failThenSucceed (n : Nat) : Nat → Option GoError :=
  fun i => if i < n then some dnsTimeout else none

/-- An operation that fails `n` times with a DNS timeout and then fails for good. -/
def failThenFatal (n : Nat) : Nat → Option GoError :=
  fun i => if i < n then some dnsTimeout else some unauthorized

/-- An operation whose every invocation fails with a DNS timeout. -/
def alwaysFail : Nat → Option GoError :=
  fun _ => some dnsTimeout

/-- A configuration whose waits are negative and so large that doubling overflows. -/
def overflowConfig : RetryConfig :=
  { MaxRetries := 3, InitialWait := -(2 ^ 62) - 1, MaxWait := Second }

/-- A configuration with the largest `MaxRetries` a Go `int` can hold, and no waiting. -/
def maxRetriesConfig : RetryConfig :=
  { MaxRetries := maxInt64, InitialWait := 0, MaxWait := 0 }

/-- A context that is done during the first wait. -/
def doneAtFirstWait : Nat → Option GoError :=
  fun _ => some contextCanceled

/-! ## Example configurations (from the repository's tests) -/

/-- The `float64` nearest to `0.9` (bits `0x3FECCCCCCCCCCCCD`). -/
def float64_0_9 : Float64 :=
  { sign := false, exponent := ⟨0x3FE, by decide⟩, mantissa := ⟨0xCCCCCCCCCCCCD, by decide⟩ }

/-- The `float64` value `0.5` (bits `0x3FE0000000000000`). -/
def float64_0_5 : Float64 :=
  { sign := false, exponent := ⟨0x3FE, by decide⟩, mantissa := ⟨0, by decide⟩ }

/-- The profile `"partial"` of `TestAgentProfile_MergeWithDefaults`. -/
def partialProfile : AgentProfile :=
  { Model := "custom-model", Temperature := float64_0_9 }

/-- The configuration of `TestAgentProfile_MergeWithDefaults`. -/
def mergeTestConfig : Config :=
  { Agents :=
    { Defaults :=
      { DefaultConfig.Agents.Defaults with
        Model := "default-model"
        Temperature := float64_0_5
        MaxTokens := 4096
        MaxToolIterations := 10 }
      Profiles := [("partial", partialProfile)] } }

/-- A profile that sets only the legacy `Model` field. -/
def researcherProfile : AgentProfile :=
  { Model := "openai/gpt-4" }

/-- Defaults that declare a `Models` list, with a profile that sets only `Model`. -/
def modelsDefaultsConfig : Config :=
  { Agents :=
    { Defaults :=
      { DefaultConfig.Agents.Defaults with
        Models := [{ Model := "glm-4.7", Provider := "z.ai" }] }
      Profiles := [("researcher", researcherProfile)] } }

/-- A profile registered under the reserved name `"default"`. -/
def reservedProfile : AgentProfile :=
  { Model := "custom-model", RestrictToWorkspace := true }

/-- A configuration whose profile table has an entry keyed `"default"`, while the
configured defaults do not restrict to the workspace. -/
def reservedNameConfig : Config :=
  { Agents :=
    { Defaults :=
      { DefaultConfig.Agents.Defaults with RestrictToWorkspace := false }
      Profiles := [("default", reservedProfile)] } }

/-- `DefaultConfig` with one registered profile that leaves every field unset. -/
def unsetProfileConfig : Config :=
  { Agents := { DefaultConfig.Agents with Profiles := [("coder", {})] } }

/-- A rule for channel `"line"` that lists user `"111"` exactly. -/
def exactRule : RoutingRule :=
  { Channel := "line", UserIDs := ["111"], Agent := "researcher" }

/-- A rule for channel `"line"` whose user ids hold the wildcard. -/
def wildcardRule : RoutingRule :=
  { Channel := "line", UserIDs := ["*"], Agent := "creative" }

/-- Routing with the wildcard rule declared before the exact rule. -/
def wildcardFirstConfig : Config :=
  { Agents := { DefaultConfig.Agents with Routing := [wildcardRule, exactRule] } }


/-! ## Further observations and example values -/

/-- Go `err.(*url.Error)`: whether the dynamic type of the error is `*url.Error`. -/
def GoError.isURLError : GoError → Bool
  | .urlError _ _ _ => true
  | .urlErrorNil _ => true
  | _ => false

/-- Go `err.(net.Error)`: the answers of `Temporary` and `Timeout` when the value
implements `net.Error`; a `*url.Error` always does. -/
def GoError.netError : GoError → Option NetFlags
  | .leaf _ net _ => net
  | .wrap _ net _ _ => net
  | .join _ net _ _ _ => net
  | .urlError _ flags _ => some flags
  | .urlErrorNil _ => some { Temporary := false, Timeout := false }

/-- A string that is empty or holds white space only. -/
def isBlank (s : String) : Bool :=
  s.data.all isSpace

/-- Go `context.DeadlineExceeded`; it reports `Timeout` and `Temporary`. -/
def contextDeadlineExceeded : GoError :=
  GoError.leaf "context deadline exceeded" (some { Temporary := true, Timeout := true }) []

/-- A refused connection as plain text, the operating system's wording. -/
def connRefusedText : GoError :=
  errorsNew "dial tcp 127.0.0.1:1: connect: connection refused"

/-- A refused connection as the dialer returns it: a `*net.OpError` around an
`*os.SyscallError` around `syscall.ECONNREFUSED` (errno 111 on Linux).  None of
them reports `Temporary` or `Timeout`. -/
def connRefusedOpError : GoError :=
  GoError.wrap "dial tcp 127.0.0.1:1: connect: connection refused"
    (some { Temporary := false, Timeout := false }) []
    (GoError.wrap "connect: connection refused" none []
      (GoError.leaf "connection refused" (some { Temporary := false, Timeout := false })
        [Errno.other 111]))

/-- A read that ran into its deadline: a `*net.OpError` around the poller's
deadline error, both reporting `Timeout` and `Temporary`. -/
def readTimeout : GoError :=
  GoError.wrap "read tcp 10.0.0.1:51234->10.0.0.2:443: i/o timeout"
    (some { Temporary := true, Timeout := true }) []
    (GoError.leaf "i/o timeout" (some { Temporary := true, Timeout := true }) [])

/-- A `*url.Error` around `readTimeout`, as `http.Client` returns it. -/
def urlReadTimeout : GoError :=
  GoError.urlError
    "Post \"https://api.example.com/v1/chat\": read tcp 10.0.0.1:51234->10.0.0.2:443: i/o timeout"
    { Temporary := true, Timeout := true } readTimeout

/-- A connection reset: a `*net.OpError` around an `*os.SyscallError` around
`syscall.ECONNRESET`. -/
def connReset : GoError :=
  GoError.wrap "read tcp 10.0.0.1:51234->10.0.0.2:443: read: connection reset by peer"
    (some { Temporary := false, Timeout := false }) []
    (GoError.wrap "read: connection reset by peer" none []
      (GoError.leaf "connection reset by peer" (some { Temporary := false, Timeout := false })
        [Errno.ECONNRESET]))

/-- A configuration with a negative number of retries. -/
def negativeRetriesConfig : RetryConfig :=
  { MaxRetries := -1, InitialWait := 1 * Second, MaxWait := 30 * Second }

/-- A configuration with a number of retries below minus one. -/
def veryNegativeRetriesConfig : RetryConfig :=
  { MaxRetries := -5, InitialWait := 1 * Second, MaxWait := 30 * Second }

/-- A configuration whose initial wait is longer than its maximal wait. -/
def longInitialWaitConfig : RetryConfig :=
  { MaxRetries := 3, InitialWait := 10 * Second, MaxWait := 1 * Second }

/-- A context that is done during the second wait. -/
def doneAtSecondWait : Nat → Option GoError :=
  fun i => if i = 1 then some contextCanceled else none

/-- The profile of the specification's candidate-list example. -/
def oldNewProfile : AgentProfile :=
  { Model := "old", Models := [{ Model := "new", Provider := "z" }] }

/-- The configuration of `TestCreateProviderWithFallback`, "Multiple model candidates". -/
def fallbackTestConfig : Config :=
  { Agents :=
    { Defaults :=
      { Models := [{ Model := "glm-4.7", Provider := "z.ai" },
                   { Model := "claude-3", Provider := "anthropic" }] } } }

/-- The completed waits of a trace begin with `InitialWait`, and all the others are
at most `MaxWait`. -/
def waitsBounded (config : RetryConfig) (trace : List RetryEvent) : Prop :=
  waitsOf trace = [] ∨
    ∃ rest, waitsOf trace = config.InitialWait :: rest ∧ ∀ d ∈ rest, d ≤ config.MaxWait

/-- The loop invariant behind the bound on the waits: the next wait is
`InitialWait` as long as no wait was completed, and at most `MaxWait` afterwards. -/
def waitInvariant (config : RetryConfig) (st : LoopState) : Prop :=
  (waitsOf st.trace = [] ∧ st.wait = config.InitialWait) ∨
    (st.wait ≤ config.MaxWait ∧
      ∃ rest, waitsOf st.trace = config.InitialWait :: rest ∧ ∀ d ∈ rest, d ≤ config.MaxWait)

/-! ## The candidate list of the specification -/

/-- The specification's candidate names: the `ResolvedModel` names of the specs
that are not empty, in declaration order, repetitions kept. -/
def resolvedNames (specs : List ModelSpec) : List String :=
  (specs.map ModelSpec.ResolvedModel).filter (fun name => decide (name ≠ ""))

/-! ## Profile listing (`pkg/config/config.go`) -/

/-- Go `(*Config).ListAgentProfiles`: `"default"` followed by the keys of the
profile table.  The order of the association list stands for the iteration order
of the Go map, which is arbitrary. -/
def Config.ListAgentProfiles (c : Config) : List String :=
  let profiles := ["default"]
  c.Agents.Profiles.foldl (fun profiles kv => profiles ++ [kv.1]) profiles

/-- Go `(*Config).ProfileExists`. -/
def Config.ProfileExists (c : Config) (name : String) : Bool :=
  if name = "default" ∨ name = "" then true
  else
    match c.Agents.Profiles.lookup name with
    | some _ => true
    | none => false

/-! ## Candidates with nil slices told apart -/

/-- A Go slice of strings with the nil slice (`none`) kept apart from an
initialized slice (`some`), which may be empty. -/
abbrev StringSlice := Option (List String)

/-- Go `len` on a slice; the nil slice has length zero. -/
def StringSlice.len : StringSlice → Nat
  | none => 0
  | some elems => elems.length

/-- The elements of a slice; the nil slice has none. -/
def StringSlice.elems : StringSlice → List String
  | none => []
  | some elems => elems

/-- The body shared by `AgentProfile.ModelCandidates` and
`AgentDefaults.ModelCandidates`, on the fields `ResolvedModels` and `Model`, with
the nil slice kept apart: the last `return nil` gives the nil slice. -/
def modelCandidatesSlice (resolvedModels : StringSlice) (model : String) : StringSlice :=
  if resolvedModels.len > 0 then resolvedModels
  else if model ≠ "" then some [model]
  else none

/-! ## Flexible string slices (`FlexibleStringSlice.UnmarshalJSON`) -/

/-- A JSON number as `encoding/json` hands it to the code: converted to `float64`. -/
inductive JSONNumber where
  /-- An integer-valued number of magnitude below `2^53`, which `float64` holds
  exactly; the sign is kept apart because `-0` is a `float64` of its own. -/
  | integer (negative : Bool) (magnitude : Nat)
  /-- Any other number that fits `float64`, with the text `%.0f` prints for it. -/
  | other (rounded : String)
  /-- A number literal outside the range of `float64`. -/
  | outOfRange
deriving DecidableEq

/-- An element of a JSON array. -/
inductive JSONElem where
  | string (s : String)
  | number (n : JSONNumber)
  | bool (b : Bool)
  | null
  /-- A nested array or object, with the text `%v` prints for its decoded value. -/
  | composite (text : String)
deriving DecidableEq

/-- The input of `UnmarshalJSON`, as far as the code can tell inputs apart. -/
inductive JSONDoc where
  /-- Bytes that are not valid JSON. -/
  | invalid
  /-- The JSON value `null`. -/
  | null
  /-- A JSON array. -/
  | array (elems : List JSONElem)
  /-- Any other JSON value: a string, number, boolean or object. -/
  | scalarOrObject
deriving DecidableEq

/-- Go `json.Unmarshal(data, &ss)` for `ss []string`: an array of strings and nulls
decodes (a null leaves the empty string), `null` decodes to the nil slice, and
everything else is an error. -/
def unmarshalStrings : JSONDoc → Except String (List String)
  | .invalid => .error "invalid character"
  | .null => .ok []
  | .scalarOrObject => .error "json: cannot unmarshal into Go value of type []string"
  | .array elems =>
    if elems.all (fun e =>
        match e with
        | .string _ => true
        | .null => true
        | _ => false) then
      .ok (elems.map (fun e =>
        match e with
        | .string s => s
        | _ => ""))
    else .error "json: cannot unmarshal into Go value of type string"

/-- Go `json.Unmarshal(data, &raw)` for `raw []interface{}`: an array decodes to its
elements unless a number does not fit `float64`, `null` decodes to the nil slice,
and everything else is an error. -/
def unmarshalRaw : JSONDoc → Except String (List JSONElem)
  | .invalid => .error "invalid character"
  | .null => .ok []
  | .scalarOrObject => .error "json: cannot unmarshal into Go value of type []interface {}"
  | .array elems =>
    if elems.any (fun e => decide (e = JSONElem.number JSONNumber.outOfRange)) then
      .error "json: cannot unmarshal number into Go value of type float64"
    else .ok elems

/-- Go `fmt.Sprintf("%.0f", val)` for a decoded number. -/
def formatFloat0 : JSONNumber → String
  | .integer negative magnitude => (if negative then "-" else "") ++ toString magnitude
  | .other rounded => rounded
  | .outOfRange => ""

/-- The `switch` of the conversion loop: a string as it is, a number through
`%.0f`, anything else through `%v`. -/
def flexibleElem : JSONElem → String
  | .string val => val
  | .number val => formatFloat0 val
  | .bool b => if b then "true" else "false"
  | .null => "<nil>"
  | .composite text => text

/-- Go `(*FlexibleStringSlice).UnmarshalJSON`: the new value of the slice, or the
error. -/
def FlexibleStringSlice.UnmarshalJSON (data : JSONDoc) : Except String (List String) :=
  match unmarshalStrings data with
  | .ok ss => .ok ss
  | .error _ =>
    match unmarshalRaw data with
    | .error err => .error err
    | .ok raw =>
      let result := raw.foldl (fun (result : List String) v => result ++ [flexibleElem v]) []
      .ok result

/-! ## Sessions and agent binding (modelled from the specification) -/

/-- Modelled from the spec: the Session entity of `pkg/session`, whose source is
not among the files; key, message history as (role, content) pairs, rolling
summary and bound agent name (empty for the default). -/
structure Session where
  Key : String
  Messages : List (String × String) := []
  Summary : String := ""
  CurrentAgent : String := ""
deriving DecidableEq

/-- Modelled from the spec: the session store of `pkg/session`, a map from session
key to session. -/
abbrev SessionManager := List (String × Session)

/-- Modelled from the spec: `SessionManager.GetCurrentAgent`, missing from the
sources; the bound name, or the empty string for a key without session. -/
def SessionManager.GetCurrentAgent (sm : SessionManager) (key : String) : String :=
  match sm.lookup key with
  | some session => session.CurrentAgent
  | none => ""

/-- Modelled from the spec: `SessionManager.SetCurrentAgent`, missing from the
sources; binds the name, creating the session when the key is unknown. -/
def SessionManager.SetCurrentAgent (sm : SessionManager) (key name : String) :
    SessionManager :=
  match sm.lookup key with
  | some _ =>
    sm.map (fun kv => if kv.1 = key then (kv.1, { kv.2 with CurrentAgent := name }) else kv)
  | none => sm ++ [(key, { Key := key, CurrentAgent := name })]

/-- Modelled from the spec: `AgentLoop.getAgentProfile` of `pkg/agent`, missing from
the sources; the agent binding precedence of the specification: a routing rule
matching (channel, sender), then the sticky binding of the session, then the
default profile. -/
def getAgentProfile (c : Config) (sessions : SessionManager)
    (sessionKey channel senderID : String) : AgentProfile :=
  if c.Agents.Routing.any (fun r => decide (ruleMatches channel senderID r)) then
    c.GetAgentProfile (c.GetRoutedAgent channel senderID)
  else
    let current := sessions.GetCurrentAgent sessionKey
    if current ≠ "" then c.GetAgentProfile current
    else c.GetAgentProfile "default"

/-! ## Further example values -/

/-- A profile whose only model entry is blank, with no legacy model. -/
def blankModelsProfile : AgentProfile :=
  { Models := [{ Model := " ", Provider := "z.ai" }] }

/-- The profile `"coder"` of `TestAgentsConfig_GetAgentProfile`. -/
def coderProfile : AgentProfile :=
  { Models := [{ Provider := "anthropic", Model := "claude-opus-4" }]
    Temperature := float64_0_9
    MaxTokens := 8192
    MaxToolIterations := 30
    SystemPrompt := "You are a coder" }

/-- `DefaultConfig` with the profile `"coder"` registered. -/
def coderConfig : Config :=
  { Agents := { DefaultConfig.Agents with Profiles := [("coder", coderProfile)] } }

/-- `DefaultConfig` with a profile that declares models registered under `"default"`. -/
def reservedModelsConfig : Config :=
  { Agents := { DefaultConfig.Agents with Profiles := [("default", coderProfile)] } }

/-- The configuration of `TestAgentsConfig_ListAgentProfiles`. -/
def listTestConfig : Config :=
  { Agents :=
    { DefaultConfig.Agents with
      Profiles := [("coder", { Model := "claude-opus-4" }), ("researcher", { Model := "gpt-4" })] } }

/-- A rule for channel `"telegram"` that sets only the deprecated single user id. -/
def legacyRule : RoutingRule :=
  { Channel := "telegram", UserID := "123456", Agent := "coder" }

/-- A rule for channel `"telegram"` whose deprecated single user id is the wildcard. -/
def legacyWildcardRule : RoutingRule :=
  { Channel := "telegram", UserID := "*", Agent := "coder" }

/-- A rule for channel `"telegram"` without user ids. -/
def channelRule : RoutingRule :=
  { Channel := "telegram", Agent := "researcher" }

/-- The configuration of `TestAgentLoop_getAgentProfile`. -/
def loopTestConfig : Config :=
  { Agents :=
    { DefaultConfig.Agents with
      Profiles := [("coder", { Model := "claude-opus", Temperature := float64_0_9 })]
      Routing := [legacyRule] } }

/-- The session store of `TestAgentLoop_getAgentProfile`: one sticky binding. -/
def loopTestSessions : SessionManager :=
  SessionManager.SetCurrentAgent [] "test:2" "coder"

/-! ## Provider selection (`pkg/config/config.go`) -/

/-- Go `(*Config).GetAPIKey`: the key of the first provider, in the order of the
source, whose key is set. -/
def Config.GetAPIKey (c : Config) : String :=
  if c.Providers.OpenRouter.APIKey ≠ "" then c.Providers.OpenRouter.APIKey
  else if c.Providers.Anthropic.APIKey ≠ "" then c.Providers.Anthropic.APIKey
  else if c.Providers.OpenAI.APIKey ≠ "" then c.Providers.OpenAI.APIKey
  else if c.Providers.Gemini.APIKey ≠ "" then c.Providers.Gemini.APIKey
  else if c.Providers.Zhipu.APIKey ≠ "" then c.Providers.Zhipu.APIKey
  else if c.Providers.Groq.APIKey ≠ "" then c.Providers.Groq.APIKey
  else if c.Providers.VLLM.APIKey ≠ "" then c.Providers.VLLM.APIKey
  else if c.Providers.ShengSuanYun.APIKey ≠ "" then c.Providers.ShengSuanYun.APIKey
  else ""

/-- Go `(*Config).GetAPIBase`. -/
def Config.GetAPIBase (c : Config) : String :=
  if c.Providers.OpenRouter.APIKey ≠ "" then
    if c.Providers.OpenRouter.APIBase ≠ "" then c.Providers.OpenRouter.APIBase
    else "https://openrouter.ai/api/v1"
  else if c.Providers.Zhipu.APIKey ≠ "" then c.Providers.Zhipu.APIBase
  else if c.Providers.VLLM.APIKey ≠ "" ∧ c.Providers.VLLM.APIBase ≠ "" then
    c.Providers.VLLM.APIBase
  else ""

/-- The providers whose key `GetAPIKey` may return, in the order it tries them. -/
inductive ProviderName where
  | OpenRouter
  | Anthropic
  | OpenAI
  | Gemini
  | Zhipu
  | Groq
  | VLLM
  | ShengSuanYun
deriving DecidableEq, Repr

/-- The configuration of a provider of `GetAPIKey`. -/
def ProvidersConfig.byName (p : ProvidersConfig) : ProviderName → ProviderConfig
  | .OpenRouter => p.OpenRouter
  | .Anthropic => p.Anthropic
  | .OpenAI => p.OpenAI
  | .Gemini => p.Gemini
  | .Zhipu => p.Zhipu
  | .Groq => p.Groq
  | .VLLM => p.VLLM
  | .ShengSuanYun => p.ShengSuanYun

/-- The order in which `GetAPIKey` tries the providers. -/
def apiKeyOrder : List ProviderName :=
  [.OpenRouter, .Anthropic, .OpenAI, .Gemini, .Zhipu, .Groq, .VLLM, .ShengSuanYun]

/-- The provider whose key `GetAPIKey` returns: the first in its order with a key
set, if any. -/
def Config.keyProvider (c : Config) : Option ProviderName :=
  apiKeyOrder.find? (fun n => decide ((c.Providers.byName n).APIKey ≠ ""))

/-- The API base that belongs to a provider in the sense of `GetAPIBase`: its
APIBase, or for OpenRouter without one the built-in address. -/
def Config.baseOf (c : Config) (n : ProviderName) : String :=
  if n = ProviderName.OpenRouter ∧ c.Providers.OpenRouter.APIBase = "" then
    "https://openrouter.ai/api/v1"
  else (c.Providers.byName n).APIBase

/-! ## Splitting strings and the message for retryable errors (`pkg/utils/retry.go`) -/

/-- Go `strings.Cut` on character lists: the text before and after the first
occurrence of `sep`, if there is one. -/
def cutChars (sep : List Char) : List Char → Option (List Char × List Char)
  | [] => if sep.isEmpty then some ([], []) else none
  | c :: cs =>
    if sep.isPrefixOf (c :: cs) then some ([], (c :: cs).drop sep.length)
    else
      match cutChars sep cs with
      | some (before, after) => some (c :: before, after)
      | none => none

/-- The loop of Go `strings.Split` for a non-empty separator: cut at each
occurrence of `sep` from the left; the fuel bounds the number of cuts. -/
def splitChars (sep : List Char) : Nat → List Char → List (List Char)
  | 0, s => [s]
  | fuel + 1, s =>
    match cutChars sep s with
    | some (before, after) => before :: splitChars sep fuel after
    | none => [s]

/-- Go `strings.Split(s, sep)` for a non-empty separator `sep`; the length of `s`
is fuel enough, since every cut removes a character. -/
def Split (s sep : String) : List String :=
  (splitChars sep.data s.data.length s.data).map String.mk

/-- Go `GetRetryableErrorMessage`. -/
def GetRetryableErrorMessage : Option GoError → String
  | none => ""
  | some err =>
    let errStr := err.Error
    if Contains errStr "i/o timeout" then
      if Contains errStr "lookup" then
        let parts := Split errStr "lookup "
        if parts.length > 1 then
          let host := (Split (parts.getD 1 "") ":").headD ""
          "DNS resolution timeout for " ++ host ++ ". Check your network/DNS settings."
        else "DNS resolution timeout. Check your network/DNS settings."
      else if Contains errStr "dial tcp" then
        "Connection timeout. The server may be unreachable or your network is down."
      else err.Error
    else err.Error

/-! ## Switching the agent of a session (modelled from the specification) -/

/-- Modelled from the spec: `AgentLoop.SwitchAgent` of `pkg/agent`, missing from the
sources; switching the sticky binding fails with a "does not exist" condition,
binding unchanged, if the name is neither `"default"` nor registered, and binds
the name otherwise.  The result is the error or the session store after the call. -/
def SwitchAgent (c : Config) (sessions : SessionManager) (sessionKey agentName : String) :
    Except GoError SessionManager :=
  if agentName = "default" ∨ agentName ∈ c.Agents.Profiles.map Prod.fst then
    .ok (sessions.SetCurrentAgent sessionKey agentName)
  else
    .error (errorsNew ("agent profile '" ++ agentName ++ "' does not exist"))

/-- The session store after a call of `SwitchAgent`: on an error the store the
call started from. -/
def storeAfter (sessions : SessionManager) : Except GoError SessionManager → SessionManager
  | .ok after => after
  | .error _ => sessions

/-! ## Example values for sessions, preparation and providers -/

/-- The configuration of `TestAgentLoop_SwitchAgent`. -/
def switchTestConfig : Config :=
  { Agents :=
    { DefaultConfig.Agents with
      Profiles := [("coder", { Model := "claude-opus" })] } }

/-- The session store of `TestAgentLoop_SwitchAgent` after the switch to `"coder"`. -/
def switchedSessions : SessionManager :=
  storeAfter [] (SwitchAgent switchTestConfig [] "test:session" "coder")

/-- Routing in which every rule for channel `"line"` lists the wildcard alone, once
through the deprecated single id, next to a rule for another channel. -/
def wildcardOnlyConfig : Config :=
  { Agents :=
    { DefaultConfig.Agents with
      Routing :=
        [legacyRule, wildcardRule, { Channel := "line", UserID := "*", Agent := "second" }] } }

/-- A configuration whose defaults declare a legacy model and a model list, with a
profile whose only model entry is blank. -/
def blankPrepareConfig : Config :=
  { Agents :=
    { Defaults := { Model := "glm-4.7", Models := [{ Model := "claude-3" }] }
      Profiles := [("coder", blankModelsProfile)] } }

/-- A configuration with a key for Anthropic, and a key and an API base for Zhipu. -/
def mixedProvidersConfig : Config :=
  { Providers :=
    { Anthropic := { APIKey := "sk-ant-key" }
      Zhipu := { APIKey := "zhipu-key", APIBase := "https://open.bigmodel.cn/api/paas/v4" } } }

/-- A configuration with a key for Groq, and a key and an API base for VLLM. -/
def groqVLLMConfig : Config :=
  { Providers :=
    { Groq := { APIKey := "gsk-key" }
      VLLM := { APIKey := "vllm-key", APIBase := "http://localhost:8000/v1" } } }

/-! ## Properties of profile resolution -/

/-- The accumulation loop of `buildResolvedModelList` appends the non-empty
resolved names, in order, to what it started with. -/
theorem foldl_resolved_eq (specs : List ModelSpec) (acc : List String) :
    specs.foldl
      (fun (resolved : List String) (spec : ModelSpec) =>
        let name := spec.ResolvedModel
        if name = "" then resolved else resolved ++ [name])
      acc
    = acc ++ (specs.map ModelSpec.ResolvedModel).filter (fun n => decide (n ≠ "")) := by
  induction specs generalizing acc with
  | nil => simp
  | cons s rest ih =>
    simp only [List.foldl_cons, List.map_cons, ih]
    by_cases h : s.ResolvedModel = ""
    · simp [h]
    · simp [h, List.filter_cons]

/-- Closed form of `buildResolvedModelList`. -/
theorem buildResolvedModelList_eq (base : String) (specs : List ModelSpec) :
    buildResolvedModelList base specs =
      if (specs.map ModelSpec.ResolvedModel).filter (fun n => decide (n ≠ "")) = [] ∧ base ≠ ""
      then [base]
      else (specs.map ModelSpec.ResolvedModel).filter (fun n => decide (n ≠ "")) := by
  unfold buildResolvedModelList
  simp only [foldl_resolved_eq, List.nil_append, List.length_eq_zero]
  split_ifs with h
  · rw [h.1, List.nil_append]
  · rfl

/-- With no usable spec, the candidate list is the base model alone. -/
theorem buildResolvedModelList_blank (base : String) (specs : List ModelSpec)
    (hblank : ∀ s ∈ specs, s.ResolvedModel = "") (hbase : base ≠ "") :
    buildResolvedModelList base specs = [base] := by
  have hnil : (specs.map ModelSpec.ResolvedModel).filter (fun n => decide (n ≠ "")) = [] := by
    rw [List.filter_eq_nil_iff]
    intro n hn
    obtain ⟨s, hs, rfl⟩ := List.mem_map.mp hn
    simp [hblank s hs]
  rw [buildResolvedModelList_eq, hnil]
  simp [hbase]

/-- An empty candidate list can only come from an empty base model. -/
theorem buildResolvedModelList_nil (base : String) (specs : List ModelSpec)
    (h : buildResolvedModelList base specs = []) : base = "" := by
  rw [buildResolvedModelList_eq] at h
  by_contra hb
  by_cases hc :
      (specs.map ModelSpec.ResolvedModel).filter (fun n => decide (n ≠ "")) = [] ∧ base ≠ ""
  · rw [if_pos hc] at h
    exact List.cons_ne_nil _ _ h
  · rw [if_neg hc] at h
    exact hc ⟨h, hb⟩

/-- What `prepareModels` leaves alone, and the candidate list it stores. -/
theorem prepareModels_fields (ap : AgentProfile) :
    ap.prepareModels.Workspace = ap.Workspace ∧
    ap.prepareModels.RestrictToWorkspace = ap.RestrictToWorkspace ∧
    ap.prepareModels.Provider = ap.Provider ∧
    ap.prepareModels.MaxTokens = ap.MaxTokens ∧
    ap.prepareModels.Temperature = ap.Temperature ∧
    ap.prepareModels.MaxToolIterations = ap.MaxToolIterations ∧
    ap.prepareModels.SystemPrompt = ap.SystemPrompt ∧
    ap.prepareModels.AllowedTools = ap.AllowedTools ∧
    ap.prepareModels.Models = ap.Models ∧
    ap.prepareModels.ResolvedModels = buildResolvedModelList ap.Model ap.Models := by
  unfold AgentProfile.prepareModels
  cases h : buildResolvedModelList ap.Model ap.Models <;> simp

/-- After `prepareModels` the candidates are exactly the built list. -/
theorem prepareModels_candidates (ap : AgentProfile) :
    ap.prepareModels.ModelCandidates = buildResolvedModelList ap.Model ap.Models := by
  unfold AgentProfile.prepareModels AgentProfile.ModelCandidates
  cases h : buildResolvedModelList ap.Model ap.Models with
  | nil => simp [buildResolvedModelList_nil _ _ h]
  | cons first rest => simp

/-- After `prepareModels` the model is the first candidate, or unchanged when
there is none. -/
theorem prepareModels_Model (ap : AgentProfile) :
    ap.prepareModels.Model = (buildResolvedModelList ap.Model ap.Models).headD ap.Model := by
  unfold AgentProfile.prepareModels
  cases h : buildResolvedModelList ap.Model ap.Models <;> simp

/-- Resolution of a name that is neither empty nor `"default"` and is registered. -/
theorem GetAgentProfile_registered (c : Config) (name : String) (p : AgentProfile)
    (hne : name ≠ "") (hnd : name ≠ "default")
    (hreg : c.Agents.Profiles.lookup name = some p) :
    c.GetAgentProfile name = (mergeProfile (defaultsProfile c) p).prepareModels := by
  simp [Config.GetAgentProfile, hne, hnd, hreg]

/-- Resolution of the empty name and of `"default"`. -/
theorem GetAgentProfile_default (c : Config) :
    c.GetAgentProfile "" = (defaultsProfile c).prepareModels ∧
    c.GetAgentProfile "default" = (defaultsProfile c).prepareModels := by
  constructor <;> simp [Config.GetAgentProfile]

theorem mergeProfile_Workspace (d p : AgentProfile) :
    (mergeProfile d p).Workspace = if p.Workspace ≠ "" then p.Workspace else d.Workspace := by
  simp only [mergeProfile, apply_ite AgentProfile.Workspace, ite_self]

theorem mergeProfile_Provider (d p : AgentProfile) :
    (mergeProfile d p).Provider = if p.Provider ≠ "" then p.Provider else d.Provider := by
  simp only [mergeProfile, apply_ite AgentProfile.Provider, ite_self]

theorem mergeProfile_Model (d p : AgentProfile) :
    (mergeProfile d p).Model = if p.Model ≠ "" then p.Model else d.Model := by
  simp only [mergeProfile, apply_ite AgentProfile.Model, ite_self]

theorem mergeProfile_MaxTokens (d p : AgentProfile) :
    (mergeProfile d p).MaxTokens = if p.MaxTokens ≠ 0 then p.MaxTokens else d.MaxTokens := by
  simp only [mergeProfile, apply_ite AgentProfile.MaxTokens, ite_self]

theorem mergeProfile_Temperature (d p : AgentProfile) :
    (mergeProfile d p).Temperature =
      if p.Temperature.nonZero then p.Temperature else d.Temperature := by
  simp only [mergeProfile, apply_ite AgentProfile.Temperature, ite_self]

theorem mergeProfile_MaxToolIterations (d p : AgentProfile) :
    (mergeProfile d p).MaxToolIterations =
      if p.MaxToolIterations ≠ 0 then p.MaxToolIterations else d.MaxToolIterations := by
  simp only [mergeProfile, apply_ite AgentProfile.MaxToolIterations, ite_self]

theorem mergeProfile_SystemPrompt (d p : AgentProfile) :
    (mergeProfile d p).SystemPrompt =
      if p.SystemPrompt ≠ "" then p.SystemPrompt else d.SystemPrompt := by
  simp only [mergeProfile, apply_ite AgentProfile.SystemPrompt, ite_self]

theorem mergeProfile_AllowedTools (d p : AgentProfile) :
    (mergeProfile d p).AllowedTools =
      if p.AllowedTools.length > 0 then p.AllowedTools else d.AllowedTools := by
  simp only [mergeProfile, apply_ite AgentProfile.AllowedTools, ite_self]

theorem mergeProfile_RestrictToWorkspace (d p : AgentProfile) :
    (mergeProfile d p).RestrictToWorkspace = p.RestrictToWorkspace := by
  simp only [mergeProfile, apply_ite AgentProfile.RestrictToWorkspace, ite_self]

theorem mergeProfile_Models (d p : AgentProfile) :
    (mergeProfile d p).Models = if p.Models.length > 0 then p.Models else d.Models := by
  simp only [mergeProfile, apply_ite AgentProfile.Models, ite_self]

/-! ## Properties of routing -/

/-- The user-id loop succeeds exactly when the id is listed, or the wildcard is
listed and the id is non-empty. -/
theorem userIDsMatch_iff (userID : String) (ids : List String) :
    userIDsMatch userID ids = true ↔ (userID ∈ ids ∨ ("*" ∈ ids ∧ userID ≠ "")) := by
  induction ids with
  | nil => simp [userIDsMatch]
  | cons uid rest ih =>
    unfold userIDsMatch
    by_cases h1 : uid = "*" ∧ userID ≠ ""
    · simp only [if_pos h1, true_iff]
      exact Or.inr ⟨by simp [h1.1], h1.2⟩
    · rw [if_neg h1]
      by_cases h2 : uid = userID
      · simp [h2]
      · rw [if_neg h2, ih]
        have h2' : ¬ userID = uid := fun h => h2 h.symm
        constructor
        · rintro (h | ⟨h, hu⟩)
          · exact Or.inl (List.mem_cons_of_mem _ h)
          · exact Or.inr ⟨List.mem_cons_of_mem _ h, hu⟩
        · rintro (h | ⟨h, hu⟩)
          · rcases List.mem_cons.mp h with h | h
            · exact absurd h h2'
            · exact Or.inl h
          · rcases List.mem_cons.mp h with h | h
            · exact absurd ⟨h.symm, hu⟩ h1
            · exact Or.inr ⟨h, hu⟩

/-- One step of the rule loop: a matching rule answers, any other rule is skipped. -/
theorem routeRules_cons (channel userID : String) (rule : RoutingRule)
    (rest : List RoutingRule) :
    routeRules channel userID (rule :: rest) =
      if ruleMatches channel userID rule then rule.Agent
      else routeRules channel userID rest := by
  unfold ruleMatches
  rw [routeRules]
  by_cases hc : rule.Channel = channel
  · simp only [hc, ne_eq, not_true_eq_false, if_false, true_and, List.length_eq_zero]
    by_cases he : rule.EffectiveUserIDs = []
    · simp [he]
    · have := userIDsMatch_iff userID rule.EffectiveUserIDs
      by_cases hm : userIDsMatch userID rule.EffectiveUserIDs = true
      · simp only [he, if_false, hm, if_true, false_or]
        rw [if_pos (this.mp hm)]
      · simp only [he, if_false, hm, false_or]
        rw [if_neg (fun h => hm (this.mpr h))]
        simp
  · simp [hc]

/-- The rule loop computes the specification's first-match routing. -/
theorem routeRules_eq_firstMatchAgent (channel userID : String) (rules : List RoutingRule) :
    routeRules channel userID rules = firstMatchAgent rules channel userID := by
  induction rules with
  | nil => simp [routeRules, firstMatchAgent]
  | cons rule rest ih =>
    rw [routeRules_cons, ih]
    unfold firstMatchAgent
    by_cases h : ruleMatches channel userID rule
    · simp [List.find?_cons, h]
    · simp [List.find?_cons, h]

/-- Rules that do not match are skipped by the rule loop. -/
theorem routeRules_skip (channel userID : String) (pre rest : List RoutingRule)
    (hpre : ∀ r ∈ pre, ¬ ruleMatches channel userID r) :
    routeRules channel userID (pre ++ rest) = routeRules channel userID rest := by
  induction pre with
  | nil => rfl
  | cons r pre ih =>
    rw [List.cons_append, routeRules_cons, if_neg (hpre r (List.mem_cons_self _ _))]
    exact ih (fun r' hr' => hpre r' (List.mem_cons_of_mem _ hr'))

/-! ## Claims on agent profile resolution and routing -/

/-- C1: for a name other than `""` and `"default"` that is a key of
`Agents.Profiles`, `GetAgentProfile` gives, for each of Workspace, Provider,
MaxTokens, Temperature and MaxToolIterations, the registered profile's value when
it is non-zero and the defaults' value when it is zero; SystemPrompt and
AllowedTools are the registered profile's own values. -/
theorem GetAgentProfile_overlay_fields (c : Config) (name : String) (p : AgentProfile)
    (hne : name ≠ "") (hnd : name ≠ "default")
    (hreg : c.Agents.Profiles.lookup name = some p) :
    (c.GetAgentProfile name).Workspace =
        (if p.Workspace ≠ "" then p.Workspace else c.Agents.Defaults.Workspace) ∧
    (c.GetAgentProfile name).Provider =
        (if p.Provider ≠ "" then p.Provider else c.Agents.Defaults.Provider) ∧
    (c.GetAgentProfile name).MaxTokens =
        (if p.MaxTokens ≠ 0 then p.MaxTokens else c.Agents.Defaults.MaxTokens) ∧
    (c.GetAgentProfile name).Temperature =
        (if p.Temperature.nonZero then p.Temperature else c.Agents.Defaults.Temperature) ∧
    (c.GetAgentProfile name).MaxToolIterations =
        (if p.MaxToolIterations ≠ 0 then p.MaxToolIterations
         else c.Agents.Defaults.MaxToolIterations) ∧
    (c.GetAgentProfile name).SystemPrompt = p.SystemPrompt ∧
    (c.GetAgentProfile name).AllowedTools = p.AllowedTools := by
  rw [GetAgentProfile_registered c name p hne hnd hreg]
  obtain ⟨h1, -, h3, h4, h5, h6, h7, h8, -, -⟩ :=
    prepareModels_fields (mergeProfile (defaultsProfile c) p)
  rw [h1, h3, h4, h5, h6, h7, h8, mergeProfile_Workspace, mergeProfile_Provider,
    mergeProfile_MaxTokens, mergeProfile_Temperature, mergeProfile_MaxToolIterations,
    mergeProfile_SystemPrompt, mergeProfile_AllowedTools]
  refine ⟨rfl, rfl, rfl, rfl, rfl, ?_, ?_⟩
  · by_cases h : p.SystemPrompt = ""
    · simp [h, defaultsProfile]
    · simp [h]
  · cases h : p.AllowedTools with
    | nil => simp [defaultsProfile]
    | cons a l => simp

/-- C1 at the configuration of `TestAgentProfile_MergeWithDefaults`: Temperature
comes from the profile, MaxTokens and MaxToolIterations from the defaults. -/
theorem GetAgentProfile_overlay_fields_witness :
    ("partial" ≠ "" ∧ "partial" ≠ "default" ∧
      mergeTestConfig.Agents.Profiles.lookup "partial" = some partialProfile) ∧
    ((mergeTestConfig.GetAgentProfile "partial").Workspace =
        (if partialProfile.Workspace ≠ "" then partialProfile.Workspace
         else mergeTestConfig.Agents.Defaults.Workspace) ∧
    (mergeTestConfig.GetAgentProfile "partial").Provider =
        (if partialProfile.Provider ≠ "" then partialProfile.Provider
         else mergeTestConfig.Agents.Defaults.Provider) ∧
    (mergeTestConfig.GetAgentProfile "partial").MaxTokens =
        (if partialProfile.MaxTokens ≠ 0 then partialProfile.MaxTokens
         else mergeTestConfig.Agents.Defaults.MaxTokens) ∧
    (mergeTestConfig.GetAgentProfile "partial").Temperature =
        (if partialProfile.Temperature.nonZero then partialProfile.Temperature
         else mergeTestConfig.Agents.Defaults.Temperature) ∧
    (mergeTestConfig.GetAgentProfile "partial").MaxToolIterations =
        (if partialProfile.MaxToolIterations ≠ 0 then partialProfile.MaxToolIterations
         else mergeTestConfig.Agents.Defaults.MaxToolIterations) ∧
    (mergeTestConfig.GetAgentProfile "partial").SystemPrompt = partialProfile.SystemPrompt ∧
    (mergeTestConfig.GetAgentProfile "partial").AllowedTools = partialProfile.AllowedTools) :=
  ⟨⟨by decide, by decide, by decide⟩,
    GetAgentProfile_overlay_fields mergeTestConfig "partial" partialProfile
      (by decide) (by decide) (by decide)⟩

/-- C2 as stated fails: with defaults that declare a `Models` list, a registered
profile with only `Model` set resolves to the defaults' first model; and a profile
registered under `"default"` is never consulted. -/
theorem GetAgentProfile_model_override_counterexample :
    (modelsDefaultsConfig.Agents.Profiles.lookup "researcher" = some researcherProfile ∧
      researcherProfile.Model ≠ "" ∧ researcherProfile.Models = [] ∧
      (modelsDefaultsConfig.GetAgentProfile "researcher").Model = "glm-4.7" ∧
      (modelsDefaultsConfig.GetAgentProfile "researcher").Model ≠ researcherProfile.Model ∧
      (modelsDefaultsConfig.GetAgentProfile "researcher").ModelCandidates = ["glm-4.7"] ∧
      (modelsDefaultsConfig.GetAgentProfile "researcher").ModelCandidates ≠
        [researcherProfile.Model]) ∧
    (reservedNameConfig.Agents.Profiles.lookup "default" = some reservedProfile ∧
      reservedProfile.Model ≠ "" ∧ reservedProfile.Models = [] ∧
      (reservedNameConfig.GetAgentProfile "default").Model = "glm-4.7" ∧
      (reservedNameConfig.GetAgentProfile "default").Model ≠ reservedProfile.Model) := by
  decide

/-- C2 (amended): when no entry of the defaults' `Models` has a non-blank model,
whatever the defaults' `Model` is, a profile registered under a name other than
`""` and `"default"` whose `Model` is non-empty and whose `Models` is empty
resolves to its own `Model`, and its candidates are exactly that one model. -/
theorem GetAgentProfile_model_override (c : Config) (name : String) (p : AgentProfile)
    (hne : name ≠ "") (hnd : name ≠ "default")
    (hreg : c.Agents.Profiles.lookup name = some p)
    (hmodel : p.Model ≠ "") (hmodels : p.Models = [])
    (hdef : ∀ s ∈ c.Agents.Defaults.Models, s.ResolvedModel = "") :
    (c.GetAgentProfile name).Model = p.Model ∧
    (c.GetAgentProfile name).ModelCandidates = [p.Model] := by
  rw [GetAgentProfile_registered c name p hne hnd hreg]
  have hM : (mergeProfile (defaultsProfile c) p).Model = p.Model := by
    rw [mergeProfile_Model, if_pos hmodel]
  have hMs : (mergeProfile (defaultsProfile c) p).Models = c.Agents.Defaults.Models := by
    rw [mergeProfile_Models, hmodels]
    simp [defaultsProfile]
  have hb := buildResolvedModelList_blank p.Model c.Agents.Defaults.Models hdef hmodel
  rw [prepareModels_Model, prepareModels_candidates, hM, hMs, hb]
  exact ⟨rfl, rfl⟩

/-- C2 (amended) at the configuration of `TestAgentProfile_MergeWithDefaults`. -/
theorem GetAgentProfile_model_override_witness :
    ("partial" ≠ "" ∧ "partial" ≠ "default" ∧
      mergeTestConfig.Agents.Profiles.lookup "partial" = some partialProfile ∧
      partialProfile.Model ≠ "" ∧ partialProfile.Models = [] ∧
      (∀ s ∈ mergeTestConfig.Agents.Defaults.Models, s.ResolvedModel = "")) ∧
    ((mergeTestConfig.GetAgentProfile "partial").Model = "custom-model" ∧
      (mergeTestConfig.GetAgentProfile "partial").ModelCandidates = ["custom-model"]) :=
  ⟨⟨by decide, by decide, by decide, by decide, by decide, by decide⟩,
    GetAgentProfile_model_override mergeTestConfig "partial" partialProfile
      (by decide) (by decide) (by decide) (by decide) (by decide) (by decide)⟩

/-- C3: a name that is not a key of `Agents.Profiles` resolves to the same profile
as `"default"`; the result is a profile, there is no error value. -/
theorem GetAgentProfile_unknown_name (c : Config) (name : String)
    (hunknown : c.Agents.Profiles.lookup name = none) :
    c.GetAgentProfile name = c.GetAgentProfile "default" := by
  by_cases h : name = "" ∨ name = "default"
  · simp [Config.GetAgentProfile, h]
  · simp [Config.GetAgentProfile, h, hunknown]

/-- C3 at the test configuration: `"nonexistent"` is not registered. -/
theorem GetAgentProfile_unknown_name_witness :
    mergeTestConfig.Agents.Profiles.lookup "nonexistent" = none ∧
    mergeTestConfig.GetAgentProfile "nonexistent" = mergeTestConfig.GetAgentProfile "default" :=
  ⟨by decide, GetAgentProfile_unknown_name mergeTestConfig "nonexistent" (by decide)⟩

/-- C4: `GetAgentProfile ""` and `GetAgentProfile "default"` are equal and carry
the Workspace, RestrictToWorkspace, Provider, MaxTokens, Temperature and
MaxToolIterations of the defaults, an empty SystemPrompt and no AllowedTools, with
the candidate list prepared from the Model and Models of the defaults, whatever
`Agents.Profiles` holds (also an entry keyed `"default"`); on `DefaultConfig` the
result has Model `"glm-4.7"`, Temperature 0.7 and MaxTokens 8192. -/
theorem GetAgentProfile_empty_and_default (c : Config) :
    c.GetAgentProfile "" = c.GetAgentProfile "default" ∧
    (c.GetAgentProfile "default").Workspace = c.Agents.Defaults.Workspace ∧
    (c.GetAgentProfile "default").RestrictToWorkspace = c.Agents.Defaults.RestrictToWorkspace ∧
    (c.GetAgentProfile "default").Provider = c.Agents.Defaults.Provider ∧
    (c.GetAgentProfile "default").MaxTokens = c.Agents.Defaults.MaxTokens ∧
    (c.GetAgentProfile "default").Temperature = c.Agents.Defaults.Temperature ∧
    (c.GetAgentProfile "default").MaxToolIterations = c.Agents.Defaults.MaxToolIterations ∧
    (c.GetAgentProfile "default").SystemPrompt = "" ∧
    (c.GetAgentProfile "default").AllowedTools = [] ∧
    (c.GetAgentProfile "default").Models = c.Agents.Defaults.Models ∧
    (c.GetAgentProfile "default").ResolvedModels =
      buildResolvedModelList c.Agents.Defaults.Model c.Agents.Defaults.Models ∧
    (c.GetAgentProfile "default").ModelCandidates =
      buildResolvedModelList c.Agents.Defaults.Model c.Agents.Defaults.Models ∧
    (c.GetAgentProfile "default").Model =
      (buildResolvedModelList c.Agents.Defaults.Model c.Agents.Defaults.Models).headD
        c.Agents.Defaults.Model ∧
    (reservedNameConfig.Agents.Profiles.lookup "default" = some reservedProfile ∧
      (reservedNameConfig.GetAgentProfile "default").Model = "glm-4.7" ∧
      (reservedNameConfig.GetAgentProfile "default").RestrictToWorkspace = false) ∧
    ((DefaultConfig.GetAgentProfile "").Model = "glm-4.7" ∧
      (DefaultConfig.GetAgentProfile "").Temperature = float64_0_7 ∧
      (DefaultConfig.GetAgentProfile "").MaxTokens = 8192) := by
  obtain ⟨he, hd⟩ := GetAgentProfile_default c
  obtain ⟨h1, h2, h3, h4, h5, h6, h7, h8, h9, h10⟩ := prepareModels_fields (defaultsProfile c)
  rw [he, hd, h1, h2, h3, h4, h5, h6, h7, h8, h9, h10, prepareModels_candidates,
    prepareModels_Model]
  exact ⟨rfl, rfl, rfl, rfl, rfl, rfl, rfl, rfl, rfl, rfl, rfl, rfl, rfl, by decide, by decide⟩

/-- C5 as stated fails for a profile registered under `"default"`: the defaults'
flag is returned, not the registered profile's. -/
theorem GetAgentProfile_restrict_counterexample :
    reservedNameConfig.Agents.Profiles.lookup "default" = some reservedProfile ∧
    reservedProfile.RestrictToWorkspace = true ∧
    (reservedNameConfig.GetAgentProfile "default").RestrictToWorkspace = false := by
  decide

/-- C5 (amended): for a profile registered under a name other than `""` and
`"default"`, the resolved RestrictToWorkspace is the registered profile's flag
verbatim, independent of the defaults; a profile that leaves the flag unset
resolves to false although `DefaultConfig` has it true. -/
theorem GetAgentProfile_restrict_verbatim (c : Config) (name : String) (p : AgentProfile)
    (hne : name ≠ "") (hnd : name ≠ "default")
    (hreg : c.Agents.Profiles.lookup name = some p) :
    (c.GetAgentProfile name).RestrictToWorkspace = p.RestrictToWorkspace ∧
    (unsetProfileConfig.Agents.Defaults.RestrictToWorkspace = true ∧
      (unsetProfileConfig.GetAgentProfile "coder").RestrictToWorkspace = false) := by
  rw [GetAgentProfile_registered c name p hne hnd hreg,
    (prepareModels_fields _).2.1, mergeProfile_RestrictToWorkspace]
  exact ⟨rfl, by decide⟩

/-- C5 (amended) at `DefaultConfig` with a profile that leaves the flag unset. -/
theorem GetAgentProfile_restrict_verbatim_witness :
    ("coder" ≠ "" ∧ "coder" ≠ "default" ∧
      unsetProfileConfig.Agents.Profiles.lookup "coder" = some {}) ∧
    ((unsetProfileConfig.GetAgentProfile "coder").RestrictToWorkspace =
        ({} : AgentProfile).RestrictToWorkspace ∧
      (unsetProfileConfig.Agents.Defaults.RestrictToWorkspace = true ∧
        (unsetProfileConfig.GetAgentProfile "coder").RestrictToWorkspace = false)) :=
  ⟨⟨by decide, by decide, by decide⟩,
    GetAgentProfile_restrict_verbatim unsetProfileConfig "coder" {}
      (by decide) (by decide) (by decide)⟩

/-- C6: `GetRoutedAgent` is the agent of the first rule, in declaration order,
that matches, and `""` when none matches; a rule matches iff its channel is the
given one and it has no effective user ids, or lists the user id, or lists `"*"`
and the user id is non-empty. -/
theorem GetRoutedAgent_first_match (c : Config) (channel userID : String) :
    c.GetRoutedAgent channel userID = firstMatchAgent c.Agents.Routing channel userID := by
  unfold Config.GetRoutedAgent
  exact routeRules_eq_firstMatchAgent channel userID c.Agents.Routing

/-- C7 as stated fails: with the wildcard rule declared before the rule that
lists the user exactly, the wildcard rule's agent is returned. -/
theorem GetRoutedAgent_exact_counterexample :
    exactRule ∈ wildcardFirstConfig.Agents.Routing ∧
    wildcardRule ∈ wildcardFirstConfig.Agents.Routing ∧
    exactRule.Channel = "line" ∧ wildcardRule.Channel = "line" ∧
    "111" ∈ exactRule.EffectiveUserIDs ∧ "*" ∈ wildcardRule.EffectiveUserIDs ∧
    wildcardFirstConfig.GetRoutedAgent "line" "111" = wildcardRule.Agent ∧
    wildcardFirstConfig.GetRoutedAgent "line" "111" ≠ exactRule.Agent := by
  decide

/-- C7 (amended): declaration order decides between an exact rule and a wildcard
rule of the same channel.  When no earlier rule matches, the rule listing the user
exactly wins if it is declared before the wildcard rule, and the wildcard rule
wins (for a non-empty user id) if it is declared before the exact rule. -/
theorem GetRoutedAgent_exact_vs_wildcard (c : Config) (channel userID : String)
    (exactR wildR : RoutingRule) (pre mid post : List RoutingRule)
    (hec : exactR.Channel = channel) (heu : userID ∈ exactR.EffectiveUserIDs)
    (hwc : wildR.Channel = channel) (hwu : "*" ∈ wildR.EffectiveUserIDs)
    (hpre : ∀ r ∈ pre, ¬ ruleMatches channel userID r) :
    ({ c with Agents := { c.Agents with Routing := pre ++ exactR :: (mid ++ wildR :: post) } }
        : Config).GetRoutedAgent channel userID = exactR.Agent ∧
    (userID ≠ "" →
      ({ c with Agents := { c.Agents with Routing := pre ++ wildR :: (mid ++ exactR :: post) } }
        : Config).GetRoutedAgent channel userID = wildR.Agent) := by
  constructor
  · show routeRules channel userID (pre ++ exactR :: (mid ++ wildR :: post)) = exactR.Agent
    rw [routeRules_skip channel userID pre _ hpre, routeRules_cons,
      if_pos ⟨hec, Or.inr (Or.inl heu)⟩]
  · intro hu
    show routeRules channel userID (pre ++ wildR :: (mid ++ exactR :: post)) = wildR.Agent
    rw [routeRules_skip channel userID pre _ hpre, routeRules_cons,
      if_pos ⟨hwc, Or.inr (Or.inr ⟨hwu, hu⟩)⟩]

/-- C7 (amended) on the rules of the counterexample, in both orders. -/
theorem GetRoutedAgent_exact_vs_wildcard_witness :
    (exactRule.Channel = "line" ∧ "111" ∈ exactRule.EffectiveUserIDs ∧
      wildcardRule.Channel = "line" ∧ "*" ∈ wildcardRule.EffectiveUserIDs ∧
      (∀ r ∈ ([] : List RoutingRule), ¬ ruleMatches "line" "111" r) ∧ "111" ≠ "") ∧
    ({ DefaultConfig with Agents :=
        { DefaultConfig.Agents with Routing := [] ++ exactRule :: ([] ++ wildcardRule :: []) } }
        : Config).GetRoutedAgent "line" "111" = exactRule.Agent ∧
    ({ DefaultConfig with Agents :=
        { DefaultConfig.Agents with Routing := [] ++ wildcardRule :: ([] ++ exactRule :: []) } }
        : Config).GetRoutedAgent "line" "111" = wildcardRule.Agent :=
  ⟨⟨by decide, by decide, by decide, by decide, by simp, by decide⟩,
    (GetRoutedAgent_exact_vs_wildcard DefaultConfig "line" "111" exactRule wildcardRule [] [] []
      (by decide) (by decide) (by decide) (by decide) (by simp)).1,
    (GetRoutedAgent_exact_vs_wildcard DefaultConfig "line" "111" exactRule wildcardRule [] [] []
      (by decide) (by decide) (by decide) (by decide) (by simp)).2 (by decide)⟩

/-! ## Properties of the retry loop -/

/-- Wrapping leaves a value of the 64-bit range unchanged. -/
theorem wrap64_of_inInt64 (x : Int) (h : inInt64 x) : wrap64 x = x := by
  unfold inInt64 minInt64 maxInt64 at h
  unfold wrap64
  norm_num at h ⊢
  omega

/-- A wrapped value is in the 64-bit range. -/
theorem wrap64_inInt64 (x : Int) : inInt64 (wrap64 x) := by
  unfold inInt64 minInt64 maxInt64 wrap64
  norm_num
  omega

/-- Without overflow the backoff update is the doubled wait capped at `MaxWait`. -/
theorem nextWait_eq_min (config : RetryConfig) (w : Int) (h : inInt64 (2 * w)) :
    nextWait config w = min (2 * w) config.MaxWait := by
  unfold nextWait
  rw [mul_comm w 2, wrap64_of_inInt64 _ h]
  simp only [gt_iff_lt]
  by_cases hc : config.MaxWait < 2 * w
  · rw [if_pos hc, min_eq_right (le_of_lt hc)]
  · rw [if_neg hc, min_eq_left (not_lt.mp hc)]

/-- One unfolding of the loop. -/
theorem retryLoop_succ (config : RetryConfig) (operation ctxDone : Nat → Option GoError)
    (fuel : Nat) (st : LoopState) :
    retryLoop config operation ctxDone (fuel + 1) st =
      if st.attempt ≤ config.MaxRetries then
        match waitPhase config ctxDone st with
        | .error out => some out
        | .ok st1 => afterWait config operation ctxDone fuel st1
      else
        some { err := some (exhaustedError config st.lastErr), trace := st.trace } := by
  rw [retryLoop]
  rfl

theorem callCount_append_call (t : List RetryEvent) :
    callCount (t ++ [RetryEvent.call]) = callCount t + 1 := by
  simp [callCount, List.count_append]

theorem callCount_append_waited (t : List RetryEvent) (d : Int) :
    callCount (t ++ [RetryEvent.waited d]) = callCount t := by
  simp [callCount, List.count_append]

theorem callCount_append_cancelled (t : List RetryEvent) (d : Int) :
    callCount (t ++ [RetryEvent.cancelled d]) = callCount t := by
  simp [callCount, List.count_append]

/-- A wait that is cut short returns without a further invocation. -/
theorem waitPhase_error (config : RetryConfig) (ctxDone : Nat → Option GoError)
    (st : LoopState) (out : RetryOutcome) (h : waitPhase config ctxDone st = .error out) :
    callCount out.trace = callCount st.trace := by
  unfold waitPhase at h
  split_ifs at h
  cases hc : ctxDone st.selects with
  | none => simp [hc] at h
  | some ctxErr =>
    simp only [hc, Except.error.injEq] at h
    rw [← h]
    exact callCount_append_cancelled _ _

/-- A completed wait changes neither the attempt number nor the invocations. -/
theorem waitPhase_ok (config : RetryConfig) (ctxDone : Nat → Option GoError)
    (st st1 : LoopState) (h : waitPhase config ctxDone st = .ok st1) :
    st1.calls = st.calls ∧ callCount st1.trace = callCount st.trace ∧
      st1.attempt = st.attempt := by
  unfold waitPhase at h
  split_ifs at h
  · cases hc : ctxDone st.selects with
    | some ctxErr => simp [hc] at h
    | none =>
      simp only [hc, Except.ok.injEq] at h
      rw [← h]
      exact ⟨rfl, callCount_append_waited _ _, rfl⟩
  · simp only [Except.ok.injEq] at h
    rw [← h]
    exact ⟨rfl, rfl, rfl⟩

/-- A run in which invocation `j` is the first one whose error is not retryable
returns within `j + 1` iterations, whatever the context does. -/
theorem retryLoop_returns (config : RetryConfig) (operation ctxDone : Nat → Option GoError)
    (j : Nat) (e : GoError) (hj : operation j = some e)
    (he : IsRetryableError (some e) = false) :
    ∀ (fuel : Nat) (st : LoopState), st.calls ≤ j → j + 1 ≤ fuel + st.calls →
      ∃ out, retryLoop config operation ctxDone fuel st = some out := by
  intro fuel
  induction fuel with
  | zero => intro st h1 h2; omega
  | succ fuel ih =>
    intro st h1 h2
    rw [retryLoop_succ]
    by_cases ha : st.attempt ≤ config.MaxRetries
    · rw [if_pos ha]
      cases hw : waitPhase config ctxDone st with
      | error out => exact ⟨out, rfl⟩
      | ok st1 =>
        obtain ⟨hc, -, -⟩ := waitPhase_ok config ctxDone st st1 hw
        simp only [afterWait]
        cases ho : operation st1.calls with
        | none => exact ⟨_, rfl⟩
        | some err =>
          by_cases hr : IsRetryableError (some err) = true
          · simp only [hr, Bool.not_true, Bool.false_eq_true, if_false]
            have hne : st1.calls ≠ j := by
              intro hEq
              rw [hEq, hj] at ho
              cases ho
              rw [he] at hr
              cases hr
            exact ih _ (by simp only; omega) (by simp only; omega)
          · simp only [hr, Bool.not_false, if_true]
            exact ⟨_, rfl⟩
    · rw [if_neg ha]
      exact ⟨_, rfl⟩

/-- If invocations `0 .. j-1` fail with retryable errors and invocation `j` fails
with an error `e` that is not retryable, then a run that reaches invocation `j`
returns `e` itself, and that invocation is the last event of the run. -/
theorem retryLoop_fatal (config : RetryConfig) (operation ctxDone : Nat → Option GoError)
    (j : Nat) (e : GoError)
    (hfail : ∀ i < j, ∃ e1, operation i = some e1 ∧ IsRetryableError (some e1) = true)
    (hj : operation j = some e) (he : IsRetryableError (some e) = false) :
    ∀ (fuel : Nat) (st : LoopState) (out : RetryOutcome),
      st.calls = callCount st.trace → st.calls ≤ j →
      retryLoop config operation ctxDone fuel st = some out →
      j + 1 ≤ callCount out.trace →
      out.err = some e ∧ callCount out.trace = j + 1 ∧
        out.trace.getLast? = some RetryEvent.call := by
  intro fuel
  induction fuel with
  | zero => intro st out _ _ h; simp [retryLoop] at h
  | succ fuel ih =>
    intro st out hinv hle hrun hreach
    rw [retryLoop_succ] at hrun
    by_cases ha : st.attempt ≤ config.MaxRetries
    · rw [if_pos ha] at hrun
      cases hw : waitPhase config ctxDone st with
      | error out1 =>
        rw [hw] at hrun
        simp only [Option.some.injEq] at hrun
        have := waitPhase_error config ctxDone st out1 hw
        rw [hrun] at this
        omega
      | ok st1 =>
        rw [hw] at hrun
        obtain ⟨hc, ht, -⟩ := waitPhase_ok config ctxDone st st1 hw
        simp only [afterWait] at hrun
        by_cases hlt : st1.calls < j
        · obtain ⟨e1, ho, hr⟩ := hfail _ hlt
          rw [ho] at hrun
          simp only [hr, Bool.not_true, Bool.false_eq_true, if_false] at hrun
          refine ih _ out ?_ ?_ hrun hreach
          · simp only
            rw [callCount_append_call]
            omega
          · simp only
            omega
        · have hEq : st1.calls = j := by omega
          rw [hEq, hj] at hrun
          simp only [he, Bool.not_false, if_true, Option.some.injEq] at hrun
          rw [← hrun]
          refine ⟨rfl, ?_, ?_⟩
          · simp only
            rw [callCount_append_call]
            omega
          · simp
    · rw [if_neg ha] at hrun
      simp only [Option.some.injEq] at hrun
      rw [← hrun] at hreach
      simp only at hreach
      omega

/-- The first iteration has no wait: with a non-negative `MaxRetries` the run
starts by invoking the operation. -/
theorem RetryWithBackoff_succ (config : RetryConfig) (operation ctxDone : Nat → Option GoError)
    (fuel : Nat) (hmax : 0 ≤ config.MaxRetries) :
    RetryWithBackoff config operation ctxDone (fuel + 1) =
      afterWait config operation ctxDone fuel (retryState config operation 0) := by
  unfold RetryWithBackoff
  rw [retryLoop_succ]
  have h0 : (initialState config).attempt ≤ config.MaxRetries := hmax
  rw [if_pos h0]
  simp [waitPhase, initialState, retryState, waitAfter, retryTrace]

/-- A retryable failure at attempt `i`, followed by a wait that is not cut short,
leads to attempt `i + 1`. -/
theorem afterWait_step (config : RetryConfig) (operation ctxDone : Nat → Option GoError)
    (fuel i : Nat) (e : GoError) (ho : operation i = some e)
    (hr : IsRetryableError (some e) = true) (hctx : ctxDone i = none)
    (hi : ((i : Int) + 1) ≤ config.MaxRetries) (hmax : config.MaxRetries ≤ maxInt64) :
    afterWait config operation ctxDone (fuel + 1) (retryState config operation i) =
      afterWait config operation ctxDone fuel (retryState config operation (i + 1)) := by
  have hw : wrap64 ((i : Int) + 1) = (i : Int) + 1 := by
    apply wrap64_of_inInt64
    unfold inInt64 minInt64
    unfold maxInt64 at hmax ⊢
    constructor <;> omega
  conv_lhs => unfold afterWait
  simp only [retryState, ho, hr, Bool.not_true, Bool.false_eq_true, if_false]
  rw [retryLoop_succ]
  dsimp only
  rw [hw, if_pos hi]
  have hpos : ((i : Int) + 1) > 0 := by omega
  unfold waitPhase
  dsimp only
  rw [if_pos hpos, hctx]
  dsimp only
  simp only [retryTrace, waitAfter, Function.iterate_succ_apply', List.append_assoc,
    List.cons_append, List.nil_append, Nat.cast_add, Nat.cast_one]

/-- After `n` retryable failures in a row, with no wait cut short, the run stands
before attempt `n`. -/
theorem afterWait_steps (config : RetryConfig) (operation ctxDone : Nat → Option GoError)
    (n : Nat) (hfail : ∀ i < n, ∃ e, operation i = some e ∧ IsRetryableError (some e) = true)
    (hctx : ∀ i < n, ctxDone i = none)
    (hn : (n : Int) ≤ config.MaxRetries) (hmax : config.MaxRetries ≤ maxInt64) (fuel : Nat) :
    afterWait config operation ctxDone (fuel + n) (retryState config operation 0) =
      afterWait config operation ctxDone fuel (retryState config operation n) := by
  induction n generalizing fuel with
  | zero => rfl
  | succ n ih =>
    have hn1 : (n : Int) ≤ config.MaxRetries := by push_cast at hn; omega
    rw [show fuel + (n + 1) = (fuel + 1) + n by omega,
      ih (fun i hi => hfail i (by omega)) (fun i hi => hctx i (by omega)) hn1 (fuel + 1)]
    obtain ⟨e, ho, hr⟩ := hfail n (by omega)
    exact afterWait_step config operation ctxDone fuel n e ho hr (hctx n (by omega))
      (by push_cast at hn; omega) hmax

theorem callCount_retryTrace (config : RetryConfig) (n : Nat) :
    callCount (retryTrace config n) = n := by
  induction n with
  | zero => rfl
  | succ n ih =>
    simp only [retryTrace]
    rw [show [RetryEvent.call, RetryEvent.waited (waitAfter config n)] =
      [RetryEvent.call] ++ [RetryEvent.waited (waitAfter config n)] from rfl,
      ← List.append_assoc, callCount_append_waited, callCount_append_call, ih]

theorem waitsOf_append (a b : List RetryEvent) : waitsOf (a ++ b) = waitsOf a ++ waitsOf b := by
  simp [waitsOf, List.filterMap_append]

theorem waitsOf_retryTrace (config : RetryConfig) (n : Nat) :
    waitsOf (retryTrace config n) = (List.range n).map (waitAfter config) := by
  induction n with
  | zero => rfl
  | succ n ih =>
    simp only [retryTrace]
    rw [waitsOf_append, ih, List.range_succ, List.map_append]
    rfl

/-- Adjacent waits of a run without overflow: the later one is the earlier one
doubled and capped. -/
theorem waitAfter_chain (config : RetryConfig) (n : Nat) :
    List.Chain' (fun prev next => inInt64 (2 * prev) → next = min (2 * prev) config.MaxWait)
      ((List.range n).map (waitAfter config)) := by
  rw [List.chain'_map]
  cases n with
  | zero => simp
  | succ n =>
    rw [List.chain'_range_succ]
    intro m _ h
    rw [← nextWait_eq_min config _ h]
    simp only [waitAfter, Function.iterate_succ_apply', Nat.succ_eq_add_one]

/-- The run after `n` retryable failures followed by a success. -/
theorem afterWait_success (config : RetryConfig) (operation ctxDone : Nat → Option GoError)
    (fuel n : Nat) (hok : operation n = none) :
    afterWait config operation ctxDone fuel (retryState config operation n) =
      some { err := none, trace := retryTrace config n ++ [RetryEvent.call] } := by
  simp only [afterWait, retryState, hok]

/-- The run after `n` retryable failures followed by an error that is not retryable. -/
theorem afterWait_fatal (config : RetryConfig) (operation ctxDone : Nat → Option GoError)
    (fuel n : Nat) (e : GoError) (hj : operation n = some e)
    (he : IsRetryableError (some e) = false) :
    afterWait config operation ctxDone fuel (retryState config operation n) =
      some { err := some e, trace := retryTrace config n ++ [RetryEvent.call] } := by
  simp only [afterWait, retryState, hj, he, Bool.not_false, if_true]

/-- The run after `MaxRetries` retryable failures followed by one more. -/
theorem afterWait_exhausted (config : RetryConfig) (operation ctxDone : Nat → Option GoError)
    (fuel n : Nat) (e : GoError) (ho : operation n = some e)
    (hr : IsRetryableError (some e) = true)
    (hn : (n : Int) = config.MaxRetries) (hlt : config.MaxRetries < maxInt64) :
    afterWait config operation ctxDone (fuel + 1) (retryState config operation n) =
      some { err := some (exhaustedError config (some e))
             trace := retryTrace config n ++ [RetryEvent.call] } := by
  have hw : wrap64 ((n : Int) + 1) = (n : Int) + 1 := by
    apply wrap64_of_inInt64
    unfold inInt64 minInt64
    unfold maxInt64 at hlt ⊢
    constructor <;> omega
  conv_lhs => unfold afterWait
  simp only [retryState, ho, hr, Bool.not_true, Bool.false_eq_true, if_false]
  rw [retryLoop_succ]
  dsimp only
  rw [hw, if_neg (by omega)]

theorem length_waitsOf_retryTrace_call (config : RetryConfig) (n : Nat) :
    (waitsOf (retryTrace config n ++ [RetryEvent.call])).length = n := by
  rw [waitsOf_append, waitsOf_retryTrace]
  simp [waitsOf]

theorem callCount_retryTrace_call (config : RetryConfig) (n : Nat) :
    callCount (retryTrace config n ++ [RetryEvent.call]) = n + 1 := by
  rw [callCount_append_call, callCount_retryTrace]

/-- With the largest `MaxRetries`, an operation that keeps failing with a
retryable error and a context that is never done, the loop does not return. -/
theorem retryLoop_maxRetries_none (fuel : Nat) :
    ∀ st : LoopState, st.attempt ≤ maxInt64 →
      retryLoop maxRetriesConfig alwaysFail neverDone fuel st = none := by
  induction fuel with
  | zero => intro st _; rfl
  | succ fuel ih =>
    intro st hst
    rw [retryLoop_succ]
    have hle : st.attempt ≤ maxRetriesConfig.MaxRetries := hst
    rw [if_pos hle]
    have hr : IsRetryableError (some dnsTimeout) = true := by decide
    by_cases hpos : st.attempt > 0
    · simp only [waitPhase, hpos, if_true, neverDone, afterWait, alwaysFail, hr, Bool.not_true,
        Bool.false_eq_true, if_false]
      exact ih _ (wrap64_inInt64 _).2
    · simp only [waitPhase, hpos, if_false, afterWait, alwaysFail, hr, Bool.not_true,
        Bool.false_eq_true]
      exact ih _ (wrap64_inInt64 _).2

/-! ## Claims on retry with backoff -/

/-- C8 as stated fails.  A context that is done during the first wait makes the run
return the cancellation error after one invocation, although the operation would
fail once and then succeed; and when doubling the wait overflows 64 bits, the next
wait is not `min(2 * previous, MaxWait)`. -/
theorem RetryWithBackoff_fail_then_succeed_counterexample :
    (0 ≤ DefaultRetryConfig.MaxRetries ∧ (1 : Int) ≤ DefaultRetryConfig.MaxRetries ∧
      IsRetryableError (failThenSucceed 1 0) = true ∧ failThenSucceed 1 1 = none ∧
      RetryWithBackoff DefaultRetryConfig (failThenSucceed 1) doneAtFirstWait 5 =
        some { err := some (cancelledError contextCanceled)
               trace := [RetryEvent.call, RetryEvent.cancelled (1 * Second)] }) ∧
    (0 ≤ overflowConfig.MaxRetries ∧ (2 : Int) ≤ overflowConfig.MaxRetries ∧
      IsRetryableError (failThenSucceed 2 0) = true ∧
      IsRetryableError (failThenSucceed 2 1) = true ∧ failThenSucceed 2 2 = none ∧
      (RetryWithBackoff overflowConfig (failThenSucceed 2) neverDone 5).map
          (fun out => waitsOf out.trace) = some [-(2 ^ 62) - 1, 1 * Second] ∧
      (1 * Second : Int) ≠ min (2 * (-(2 ^ 62) - 1)) overflowConfig.MaxWait) := by
  decide

/-- C8 (amended): for a config with `0 ≤ MaxRetries` and `N ≤ MaxRetries`, when the
context ends none of the first `N` waits, an operation that fails `N` times with a
retryable error and then succeeds makes `RetryWithBackoff` return nil after
exactly `N + 1` invocations and exactly `N` waits; the first wait is
`InitialWait`, and every later wait is `min(2 * previous wait, MaxWait)` whenever
`2 * previous wait` is a 64-bit value; with `DefaultRetryConfig` the waits are 1s,
2s, 4s.  (`MaxRetries` is a Go `int`, hence the bound `hint`.) -/
theorem RetryWithBackoff_fail_then_succeed (config : RetryConfig)
    (operation ctxDone : Nat → Option GoError) (N : Nat)
    (hmax : 0 ≤ config.MaxRetries) (hint : config.MaxRetries ≤ maxInt64)
    (hN : (N : Int) ≤ config.MaxRetries)
    (hfail : ∀ i < N, ∃ e, operation i = some e ∧ IsRetryableError (some e) = true)
    (hok : operation N = none)
    (hctx : ∀ i < N, ctxDone i = none) :
    (∀ fuel, N < fuel →
      ∃ out, RetryWithBackoff config operation ctxDone fuel = some out ∧
        out.err = none ∧
        callCount out.trace = N + 1 ∧
        (waitsOf out.trace).length = N ∧
        (∀ d, RetryEvent.cancelled d ∉ out.trace) ∧
        (0 < N → (waitsOf out.trace).head? = some config.InitialWait) ∧
        List.Chain'
          (fun prev next => inInt64 (2 * prev) → next = min (2 * prev) config.MaxWait)
          (waitsOf out.trace)) ∧
    (RetryWithBackoff DefaultRetryConfig (failThenSucceed 3) neverDone 4).map
        (fun out => waitsOf out.trace) = some [1 * Second, 2 * Second, 4 * Second] := by
  refine ⟨?_, by decide⟩
  intro fuel hfuel
  obtain ⟨f, rfl⟩ : ∃ f, fuel = (f + N) + 1 := ⟨fuel - N - 1, by omega⟩
  refine ⟨{ err := none, trace := retryTrace config N ++ [RetryEvent.call] }, ?_, rfl,
    callCount_retryTrace_call config N, length_waitsOf_retryTrace_call config N, ?_, ?_, ?_⟩
  · rw [RetryWithBackoff_succ config operation ctxDone _ hmax,
      afterWait_steps config operation ctxDone N hfail hctx hN hint f,
      afterWait_success config operation ctxDone f N hok]
  · intro d hd
    have hnone : ∀ n : Nat, RetryEvent.cancelled d ∉ retryTrace config n := by
      intro n
      induction n with
      | zero => simp [retryTrace]
      | succ n ih => simp [retryTrace, ih]
    simp only [List.mem_append, List.mem_singleton] at hd
    rcases hd with hd | hd
    · exact hnone N hd
    · cases hd
  · intro hpos
    obtain ⟨m, rfl⟩ : ∃ m, N = m + 1 := ⟨N - 1, by omega⟩
    simp only [waitsOf_append, waitsOf_retryTrace]
    rw [List.range_succ_eq_map]
    simp [waitAfter]
  · simp only [waitsOf_append, waitsOf_retryTrace]
    have hc : waitsOf [RetryEvent.call] = [] := rfl
    rw [hc, List.append_nil]
    exact waitAfter_chain config N

/-- C8 (amended) on `DefaultRetryConfig`, with three DNS timeouts before the success. -/
theorem RetryWithBackoff_fail_then_succeed_witness :
    (0 ≤ DefaultRetryConfig.MaxRetries ∧ DefaultRetryConfig.MaxRetries ≤ maxInt64 ∧
      ((3 : Nat) : Int) ≤ DefaultRetryConfig.MaxRetries ∧
      (∀ i < 3, ∃ e, failThenSucceed 3 i = some e ∧ IsRetryableError (some e) = true) ∧
      failThenSucceed 3 3 = none ∧ (∀ i < 3, neverDone i = none)) ∧
    (∃ out, RetryWithBackoff DefaultRetryConfig (failThenSucceed 3) neverDone 4 = some out ∧
        out.err = none ∧
        callCount out.trace = 3 + 1 ∧
        (waitsOf out.trace).length = 3 ∧
        (∀ d, RetryEvent.cancelled d ∉ out.trace) ∧
        (0 < 3 → (waitsOf out.trace).head? = some DefaultRetryConfig.InitialWait) ∧
        List.Chain'
          (fun prev next =>
            inInt64 (2 * prev) → next = min (2 * prev) DefaultRetryConfig.MaxWait)
          (waitsOf out.trace)) :=
  ⟨⟨by decide, by decide, by decide,
      fun i hi => ⟨dnsTimeout, by simp [failThenSucceed, hi], by decide⟩,
      by decide, fun _ _ => rfl⟩,
    (RetryWithBackoff_fail_then_succeed DefaultRetryConfig (failThenSucceed 3) neverDone 3
      (by decide) (by decide) (by decide)
      (fun i hi => ⟨dnsTimeout, by simp [failThenSucceed, hi], by decide⟩)
      (by decide) (fun _ _ => rfl)).1 4 (by decide)⟩

/-- C9: for a config with `0 ≤ MaxRetries`, if the `(j+1)`-th invocation of the
operation, preceded only by retryable failures, returns an error `e` that is not
retryable, then `RetryWithBackoff` returns; and in a run where that invocation
takes place the returned error is `e` itself, the invocation is the last event (no
wait after it, no further invocation), and the operation was invoked `j + 1`
times.  The invocation takes place whenever `j ≤ MaxRetries` and the context ends
none of the `j` waits before it, with exactly `j` waits; for `j = 0` the run is one
invocation and no wait. -/
theorem RetryWithBackoff_fatal_error (config : RetryConfig)
    (operation ctxDone : Nat → Option GoError) (j : Nat) (e : GoError)
    (hmax : 0 ≤ config.MaxRetries)
    (hfail : ∀ i < j, ∃ e1, operation i = some e1 ∧ IsRetryableError (some e1) = true)
    (hj : operation j = some e) (he : IsRetryableError (some e) = false) :
    ∀ fuel, j < fuel →
      ∃ out, RetryWithBackoff config operation ctxDone fuel = some out ∧
        (j + 1 ≤ callCount out.trace →
          out.err = some e ∧ callCount out.trace = j + 1 ∧
            out.trace.getLast? = some RetryEvent.call) ∧
        ((j : Int) ≤ config.MaxRetries → config.MaxRetries ≤ maxInt64 →
          (∀ i < j, ctxDone i = none) →
          out.err = some e ∧ callCount out.trace = j + 1 ∧
            (waitsOf out.trace).length = j ∧
            out.trace.getLast? = some RetryEvent.call) ∧
        (j = 0 → out = { err := some e, trace := [RetryEvent.call] }) := by
  intro fuel hfuel
  obtain ⟨out, hout⟩ := retryLoop_returns config operation ctxDone j e hj he fuel
    (initialState config) (Nat.zero_le _) (by simp only [initialState]; omega)
  refine ⟨out, hout, ?_, ?_, ?_⟩
  · intro hreach
    exact retryLoop_fatal config operation ctxDone j e hfail hj he fuel (initialState config)
      out rfl (Nat.zero_le _) hout hreach
  · intro hle hint hctx
    obtain ⟨f, rfl⟩ : ∃ f, fuel = (f + j) + 1 := ⟨fuel - j - 1, by omega⟩
    have hrun : RetryWithBackoff config operation ctxDone (f + j + 1) =
        some { err := some e, trace := retryTrace config j ++ [RetryEvent.call] } := by
      rw [RetryWithBackoff_succ config operation ctxDone _ hmax,
        afterWait_steps config operation ctxDone j hfail hctx hle hint f,
        afterWait_fatal config operation ctxDone f j e hj he]
    have hEq : out = { err := some e, trace := retryTrace config j ++ [RetryEvent.call] } := by
      have := hout.symm.trans hrun
      exact Option.some.inj this
    rw [hEq]
    exact ⟨rfl, callCount_retryTrace_call config j, length_waitsOf_retryTrace_call config j,
      by simp⟩
  · intro hj0
    subst hj0
    obtain ⟨f, rfl⟩ : ∃ f, fuel = f + 1 := ⟨fuel - 1, by omega⟩
    have hrun : RetryWithBackoff config operation ctxDone (f + 1) =
        some { err := some e, trace := [RetryEvent.call] } := by
      rw [RetryWithBackoff_succ config operation ctxDone _ hmax,
        afterWait_fatal config operation ctxDone f 0 e hj he]
      rfl
    exact Option.some.inj (hout.symm.trans hrun)

/-- C9 on `DefaultRetryConfig`: a DNS timeout, then an error that is not retryable. -/
theorem RetryWithBackoff_fatal_error_witness :
    (0 ≤ DefaultRetryConfig.MaxRetries ∧
      (∀ i < 1, ∃ e1, failThenFatal 1 i = some e1 ∧ IsRetryableError (some e1) = true) ∧
      failThenFatal 1 1 = some unauthorized ∧ IsRetryableError (some unauthorized) = false) ∧
    (∃ out, RetryWithBackoff DefaultRetryConfig (failThenFatal 1) neverDone 2 = some out ∧
        (1 + 1 ≤ callCount out.trace →
          out.err = some unauthorized ∧ callCount out.trace = 1 + 1 ∧
            out.trace.getLast? = some RetryEvent.call) ∧
        (((1 : Nat) : Int) ≤ DefaultRetryConfig.MaxRetries →
          DefaultRetryConfig.MaxRetries ≤ maxInt64 →
          (∀ i < 1, neverDone i = none) →
          out.err = some unauthorized ∧ callCount out.trace = 1 + 1 ∧
            (waitsOf out.trace).length = 1 ∧
            out.trace.getLast? = some RetryEvent.call) ∧
        (1 = 0 → out = { err := some unauthorized, trace := [RetryEvent.call] })) :=
  ⟨⟨by decide, fun i hi => ⟨dnsTimeout, by simp [failThenFatal, hi], by decide⟩,
      by decide, by decide⟩,
    RetryWithBackoff_fatal_error DefaultRetryConfig (failThenFatal 1) neverDone 1 unauthorized
      (by decide) (fun i hi => ⟨dnsTimeout, by simp [failThenFatal, hi], by decide⟩)
      (by decide) (by decide) 2 (by decide)⟩

/-- C10 as stated fails at the largest `MaxRetries`: the attempt counter wraps
around, the loop condition stays true, and the run never returns. -/
theorem RetryWithBackoff_exhausted_counterexample :
    0 ≤ maxRetriesConfig.MaxRetries ∧ inInt64 maxRetriesConfig.MaxRetries ∧
    IsRetryableError (some dnsTimeout) = true ∧
    ¬ ∃ fuel out, RetryWithBackoff maxRetriesConfig alwaysFail neverDone fuel = some out := by
  refine ⟨by decide, by decide, by decide, ?_⟩
  rintro ⟨fuel, out, h⟩
  have hnone := retryLoop_maxRetries_none fuel (initialState maxRetriesConfig) (by decide)
  unfold RetryWithBackoff at h
  rw [hnone] at h
  cases h

/-- C10 (amended): for a config with `0 ≤ MaxRetries < 2^63 - 1` and a context that
ends no wait, if every invocation fails with a retryable error, `RetryWithBackoff`
invokes the operation exactly `MaxRetries + 1` times with exactly `MaxRetries`
waits and returns an error that wraps the error of the last invocation and whose
message is `"failed after <MaxRetries+1> attempts: "` followed by that error's
message. -/
theorem RetryWithBackoff_exhausted (config : RetryConfig)
    (operation ctxDone : Nat → Option GoError)
    (hmax : 0 ≤ config.MaxRetries) (hlt : config.MaxRetries < maxInt64)
    (hfail : ∀ i, ∃ e, operation i = some e ∧ IsRetryableError (some e) = true)
    (hctx : ∀ i, ctxDone i = none) :
    ∀ fuel : Nat, config.MaxRetries + 1 < (fuel : Int) →
      ∃ out last,
        RetryWithBackoff config operation ctxDone fuel = some out ∧
        operation config.MaxRetries.toNat = some last ∧
        out.err = some (GoError.wrap
          ("failed after " ++ toString (config.MaxRetries + 1) ++ " attempts: " ++ last.Error)
          none [] last) ∧
        (callCount out.trace : Int) = config.MaxRetries + 1 ∧
        ((waitsOf out.trace).length : Int) = config.MaxRetries ∧
        (∀ d, RetryEvent.cancelled d ∉ out.trace) := by
  intro fuel hfuel
  obtain ⟨n, hn⟩ : ∃ n : Nat, (n : Int) = config.MaxRetries :=
    ⟨config.MaxRetries.toNat, Int.toNat_of_nonneg hmax⟩
  have hnat : config.MaxRetries.toNat = n := by omega
  obtain ⟨f, rfl⟩ : ∃ f, fuel = ((f + 1) + n) + 1 := ⟨fuel - n - 2, by omega⟩
  obtain ⟨last, ho, hr⟩ := hfail n
  have hw : wrap64 (config.MaxRetries + 1) = config.MaxRetries + 1 := by
    apply wrap64_of_inInt64
    unfold inInt64 minInt64
    unfold maxInt64 at hlt ⊢
    constructor <;> omega
  refine ⟨{ err := some (exhaustedError config (some last))
            trace := retryTrace config n ++ [RetryEvent.call] }, last, ?_, ?_, ?_, ?_, ?_, ?_⟩
  · rw [RetryWithBackoff_succ config operation ctxDone _ hmax,
      afterWait_steps config operation ctxDone n (fun i _ => hfail i) (fun i _ => hctx i)
        (le_of_eq hn) (le_of_lt hlt) (f + 1),
      afterWait_exhausted config operation ctxDone f n last ho hr hn hlt]
  · rw [hnat, ho]
  · simp only [exhaustedError, fmtErrorfW, hw]
  · simp only
    rw [callCount_retryTrace_call]
    push_cast
    omega
  · simp only
    rw [length_waitsOf_retryTrace_call]
    exact hn
  · intro d hd
    have hnone : ∀ m : Nat, RetryEvent.cancelled d ∉ retryTrace config m := by
      intro m
      induction m with
      | zero => simp [retryTrace]
      | succ m ih => simp [retryTrace, ih]
    simp only [List.mem_append, List.mem_singleton] at hd
    rcases hd with hd | hd
    · exact hnone n hd
    · cases hd

/-- C10 (amended) on `DefaultRetryConfig`: four DNS timeouts, three waits. -/
theorem RetryWithBackoff_exhausted_witness :
    (0 ≤ DefaultRetryConfig.MaxRetries ∧ DefaultRetryConfig.MaxRetries < maxInt64 ∧
      (∀ i, ∃ e, alwaysFail i = some e ∧ IsRetryableError (some e) = true) ∧
      (∀ i, neverDone i = none) ∧ DefaultRetryConfig.MaxRetries + 1 < ((5 : Nat) : Int)) ∧
    (∃ out last,
        RetryWithBackoff DefaultRetryConfig alwaysFail neverDone 5 = some out ∧
        alwaysFail DefaultRetryConfig.MaxRetries.toNat = some last ∧
        out.err = some (GoError.wrap
          ("failed after " ++ toString (DefaultRetryConfig.MaxRetries + 1) ++ " attempts: " ++
            last.Error)
          none [] last) ∧
        (callCount out.trace : Int) = DefaultRetryConfig.MaxRetries + 1 ∧
        ((waitsOf out.trace).length : Int) = DefaultRetryConfig.MaxRetries ∧
        (∀ d, RetryEvent.cancelled d ∉ out.trace)) :=
  ⟨⟨by decide, by decide, fun _ => ⟨dnsTimeout, rfl, by decide⟩, fun _ => rfl, by decide⟩,
    RetryWithBackoff_exhausted DefaultRetryConfig alwaysFail neverDone (by decide) (by decide)
      (fun _ => ⟨dnsTimeout, rfl, by decide⟩) (fun _ => rfl) 5 (by decide)⟩

/-! ## Properties of the error classification -/

/-- The two message tests at the head of `IsRetryableError`. -/
theorem isRetryableNonNil_of_message (err : GoError)
    (h : (Contains err.Error "i/o timeout" &&
            (Contains err.Error "lookup" || Contains err.Error "dial tcp")) = true ∨
         (Contains err.Error "connection timed out" ||
            Contains err.Error "Connection refused" ||
            Contains err.Error "no such host") = true) :
    isRetryableNonNil err = true := by
  rw [isRetryableNonNil.eq_def]
  rcases h with h | h
  · simp only [h, if_true]
  · simp only [h, if_true, ite_self]

/-- What `IsRetryableError` does with an error whose message passes neither
message test. -/
theorem isRetryableNonNil_of_not_message (err : GoError)
    (h1 : (Contains err.Error "i/o timeout" &&
            (Contains err.Error "lookup" || Contains err.Error "dial tcp")) = false)
    (h2 : (Contains err.Error "connection timed out" ||
            Contains err.Error "Connection refused" ||
            Contains err.Error "no such host") = false) :
    isRetryableNonNil err =
      match err with
      | .urlError _ flags inner => flags.Temporary || isRetryableNonNil inner
      | .urlErrorNil _ => false
      | e =>
        (match e.netError with
          | some netErr => netErr.Temporary || netErr.Timeout
          | none => false) ||
        (errorsIs e Errno.ECONNRESET || errorsIs e Errno.EPIPE || errorsIs e Errno.ETIMEDOUT) := by
  rw [isRetryableNonNil.eq_def]
  simp only [h1, h2, Bool.false_eq_true, if_false]
  cases err with
  | urlError msg flags inner => cases hf : flags.Temporary <;> simp
  | urlErrorNil msg => rfl
  | leaf msg net errnos =>
    simp only [GoError.netError]
    cases hn : (match net with
      | some netErr => netErr.Temporary || netErr.Timeout
      | none => false) <;> simp
  | wrap msg net errnos inner =>
    simp only [GoError.netError]
    cases hn : (match net with
      | some netErr => netErr.Temporary || netErr.Timeout
      | none => false) <;> simp
  | join msg net errnos first rest =>
    simp only [GoError.netError]
    cases hn : (match net with
      | some netErr => netErr.Temporary || netErr.Timeout
      | none => false) <;> simp

/-- An error that wraps, at any depth, one of the three `syscall.Errno` targets is
classified as retryable. -/
theorem isRetryableNonNil_of_errorsIs (err : GoError)
    (h : (errorsIs err Errno.ECONNRESET || errorsIs err Errno.EPIPE ||
            errorsIs err Errno.ETIMEDOUT) = true) :
    isRetryableNonNil err = true := by
  induction err with
  | leaf msg net errnos =>
    by_cases h1 : (Contains (GoError.leaf msg net errnos).Error "i/o timeout" &&
        (Contains (GoError.leaf msg net errnos).Error "lookup" ||
          Contains (GoError.leaf msg net errnos).Error "dial tcp")) = true
    · exact isRetryableNonNil_of_message _ (Or.inl h1)
    by_cases h2 : (Contains (GoError.leaf msg net errnos).Error "connection timed out" ||
        Contains (GoError.leaf msg net errnos).Error "Connection refused" ||
        Contains (GoError.leaf msg net errnos).Error "no such host") = true
    · exact isRetryableNonNil_of_message _ (Or.inr h2)
    rw [isRetryableNonNil_of_not_message _ (Bool.eq_false_iff.mpr h1) (Bool.eq_false_iff.mpr h2)]
    simp only [h, Bool.or_true]
  | wrap msg net errnos inner _ =>
    by_cases h1 : (Contains (GoError.wrap msg net errnos inner).Error "i/o timeout" &&
        (Contains (GoError.wrap msg net errnos inner).Error "lookup" ||
          Contains (GoError.wrap msg net errnos inner).Error "dial tcp")) = true
    · exact isRetryableNonNil_of_message _ (Or.inl h1)
    by_cases h2 : (Contains (GoError.wrap msg net errnos inner).Error "connection timed out" ||
        Contains (GoError.wrap msg net errnos inner).Error "Connection refused" ||
        Contains (GoError.wrap msg net errnos inner).Error "no such host") = true
    · exact isRetryableNonNil_of_message _ (Or.inr h2)
    rw [isRetryableNonNil_of_not_message _ (Bool.eq_false_iff.mpr h1) (Bool.eq_false_iff.mpr h2)]
    simp only [h, Bool.or_true]
  | join msg net errnos first rest _ _ =>
    by_cases h1 : (Contains (GoError.join msg net errnos first rest).Error "i/o timeout" &&
        (Contains (GoError.join msg net errnos first rest).Error "lookup" ||
          Contains (GoError.join msg net errnos first rest).Error "dial tcp")) = true
    · exact isRetryableNonNil_of_message _ (Or.inl h1)
    by_cases h2 :
        (Contains (GoError.join msg net errnos first rest).Error "connection timed out" ||
        Contains (GoError.join msg net errnos first rest).Error "Connection refused" ||
        Contains (GoError.join msg net errnos first rest).Error "no such host") = true
    · exact isRetryableNonNil_of_message _ (Or.inr h2)
    rw [isRetryableNonNil_of_not_message _ (Bool.eq_false_iff.mpr h1) (Bool.eq_false_iff.mpr h2)]
    simp only [h, Bool.or_true]
  | urlErrorNil msg => simp [errorsIs] at h
  | urlError msg flags inner ih =>
    by_cases h1 : (Contains (GoError.urlError msg flags inner).Error "i/o timeout" &&
        (Contains (GoError.urlError msg flags inner).Error "lookup" ||
          Contains (GoError.urlError msg flags inner).Error "dial tcp")) = true
    · exact isRetryableNonNil_of_message _ (Or.inl h1)
    by_cases h2 : (Contains (GoError.urlError msg flags inner).Error "connection timed out" ||
        Contains (GoError.urlError msg flags inner).Error "Connection refused" ||
        Contains (GoError.urlError msg flags inner).Error "no such host") = true
    · exact isRetryableNonNil_of_message _ (Or.inr h2)
    rw [isRetryableNonNil_of_not_message _ (Bool.eq_false_iff.mpr h1) (Bool.eq_false_iff.mpr h2)]
    simp only [errorsIs] at h
    simp only [ih h, Bool.or_true]

/-- An error passed directly that is a `*url.Error` reporting `Temporary`, or a
`*url.Error` around a retryable error, or a value of another type that implements
`net.Error` and reports `Temporary` or `Timeout`, is classified as retryable. -/
theorem isRetryableNonNil_of_marked (err : GoError)
    (h : (∃ msg flags inner, err = GoError.urlError msg flags inner ∧
            (flags.Temporary = true ∨ isRetryableNonNil inner = true)) ∨
         (err.isURLError = false ∧
            ∃ netErr, err.netError = some netErr ∧
              (netErr.Temporary = true ∨ netErr.Timeout = true))) :
    isRetryableNonNil err = true := by
  by_cases h1 : (Contains err.Error "i/o timeout" &&
      (Contains err.Error "lookup" || Contains err.Error "dial tcp")) = true
  · exact isRetryableNonNil_of_message _ (Or.inl h1)
  by_cases h2 : (Contains err.Error "connection timed out" ||
      Contains err.Error "Connection refused" || Contains err.Error "no such host") = true
  · exact isRetryableNonNil_of_message _ (Or.inr h2)
  rw [isRetryableNonNil_of_not_message _ (Bool.eq_false_iff.mpr h1) (Bool.eq_false_iff.mpr h2)]
  rcases h with ⟨msg, flags, inner, rfl, hf | hi⟩ | ⟨hu, netErr, hn, hf⟩
  · simp only [hf, Bool.true_or]
  · simp only [hi, Bool.or_true]
  · cases err with
    | urlError msg flags inner => simp [GoError.isURLError] at hu
    | urlErrorNil msg => simp [GoError.isURLError] at hu
    | leaf msg net errnos =>
      simp only [hn]
      rcases hf with hf | hf <;> simp [hf]
    | wrap msg net errnos inner =>
      simp only [hn]
      rcases hf with hf | hf <;> simp [hf]
    | join msg net errnos first rest =>
      simp only [hn]
      rcases hf with hf | hf <;> simp [hf]

/-- An error that is not a `*url.Error`, reports neither `Temporary` nor `Timeout`,
wraps none of the three targets and passes neither message test is not retryable. -/
theorem isRetryableNonNil_of_plain (err : GoError)
    (hurl : err.isURLError = false)
    (hnet : ∀ netErr, err.netError = some netErr →
      netErr.Temporary = false ∧ netErr.Timeout = false)
    (his : errorsIs err Errno.ECONNRESET = false ∧ errorsIs err Errno.EPIPE = false ∧
      errorsIs err Errno.ETIMEDOUT = false)
    (h1 : (Contains err.Error "i/o timeout" &&
            (Contains err.Error "lookup" || Contains err.Error "dial tcp")) = false)
    (h2 : (Contains err.Error "connection timed out" ||
            Contains err.Error "Connection refused" ||
            Contains err.Error "no such host") = false) :
    isRetryableNonNil err = false := by
  rw [isRetryableNonNil_of_not_message _ h1 h2]
  obtain ⟨hr, hp, ht⟩ := his
  cases err with
  | urlError msg flags inner => simp [GoError.isURLError] at hurl
  | urlErrorNil msg => rfl
  | leaf msg net errnos =>
    simp only [hr, hp, ht, Bool.or_false]
    cases hn : (GoError.leaf msg net errnos).netError with
    | none => rfl
    | some netErr => simp [(hnet netErr hn).1, (hnet netErr hn).2]
  | wrap msg net errnos inner =>
    simp only [hr, hp, ht, Bool.or_false]
    cases hn : (GoError.wrap msg net errnos inner).netError with
    | none => rfl
    | some netErr => simp [(hnet netErr hn).1, (hnet netErr hn).2]
  | join msg net errnos first rest =>
    simp only [hr, hp, ht, Bool.or_false]
    cases hn : (GoError.join msg net errnos first rest).netError with
    | none => rfl
    | some netErr => simp [(hnet netErr hn).1, (hnet netErr hn).2]

/-! ## Further properties of the retry loop -/

/-- A retryable failure at attempt `i`, followed by a wait that the context cuts
short, ends the run with the cancellation error. -/
theorem afterWait_cancelled (config : RetryConfig) (operation ctxDone : Nat → Option GoError)
    (fuel i : Nat) (e ctxErr : GoError) (ho : operation i = some e)
    (hr : IsRetryableError (some e) = true) (hctx : ctxDone i = some ctxErr)
    (hi : ((i : Int) + 1) ≤ config.MaxRetries) (hmax : config.MaxRetries ≤ maxInt64) :
    afterWait config operation ctxDone (fuel + 1) (retryState config operation i) =
      some { err := some (cancelledError ctxErr)
             trace := retryTrace config i ++
               [RetryEvent.call, RetryEvent.cancelled (waitAfter config i)] } := by
  have hw : wrap64 ((i : Int) + 1) = (i : Int) + 1 := by
    apply wrap64_of_inInt64
    unfold inInt64 minInt64
    unfold maxInt64 at hmax ⊢
    constructor <;> omega
  conv_lhs => unfold afterWait
  simp only [retryState, ho, hr, Bool.not_true, Bool.false_eq_true, if_false]
  rw [retryLoop_succ]
  dsimp only
  rw [hw, if_pos hi]
  have hpos : ((i : Int) + 1) > 0 := by omega
  unfold waitPhase
  dsimp only
  rw [if_pos hpos, hctx]
  simp only [List.append_assoc, List.cons_append, List.nil_append]

/-- The cancellation error and the attempts-exhausted error have different messages. -/
theorem cancelledError_ne_exhaustedError (config : RetryConfig) (ctxErr : GoError)
    (lastErr : Option GoError) :
    cancelledError ctxErr ≠ exhaustedError config lastErr := by
  cases lastErr with
  | none => simp [cancelledError, exhaustedError, fmtErrorfW, errorsNew]
  | some last =>
    intro h
    simp only [cancelledError, exhaustedError, fmtErrorfW, GoError.wrap.injEq] at h
    have hd := congrArg String.data h.1
    simp only [String.data_append] at hd
    have hh := congrArg List.head? hd
    simp at hh

/-- The cancellation error built from one of the two errors a `context.Context`
reports is not retryable. -/
theorem cancelledError_not_retryable (ctxErr : GoError)
    (h : ctxErr = contextCanceled ∨ ctxErr = contextDeadlineExceeded) :
    IsRetryableError (some (cancelledError ctxErr)) = false := by
  rcases h with rfl | rfl <;> decide

/-- The backoff update never yields more than `MaxWait`. -/
theorem nextWait_le (config : RetryConfig) (w : Int) : nextWait config w ≤ config.MaxWait := by
  unfold nextWait
  simp only [gt_iff_lt]
  split_ifs with h
  · exact le_refl _
  · exact not_lt.mp h

theorem waitsOf_append_call (t : List RetryEvent) :
    waitsOf (t ++ [RetryEvent.call]) = waitsOf t := by
  rw [waitsOf_append]
  simp [waitsOf]

theorem waitsOf_append_cancelled (t : List RetryEvent) (d : Int) :
    waitsOf (t ++ [RetryEvent.cancelled d]) = waitsOf t := by
  rw [waitsOf_append]
  simp [waitsOf]

theorem waitsOf_append_waited (t : List RetryEvent) (d : Int) :
    waitsOf (t ++ [RetryEvent.waited d]) = waitsOf t ++ [d] := by
  rw [waitsOf_append]
  simp [waitsOf]

/-- The wait block keeps the invariant on the waits. -/
theorem waitPhase_waitInvariant (config : RetryConfig) (ctxDone : Nat → Option GoError)
    (st : LoopState) (hinv : waitInvariant config st) :
    match waitPhase config ctxDone st with
    | .error out => waitsBounded config out.trace
    | .ok st1 => waitInvariant config st1 := by
  unfold waitPhase
  by_cases hpos : st.attempt > 0
  · rw [if_pos hpos]
    cases hc : ctxDone st.selects with
    | some ctxErr =>
      simp only [waitsBounded, waitsOf_append_cancelled]
      rcases hinv with ⟨h0, -⟩ | ⟨-, rest, hr, hb⟩
      · exact Or.inl h0
      · exact Or.inr ⟨rest, hr, hb⟩
    | none =>
      simp only [waitInvariant, waitsOf_append_waited]
      right
      refine ⟨nextWait_le config st.wait, ?_⟩
      rcases hinv with ⟨h0, hw⟩ | ⟨hw, rest, hr, hb⟩
      · exact ⟨[], by rw [h0, hw]; rfl, by simp⟩
      · refine ⟨rest ++ [st.wait], by rw [hr]; rfl, ?_⟩
        intro d hd
        rcases List.mem_append.mp hd with hd | hd
        · exact hb d hd
        · rw [List.mem_singleton.mp hd]
          exact hw
  · rw [if_neg hpos]
    exact hinv

/-- Every run that returns has bounded waits. -/
theorem retryLoop_waitsBounded (config : RetryConfig) (operation ctxDone : Nat → Option GoError) :
    ∀ (fuel : Nat) (st : LoopState) (out : RetryOutcome), waitInvariant config st →
      retryLoop config operation ctxDone fuel st = some out → waitsBounded config out.trace := by
  intro fuel
  induction fuel with
  | zero => intro st out _ h; simp [retryLoop] at h
  | succ fuel ih =>
    intro st out hinv hrun
    have hbound : waitsBounded config st.trace := by
      rcases hinv with ⟨h0, -⟩ | ⟨-, rest, hr, hb⟩
      · exact Or.inl h0
      · exact Or.inr ⟨rest, hr, hb⟩
    rw [retryLoop_succ] at hrun
    by_cases ha : st.attempt ≤ config.MaxRetries
    · rw [if_pos ha] at hrun
      have hw := waitPhase_waitInvariant config ctxDone st hinv
      cases hwp : waitPhase config ctxDone st with
      | error out1 =>
        rw [hwp] at hrun hw
        simp only [Option.some.injEq] at hrun
        rw [← hrun]
        exact hw
      | ok st1 =>
        rw [hwp] at hrun hw
        simp only at hw
        have hcall : waitsBounded config (st1.trace ++ [RetryEvent.call]) := by
          unfold waitsBounded
          rw [waitsOf_append_call]
          rcases hw with ⟨h0, -⟩ | ⟨-, rest, hr, hb⟩
          · exact Or.inl h0
          · exact Or.inr ⟨rest, hr, hb⟩
        simp only [afterWait] at hrun
        cases ho : operation st1.calls with
        | none =>
          rw [ho] at hrun
          simp only [Option.some.injEq] at hrun
          rw [← hrun]
          exact hcall
        | some err =>
          rw [ho] at hrun
          by_cases hr : IsRetryableError (some err) = true
          · simp only [hr, Bool.not_true, Bool.false_eq_true, if_false] at hrun
            refine ih _ out ?_ hrun
            unfold waitInvariant
            simp only [waitsOf_append_call]
            exact hw
          · simp only [hr, Bool.not_false, if_true, Option.some.injEq] at hrun
            rw [← hrun]
            exact hcall
    · rw [if_neg ha] at hrun
      simp only [Option.some.injEq] at hrun
      rw [← hrun]
      exact hbound

/-- A run with at most `MaxRetries + 1` invocations behind it, in which every
invocation so far failed with a retryable error, returns within the remaining
attempts, makes at most `MaxRetries + 1` invocations in all, and goes on to a
further invocation only after a retryable error. -/
theorem retryLoop_bounded (config : RetryConfig) (operation ctxDone : Nat → Option GoError)
    (hlt : config.MaxRetries < maxInt64) :
    ∀ (fuel : Nat) (st : LoopState),
      st.attempt = (st.calls : Int) → st.calls = callCount st.trace →
      (st.calls : Int) ≤ max (config.MaxRetries + 1) 0 →
      (∀ i, i < st.calls → IsRetryableError (operation i) = true) →
      (config.MaxRetries + 1 - st.attempt).toNat < fuel →
      ∃ out, retryLoop config operation ctxDone fuel st = some out ∧
        (callCount out.trace : Int) ≤ max (config.MaxRetries + 1) 0 ∧
        ∀ i, i + 1 < callCount out.trace → IsRetryableError (operation i) = true := by
  intro fuel
  induction fuel with
  | zero => intro st _ _ _ _ h; omega
  | succ fuel ih =>
    intro st hatt hcalls hle hprev hfuel
    rw [retryLoop_succ]
    by_cases ha : st.attempt ≤ config.MaxRetries
    · rw [if_pos ha]
      cases hw : waitPhase config ctxDone st with
      | error out =>
        refine ⟨out, rfl, ?_, ?_⟩
        · rw [waitPhase_error config ctxDone st out hw, ← hcalls]
          exact hle
        · intro i hi
          rw [waitPhase_error config ctxDone st out hw, ← hcalls] at hi
          exact hprev i (by omega)
      | ok st1 =>
        obtain ⟨hc, ht, hat⟩ := waitPhase_ok config ctxDone st st1 hw
        have hle1 : ((st1.calls : Int) + 1) ≤ max (config.MaxRetries + 1) 0 := by
          rw [hc]
          have : (st.calls : Int) + 1 ≤ config.MaxRetries + 1 := by omega
          exact le_trans this (le_max_left _ _)
        have hcount : callCount (st1.trace ++ [RetryEvent.call]) = st1.calls + 1 := by
          rw [callCount_append_call, ht, ← hcalls, hc]
        simp only [afterWait]
        cases ho : operation st1.calls with
        | none =>
          refine ⟨_, rfl, ?_, ?_⟩
          · simp only
            rw [hcount]
            push_cast
            exact hle1
          · intro i hi
            simp only at hi
            rw [hcount, hc] at hi
            exact hprev i (by omega)
        | some err =>
          by_cases hr : IsRetryableError (some err) = true
          · simp only [hr, Bool.not_true, Bool.false_eq_true, if_false]
            have hw64 : wrap64 (st1.attempt + 1) = st1.attempt + 1 := by
              apply wrap64_of_inInt64
              unfold inInt64 minInt64
              unfold maxInt64 at hlt ⊢
              constructor <;> omega
            refine ih _ ?_ ?_ ?_ ?_ ?_
            · simp only
              rw [hw64, hat, hatt, hc]
              push_cast
              rfl
            · simp only
              exact hcount.symm
            · simp only
              push_cast
              exact hle1
            · intro i hi
              simp only at hi
              by_cases hlast : i = st1.calls
              · rw [hlast, ho]
                exact hr
              · exact hprev i (by omega)
            · simp only
              rw [hw64]
              omega
          · simp only [hr, Bool.not_false, if_true]
            refine ⟨_, rfl, ?_, ?_⟩
            · simp only
              rw [hcount]
              push_cast
              exact hle1
            · intro i hi
              simp only at hi
              rw [hcount, hc] at hi
              exact hprev i (by omega)
    · rw [if_neg ha]
      refine ⟨_, rfl, ?_, ?_⟩
      · simp only
        rw [← hcalls]
        exact hle
      · intro i hi
        simp only at hi
        rw [← hcalls] at hi
        exact hprev i (by omega)

/-! ## Properties of `TrimSpace` -/

/-- What dropping leading white space leaves does not begin with white space. -/
theorem dropWhile_isSpace_head (l : List Char) (c : Char)
    (h : (l.dropWhile isSpace).head? = some c) : isSpace c = false := by
  have := List.head?_dropWhile_not isSpace l
  rw [h] at this
  exact this

/-- `TrimSpace` removes a run of white space at each end and nothing else, and
what it returns neither begins nor ends with white space. -/
theorem TrimSpace_spec (s : String) :
    ∃ pre post : List Char, s.data = pre ++ (TrimSpace s).data ++ post ∧
      (∀ c ∈ pre, isSpace c = true) ∧ (∀ c ∈ post, isSpace c = true) ∧
      (∀ c, (TrimSpace s).data.head? = some c → isSpace c = false) ∧
      (∀ c, (TrimSpace s).data.getLast? = some c → isSpace c = false) := by
  have hm : s.data.dropWhile isSpace =
      ((s.data.dropWhile isSpace).reverse.dropWhile isSpace).reverse ++
        ((s.data.dropWhile isSpace).reverse.takeWhile isSpace).reverse := by
    rw [← List.reverse_append, List.takeWhile_append_dropWhile, List.reverse_reverse]
  refine ⟨s.data.takeWhile isSpace,
    ((s.data.dropWhile isSpace).reverse.takeWhile isSpace).reverse, ?_, ?_, ?_, ?_, ?_⟩
  · show s.data = s.data.takeWhile isSpace ++
      ((s.data.dropWhile isSpace).reverse.dropWhile isSpace).reverse ++ _
    rw [List.append_assoc, ← hm, List.takeWhile_append_dropWhile]
  · intro c hc
    exact List.mem_takeWhile_imp hc
  · intro c hc
    exact List.mem_takeWhile_imp (List.mem_reverse.mp hc)
  · intro c hc
    have hc1 : (((s.data.dropWhile isSpace).reverse.dropWhile isSpace).reverse).head? = some c := hc
    apply dropWhile_isSpace_head s.data c
    rw [hm, List.head?_append, hc1]
    rfl
  · intro c hc
    have hc1 : (((s.data.dropWhile isSpace).reverse.dropWhile isSpace).reverse).getLast? =
        some c := hc
    rw [List.getLast?_reverse] at hc1
    exact dropWhile_isSpace_head _ c hc1

/-- A blank string trims to the empty string, and only a blank string does. -/
theorem TrimSpace_eq_empty_iff (s : String) : TrimSpace s = "" ↔ isBlank s = true := by
  unfold TrimSpace isBlank
  constructor
  · intro h
    have hd := congrArg String.data h
    simp only [List.reverse_eq_nil_iff, List.dropWhile_eq_nil_iff, List.mem_reverse] at hd
    rw [List.all_eq_true]
    intro c hc
    by_contra hns
    have hsplit := List.takeWhile_append_dropWhile isSpace s.data
    have hcm : c ∈ s.data.dropWhile isSpace := by
      rw [← hsplit] at hc
      rcases List.mem_append.mp hc with h1 | h1
      · exact absurd (List.mem_takeWhile_imp h1) hns
      · exact h1
    exact hns (hd c hcm)
  · intro h
    rw [List.all_eq_true] at h
    have h1 : s.data.dropWhile isSpace = [] := by
      rw [List.dropWhile_eq_nil_iff]
      exact h
    rw [h1]
    rfl

/-! ## Claims on the first attempt, cancellation, wait bounds and termination -/

/-- C11 as stated fails for a negative `MaxRetries`: the loop body never runs, the
operation is not invoked although it would succeed, and an error is returned. -/
theorem RetryWithBackoff_first_success_counterexample :
    negativeRetriesConfig.MaxRetries < 0 ∧ failThenSucceed 0 0 = none ∧
    RetryWithBackoff negativeRetriesConfig (failThenSucceed 0) neverDone 5 =
      some { err := some (errorsNew "failed after 0 attempts: %!w(<nil>)"), trace := [] } := by
  decide

/-- C11 (amended): for every config with `0 ≤ MaxRetries` (any `InitialWait` and
`MaxWait`, zero and negative values included), if the operation succeeds on its
first invocation then `RetryWithBackoff` invokes it exactly once, performs no
wait and returns nil. -/
theorem RetryWithBackoff_first_success (config : RetryConfig)
    (operation ctxDone : Nat → Option GoError)
    (hmax : 0 ≤ config.MaxRetries) (hok : operation 0 = none) :
    ∀ fuel, 0 < fuel →
      ∃ out, RetryWithBackoff config operation ctxDone fuel = some out ∧
        out.err = none ∧ out.trace = [RetryEvent.call] ∧
        callCount out.trace = 1 ∧ waitsOf out.trace = [] := by
  intro fuel hfuel
  obtain ⟨f, rfl⟩ : ∃ f, fuel = f + 1 := ⟨fuel - 1, by omega⟩
  refine ⟨{ err := none, trace := [RetryEvent.call] }, ?_, rfl, rfl, rfl, rfl⟩
  rw [RetryWithBackoff_succ config operation ctxDone f hmax,
    afterWait_success config operation ctxDone f 0 hok]
  rfl

/-- C11 (amended) with no retries, a negative initial wait and a zero maximal wait. -/
theorem RetryWithBackoff_first_success_witness :
    ((0 : Int) ≤ ({ MaxRetries := 0, InitialWait := -1, MaxWait := 0 } : RetryConfig).MaxRetries ∧
      failThenSucceed 0 0 = none ∧ 0 < 1) ∧
    (∃ out, RetryWithBackoff { MaxRetries := 0, InitialWait := -1, MaxWait := 0 }
        (failThenSucceed 0) doneAtFirstWait 1 = some out ∧
        out.err = none ∧ out.trace = [RetryEvent.call] ∧
        callCount out.trace = 1 ∧ waitsOf out.trace = []) :=
  ⟨⟨by decide, by decide, by decide⟩,
    RetryWithBackoff_first_success { MaxRetries := 0, InitialWait := -1, MaxWait := 0 }
      (failThenSucceed 0) doneAtFirstWait (by decide) (by decide) 1 (by decide)⟩

/-- C12: if the context is done during the wait that follows the `(j+1)`-th
invocation (every invocation so far failed with a retryable error, the earlier
waits ran to their end, and a retry is still due), then `RetryWithBackoff` returns
without a further invocation, the cut-short wait being the last event; the
returned error wraps the context's error, its message is
`"context cancelled during retry: "` followed by the message of that error; it
differs from the attempts-exhausted error, and, the context's error being
`context.Canceled` or `context.DeadlineExceeded`, from the operation's last
error. -/
theorem RetryWithBackoff_cancelled (config : RetryConfig)
    (operation ctxDone : Nat → Option GoError) (j : Nat) (ctxErr : GoError)
    (hdue : (j : Int) + 1 ≤ config.MaxRetries) (hint : config.MaxRetries ≤ maxInt64)
    (hfail : ∀ i ≤ j, ∃ e, operation i = some e ∧ IsRetryableError (some e) = true)
    (hctx : ∀ i < j, ctxDone i = none) (hdone : ctxDone j = some ctxErr) :
    ∀ fuel, j + 1 < fuel →
      ∃ out last, RetryWithBackoff config operation ctxDone fuel = some out ∧
        operation j = some last ∧
        out.err = some (GoError.wrap ("context cancelled during retry: " ++ ctxErr.Error)
          none [] ctxErr) ∧
        callCount out.trace = j + 1 ∧
        out.trace.getLast? = some (RetryEvent.cancelled (waitAfter config j)) ∧
        (∀ lastErr, out.err ≠ some (exhaustedError config lastErr)) ∧
        ((ctxErr = contextCanceled ∨ ctxErr = contextDeadlineExceeded) →
          out.err ≠ some last) := by
  intro fuel hfuel
  obtain ⟨f, rfl⟩ : ∃ f, fuel = ((f + 1) + j) + 1 := ⟨fuel - j - 2, by omega⟩
  obtain ⟨last, ho, hr⟩ := hfail j (le_refl j)
  have hmax : 0 ≤ config.MaxRetries := by omega
  have hj : (j : Int) ≤ config.MaxRetries := by omega
  refine ⟨{ err := some (cancelledError ctxErr)
            trace := retryTrace config j ++
              [RetryEvent.call, RetryEvent.cancelled (waitAfter config j)] },
    last, ?_, ho, rfl, ?_, ?_, ?_, ?_⟩
  · rw [RetryWithBackoff_succ config operation ctxDone _ hmax,
      afterWait_steps config operation ctxDone j (fun i hi => hfail i (le_of_lt hi)) hctx hj
        hint (f + 1),
      afterWait_cancelled config operation ctxDone f j last ctxErr ho hr hdone hdue hint]
  · show callCount (retryTrace config j ++
      [RetryEvent.call, RetryEvent.cancelled (waitAfter config j)]) = j + 1
    rw [show [RetryEvent.call, RetryEvent.cancelled (waitAfter config j)] =
      [RetryEvent.call] ++ [RetryEvent.cancelled (waitAfter config j)] from rfl,
      ← List.append_assoc, callCount_append_cancelled, callCount_append_call,
      callCount_retryTrace]
  · simp
  · intro lastErr h
    exact cancelledError_ne_exhaustedError config ctxErr lastErr (Option.some.inj h)
  · intro hstd h
    have hEq : cancelledError ctxErr = last := Option.some.inj h
    have := cancelledError_not_retryable ctxErr hstd
    rw [hEq, hr] at this
    cases this

/-- C12 on `DefaultRetryConfig`: two DNS timeouts, the context done during the
second wait. -/
theorem RetryWithBackoff_cancelled_witness :
    (((1 : Nat) : Int) + 1 ≤ DefaultRetryConfig.MaxRetries ∧
      DefaultRetryConfig.MaxRetries ≤ maxInt64 ∧
      (∀ i ≤ 1, ∃ e, alwaysFail i = some e ∧ IsRetryableError (some e) = true) ∧
      (∀ i < 1, doneAtSecondWait i = none) ∧
      doneAtSecondWait 1 = some contextCanceled ∧ 1 + 1 < 3) ∧
    (∃ out last, RetryWithBackoff DefaultRetryConfig alwaysFail doneAtSecondWait 3 = some out ∧
        alwaysFail 1 = some last ∧
        out.err = some (GoError.wrap
          ("context cancelled during retry: " ++ contextCanceled.Error) none []
          contextCanceled) ∧
        callCount out.trace = 1 + 1 ∧
        out.trace.getLast? = some (RetryEvent.cancelled (waitAfter DefaultRetryConfig 1)) ∧
        (∀ lastErr, out.err ≠ some (exhaustedError DefaultRetryConfig lastErr)) ∧
        ((contextCanceled = contextCanceled ∨ contextCanceled = contextDeadlineExceeded) →
          out.err ≠ some last)) :=
  ⟨⟨by decide, by decide, fun _ _ => ⟨dnsTimeout, rfl, by decide⟩,
      fun i hi => by
        have h0 : i = 0 := by omega
        subst h0
        rfl,
      by decide, by decide⟩,
    RetryWithBackoff_cancelled DefaultRetryConfig alwaysFail doneAtSecondWait 1 contextCanceled
      (by decide) (by decide) (fun _ _ => ⟨dnsTimeout, rfl, by decide⟩)
      (fun i hi => by
        have h0 : i = 0 := by omega
        subst h0
        rfl)
      (by decide) 3 (by decide)⟩

/-- C13 as stated fails: the first wait is `InitialWait`, which the cap does not
touch, so it is longer than `MaxWait` when the configuration says so. -/
theorem RetryWithBackoff_wait_bound_counterexample :
    (RetryWithBackoff longInitialWaitConfig (failThenSucceed 1) neverDone 5).map
        (fun out => waitsOf out.trace) = some [10 * Second] ∧
    longInitialWaitConfig.MaxWait < 10 * Second := by
  decide

/-- C13 (amended): for every config, every sequence of operation results and
every behaviour of the context, in a run of `RetryWithBackoff` the first wait is
`InitialWait` and every later wait is at most `MaxWait`; so no wait is longer than
`MaxWait` when `InitialWait ≤ MaxWait`.  Such runs exist: with
`MaxRetries < 2^63 - 1` every run returns. -/
theorem RetryWithBackoff_wait_bound (config : RetryConfig)
    (operation ctxDone : Nat → Option GoError) :
    (∀ fuel out, RetryWithBackoff config operation ctxDone fuel = some out →
      (∀ d, (waitsOf out.trace).head? = some d → d = config.InitialWait) ∧
      (∀ d ∈ (waitsOf out.trace).tail, d ≤ config.MaxWait) ∧
      (config.InitialWait ≤ config.MaxWait →
        ∀ d ∈ waitsOf out.trace, d ≤ config.MaxWait)) ∧
    (config.MaxRetries < maxInt64 →
      ∀ fuel, (config.MaxRetries + 1).toNat < fuel →
        ∃ out, RetryWithBackoff config operation ctxDone fuel = some out) := by
  constructor
  · intro fuel out hrun
    have hb := retryLoop_waitsBounded config operation ctxDone fuel (initialState config) out
      (Or.inl ⟨rfl, rfl⟩) hrun
    rcases hb with h0 | ⟨rest, hr, hrest⟩
    · rw [h0]
      simp
    · rw [hr]
      refine ⟨?_, ?_, ?_⟩
      · intro d hd
        simp only [List.head?_cons, Option.some.injEq] at hd
        exact hd.symm
      · intro d hd
        exact hrest d hd
      · intro hle d hd
        rcases List.mem_cons.mp hd with h | h
        · rw [h]
          exact hle
        · exact hrest d h
  · intro hlt fuel hfuel
    obtain ⟨out, hout, -⟩ := retryLoop_bounded config operation ctxDone hlt fuel
      (initialState config) rfl rfl (le_max_right _ _)
      (fun i hi => absurd hi (Nat.not_lt_zero i)) (by simpa [initialState] using hfuel)
    exact ⟨out, hout⟩

/-- C13 (amended) on `DefaultRetryConfig`: the waits 1s, 2s, 4s. -/
theorem RetryWithBackoff_wait_bound_witness :
    (RetryWithBackoff DefaultRetryConfig (failThenSucceed 3) neverDone 4 =
      some { err := none
             trace := [RetryEvent.call, RetryEvent.waited (1 * Second), RetryEvent.call,
               RetryEvent.waited (2 * Second), RetryEvent.call,
               RetryEvent.waited (4 * Second), RetryEvent.call] } ∧
      DefaultRetryConfig.InitialWait ≤ DefaultRetryConfig.MaxWait ∧
      DefaultRetryConfig.MaxRetries < maxInt64) ∧
    ((∀ d, [1 * Second, 2 * Second, 4 * Second].head? = some d →
        d = DefaultRetryConfig.InitialWait) ∧
      (∀ d ∈ [1 * Second, 2 * Second, 4 * Second].tail, d ≤ DefaultRetryConfig.MaxWait) ∧
      (∀ d ∈ [1 * Second, 2 * Second, 4 * Second], d ≤ DefaultRetryConfig.MaxWait)) ∧
    (∃ out, RetryWithBackoff DefaultRetryConfig (failThenSucceed 3) neverDone 5 = some out) :=
  ⟨⟨by decide, by decide, by decide⟩,
    ⟨((RetryWithBackoff_wait_bound DefaultRetryConfig (failThenSucceed 3) neverDone).1 4
        { err := none
          trace := [RetryEvent.call, RetryEvent.waited (1 * Second), RetryEvent.call,
            RetryEvent.waited (2 * Second), RetryEvent.call,
            RetryEvent.waited (4 * Second), RetryEvent.call] }
        (by decide)).1,
      ((RetryWithBackoff_wait_bound DefaultRetryConfig (failThenSucceed 3) neverDone).1 4
        { err := none
          trace := [RetryEvent.call, RetryEvent.waited (1 * Second), RetryEvent.call,
            RetryEvent.waited (2 * Second), RetryEvent.call,
            RetryEvent.waited (4 * Second), RetryEvent.call] }
        (by decide)).2.1,
      ((RetryWithBackoff_wait_bound DefaultRetryConfig (failThenSucceed 3) neverDone).1 4
        { err := none
          trace := [RetryEvent.call, RetryEvent.waited (1 * Second), RetryEvent.call,
            RetryEvent.waited (2 * Second), RetryEvent.call,
            RetryEvent.waited (4 * Second), RetryEvent.call] }
        (by decide)).2.2 (by decide)⟩,
    (RetryWithBackoff_wait_bound DefaultRetryConfig (failThenSucceed 3) neverDone).2
      (by decide) 5 (by decide)⟩

/-- C18 as stated fails at both ends of the range of `MaxRetries`: with the largest
value the attempt counter wraps and a run of retryable failures never returns;
with a value below `-1` the run makes no invocation, which is more than
`MaxRetries + 1`. -/
theorem RetryWithBackoff_terminates_counterexample :
    (inInt64 maxRetriesConfig.MaxRetries ∧
      ¬ ∃ fuel out, RetryWithBackoff maxRetriesConfig alwaysFail neverDone fuel = some out) ∧
    ((RetryWithBackoff veryNegativeRetriesConfig alwaysFail neverDone 5).map
        (fun out => callCount out.trace) = some 0 ∧
      ¬ ((0 : Int) ≤ veryNegativeRetriesConfig.MaxRetries + 1)) := by
  refine ⟨⟨by decide, ?_⟩, by decide, by decide⟩
  rintro ⟨fuel, out, h⟩
  have hnone := retryLoop_maxRetries_none fuel (initialState maxRetriesConfig) (by decide)
  unfold RetryWithBackoff at h
  rw [hnone] at h
  cases h

/-- C18 (amended): for every config with `MaxRetries < 2^63 - 1`, every operation
and every behaviour of the context, `RetryWithBackoff` returns after invoking the
operation at most `MaxRetries + 1` times (not at all when `MaxRetries` is
negative), and a further invocation follows only an invocation whose error is
retryable. -/
theorem RetryWithBackoff_terminates (config : RetryConfig)
    (operation ctxDone : Nat → Option GoError) (hlt : config.MaxRetries < maxInt64) :
    ∀ fuel, (config.MaxRetries + 1).toNat < fuel →
      ∃ out, RetryWithBackoff config operation ctxDone fuel = some out ∧
        (callCount out.trace : Int) ≤ max (config.MaxRetries + 1) 0 ∧
        ∀ i, i + 1 < callCount out.trace → IsRetryableError (operation i) = true := by
  intro fuel hfuel
  exact retryLoop_bounded config operation ctxDone hlt fuel (initialState config) rfl rfl
    (le_max_right _ _) (fun i hi => absurd hi (Nat.not_lt_zero i))
    (by simpa [initialState] using hfuel)

/-- C18 (amended) on `DefaultRetryConfig` with an operation that always fails. -/
theorem RetryWithBackoff_terminates_witness :
    (DefaultRetryConfig.MaxRetries < maxInt64 ∧
      (DefaultRetryConfig.MaxRetries + 1).toNat < 5) ∧
    (∃ out, RetryWithBackoff DefaultRetryConfig alwaysFail doneAtSecondWait 5 = some out ∧
        (callCount out.trace : Int) ≤ max (DefaultRetryConfig.MaxRetries + 1) 0 ∧
        ∀ i, i + 1 < callCount out.trace → IsRetryableError (alwaysFail i) = true) :=
  ⟨⟨by decide, by decide⟩,
    RetryWithBackoff_terminates DefaultRetryConfig alwaysFail doneAtSecondWait (by decide) 5
      (by decide)⟩

/-! ## Claims on the error classification -/

/-- C14: `IsRetryableError` is true for every non-nil error whose message contains
`"i/o timeout"` together with `"lookup"` or `"dial tcp"`, or contains
`"connection timed out"` or `"no such host"`, and for every error that wraps, at
any depth, one of `ECONNRESET`, `EPIPE`, `ETIMEDOUT`. -/
theorem IsRetryableError_transient (err : GoError)
    (h : (Contains err.Error "i/o timeout" = true ∧
            (Contains err.Error "lookup" = true ∨ Contains err.Error "dial tcp" = true)) ∨
         Contains err.Error "connection timed out" = true ∨
         Contains err.Error "no such host" = true ∨
         errorsIs err Errno.ECONNRESET = true ∨ errorsIs err Errno.EPIPE = true ∨
         errorsIs err Errno.ETIMEDOUT = true) :
    IsRetryableError (some err) = true := by
  show isRetryableNonNil err = true
  rcases h with ⟨h1, h2⟩ | h | h | h | h | h
  · apply isRetryableNonNil_of_message _ (Or.inl ?_)
    rcases h2 with h2 | h2 <;> simp [h1, h2]
  · exact isRetryableNonNil_of_message _ (Or.inr (by simp [h]))
  · exact isRetryableNonNil_of_message _ (Or.inr (by simp [h]))
  · exact isRetryableNonNil_of_errorsIs _ (by simp [h])
  · exact isRetryableNonNil_of_errorsIs _ (by simp [h])
  · exact isRetryableNonNil_of_errorsIs _ (by simp [h])

/-- C14 on a DNS lookup timeout, a dial timeout, a host that does not exist, and
errors that wrap `ECONNRESET` two levels down, `EPIPE` and `ETIMEDOUT`. -/
theorem IsRetryableError_transient_witness :
    ((Contains dnsTimeout.Error "i/o timeout" = true ∧
        (Contains dnsTimeout.Error "lookup" = true ∨
          Contains dnsTimeout.Error "dial tcp" = true)) ∨
      Contains dnsTimeout.Error "connection timed out" = true ∨
      Contains dnsTimeout.Error "no such host" = true ∨
      errorsIs dnsTimeout Errno.ECONNRESET = true ∨ errorsIs dnsTimeout Errno.EPIPE = true ∨
      errorsIs dnsTimeout Errno.ETIMEDOUT = true) ∧
    IsRetryableError (some dnsTimeout) = true ∧
    IsRetryableError (some (errorsNew "dial tcp 10.0.0.2:443: i/o timeout")) = true ∧
    IsRetryableError (some (errorsNew "dial tcp: lookup nowhere.invalid: no such host")) = true ∧
    IsRetryableError (some (errorsNew "connect: connection timed out")) = true ∧
    errorsIs connReset Errno.ECONNRESET = true ∧
    IsRetryableError (some connReset) = true ∧
    IsRetryableError (some (fmtErrorfW "write failed: "
      (GoError.leaf "broken pipe" none [Errno.EPIPE]))) = true ∧
    IsRetryableError (some (GoError.join "a\nb" none [] (errorsNew "a")
      (GoError.leaf "b" none [Errno.ETIMEDOUT]))) = true :=
  ⟨by decide,
    IsRetryableError_transient dnsTimeout (by decide),
    IsRetryableError_transient (errorsNew "dial tcp 10.0.0.2:443: i/o timeout") (by decide),
    IsRetryableError_transient (errorsNew "dial tcp: lookup nowhere.invalid: no such host")
      (by decide),
    IsRetryableError_transient (errorsNew "connect: connection timed out") (by decide),
    by decide,
    IsRetryableError_transient connReset (by decide),
    IsRetryableError_transient
      (fmtErrorfW "write failed: " (GoError.leaf "broken pipe" none [Errno.EPIPE])) (by decide),
    IsRetryableError_transient
      (GoError.join "a\nb" none [] (errorsNew "a") (GoError.leaf "b" none [Errno.ETIMEDOUT]))
      (by decide)⟩

/-- C15, the code at a refused connection: the message holds the operating
system's text `"connection refused"`, the classification looks for
`"Connection refused"` with a capital letter, and the error is not retryable,
neither as plain text nor as the dialer's `*net.OpError`; the same text with a
capital letter is retryable. -/
theorem IsRetryableError_connection_refused :
    Contains connRefusedText.Error "connection refused" = true ∧
    IsRetryableError (some connRefusedText) = false ∧
    Contains connRefusedOpError.Error "connection refused" = true ∧
    IsRetryableError (some connRefusedOpError) = false ∧
    IsRetryableError
      (some (errorsNew "dial tcp 127.0.0.1:1: connect: Connection refused")) = true := by
  decide

/-- C16, the code at a wrapped transport error: a read timeout that reports
`Timeout` and `Temporary` is retryable when passed directly, and so is the
`*url.Error` around it, but neither is once wrapped by `fmt.Errorf` with `%w`,
because the type tests look at the outermost value only. -/
theorem IsRetryableError_wrapped_transport_error :
    readTimeout.netError = some { Temporary := true, Timeout := true } ∧
    IsRetryableError (some readTimeout) = true ∧
    IsRetryableError (some (fmtErrorfW "failed to send request: " readTimeout)) = false ∧
    urlReadTimeout.isURLError = true ∧
    IsRetryableError (some urlReadTimeout) = true ∧
    IsRetryableError (some (fmtErrorfW "failed to send request: " urlReadTimeout)) = false := by
  decide

/-- C17: `IsRetryableError` of nil is false, and it is false for every error that
is not a `*url.Error`, is not a `net.Error` reporting `Temporary` or `Timeout`,
wraps none of `ECONNRESET`, `EPIPE`, `ETIMEDOUT`, and whose message contains none
of `"connection timed out"`, `"Connection refused"`, `"no such host"` and does not
contain `"i/o timeout"` together with `"lookup"` or `"dial tcp"`. -/
theorem IsRetryableError_fatal (err : GoError)
    (hurl : err.isURLError = false)
    (hnet : ∀ netErr, err.netError = some netErr →
      netErr.Temporary = false ∧ netErr.Timeout = false)
    (his : errorsIs err Errno.ECONNRESET = false ∧ errorsIs err Errno.EPIPE = false ∧
      errorsIs err Errno.ETIMEDOUT = false)
    (hmsg : Contains err.Error "connection timed out" = false ∧
      Contains err.Error "Connection refused" = false ∧
      Contains err.Error "no such host" = false)
    (hio : ¬ (Contains err.Error "i/o timeout" = true ∧
      (Contains err.Error "lookup" = true ∨ Contains err.Error "dial tcp" = true))) :
    IsRetryableError none = false ∧ IsRetryableError (some err) = false := by
  refine ⟨rfl, ?_⟩
  show isRetryableNonNil err = false
  apply isRetryableNonNil_of_plain err hurl hnet his
  · cases h1 : Contains err.Error "i/o timeout"
    · rfl
    · cases h2 : Contains err.Error "lookup"
      · cases h3 : Contains err.Error "dial tcp"
        · rfl
        · exact absurd ⟨h1, Or.inr h3⟩ hio
      · exact absurd ⟨h1, Or.inl h2⟩ hio
  · simp [hmsg.1, hmsg.2.1, hmsg.2.2]

/-- C17 on an authorization failure and on a refused connection. -/
theorem IsRetryableError_fatal_witness :
    (unauthorized.isURLError = false ∧
      (∀ netErr, unauthorized.netError = some netErr →
        netErr.Temporary = false ∧ netErr.Timeout = false) ∧
      (errorsIs unauthorized Errno.ECONNRESET = false ∧
        errorsIs unauthorized Errno.EPIPE = false ∧
        errorsIs unauthorized Errno.ETIMEDOUT = false) ∧
      (Contains unauthorized.Error "connection timed out" = false ∧
        Contains unauthorized.Error "Connection refused" = false ∧
        Contains unauthorized.Error "no such host" = false) ∧
      ¬ (Contains unauthorized.Error "i/o timeout" = true ∧
        (Contains unauthorized.Error "lookup" = true ∨
          Contains unauthorized.Error "dial tcp" = true))) ∧
    (IsRetryableError none = false ∧ IsRetryableError (some unauthorized) = false) :=
  ⟨⟨by decide, by decide, by decide, by decide, by decide⟩,
    IsRetryableError_fatal unauthorized (by decide) (by decide) (by decide) (by decide)
      (by decide)⟩

/-! ## Claims on the resolved model name -/

/-- C19 fails on the code: `ResolvedModel` gives the model name without the
provider, where `TestModelSpecResolvedModel` expects `"z.ai/glm-4.7"` and the
specification's example `"z/new"`; so `prepareModels` on the example profile
stores `["new"]` and the model `"new"`. -/
theorem ResolvedModel_without_provider :
    ({ Model := "glm-4.7", Provider := "z.ai" } : ModelSpec).ResolvedModel = "glm-4.7" ∧
    ({ Model := "glm-4.7", Provider := "z.ai" } : ModelSpec).ResolvedModel ≠ "z.ai/glm-4.7" ∧
    ({ Model := " glm-4.7 ", Provider := " z.ai " } : ModelSpec).ResolvedModel = "glm-4.7" ∧
    ({ Model := " glm-4.7 ", Provider := " z.ai " } : ModelSpec).ResolvedModel ≠ "z.ai/glm-4.7" ∧
    ({ Model := "new", Provider := "z" } : ModelSpec).ResolvedModel = "new" ∧
    ({ Model := "new", Provider := "z" } : ModelSpec).ResolvedModel ≠ "z/new" ∧
    ({ Model := "  glm-4.7  ", Provider := "  z.ai  " } : ModelSpec).ResolvedModel = "glm-4.7" ∧
    oldNewProfile.prepareModels.ResolvedModels = ["new"] ∧
    oldNewProfile.prepareModels.ResolvedModels ≠ ["z/new"] ∧
    oldNewProfile.prepareModels.Model = "new" ∧
    oldNewProfile.prepareModels.Model ≠ "z/new" := by
  decide

/-- What `ResolvedModel` returns: for every `ModelSpec` whose Model is non-blank
the trimmed model alone, whether Provider is blank or not, and that is not the
empty string; `""` when Model is blank; `prepareModels` on a profile with Model
`"old"` and Models `[{model "new", provider "z"}]` sets ResolvedModels to
`["new"]` and Model to `"new"`. -/
theorem ResolvedModel_model_only (model provider : String) :
    (isBlank model = false →
      ({ Model := model, Provider := provider } : ModelSpec).ResolvedModel = TrimSpace model ∧
      ({ Model := model, Provider := provider } : ModelSpec).ResolvedModel ≠ "") ∧
    (isBlank model = true →
      ({ Model := model, Provider := provider } : ModelSpec).ResolvedModel = "") ∧
    (oldNewProfile.prepareModels.ResolvedModels = ["new"] ∧
      oldNewProfile.prepareModels.Model = "new") := by
  refine ⟨?_, ?_, by decide⟩
  · intro hb
    refine ⟨rfl, ?_⟩
    intro h
    have := (TrimSpace_eq_empty_iff model).mp h
    rw [hb] at this
    cases this
  · intro hb
    exact (TrimSpace_eq_empty_iff model).mpr hb

/-- The resolved name of a padded model name with a provider, and of a blank model. -/
theorem ResolvedModel_model_only_witness :
    (isBlank "  glm-4.7  " = false ∧ isBlank "  " = true) ∧
    (({ Model := "  glm-4.7  ", Provider := "z.ai" } : ModelSpec).ResolvedModel =
        TrimSpace "  glm-4.7  " ∧
      ({ Model := "  glm-4.7  ", Provider := "z.ai" } : ModelSpec).ResolvedModel ≠ "") ∧
    ({ Model := "  ", Provider := "z.ai" } : ModelSpec).ResolvedModel = "" :=
  ⟨⟨by decide, by decide⟩,
    (ResolvedModel_model_only "  glm-4.7  " "z.ai").1 (by decide),
    (ResolvedModel_model_only "  " "z.ai").2.1 (by decide)⟩

/-- C20: for every `ModelSpec`, `ResolvedModel` is the Model with the white space
at both ends removed and nothing added, so it does not depend on Provider; after
`PrepareAgentModels` on defaults with Models `[{glm-4.7, z.ai}, {claude-3,
anthropic}]` the candidates of the defaults are `["glm-4.7", "claude-3"]`. -/
theorem ResolvedModel_ignores_provider (m : ModelSpec) :
    m.ResolvedModel = TrimSpace m.Model ∧
    (∀ provider : String, ({ m with Provider := provider }).ResolvedModel = m.ResolvedModel) ∧
    (∃ pre post : List Char, m.Model.data = pre ++ m.ResolvedModel.data ++ post ∧
      (∀ c ∈ pre, isSpace c = true) ∧ (∀ c ∈ post, isSpace c = true) ∧
      (∀ c, m.ResolvedModel.data.head? = some c → isSpace c = false) ∧
      (∀ c, m.ResolvedModel.data.getLast? = some c → isSpace c = false)) ∧
    fallbackTestConfig.PrepareAgentModels.Agents.Defaults.ModelCandidates =
      ["glm-4.7", "claude-3"] := by
  exact ⟨rfl, fun _ => rfl, TrimSpace_spec m.Model, by decide⟩

/-! ## Claims on the candidate list -/

/-- C21: `buildResolvedModelList base specs` is the list of the non-empty
`ResolvedModel` names of the specs, in declaration order with nothing reordered
or removed, when there is at least one (the base is then ignored); otherwise
`[base]` when the base is non-empty; otherwise the empty list. -/
theorem buildResolvedModelList_spec (base : String) (specs : List ModelSpec) :
    buildResolvedModelList base specs =
      (if resolvedNames specs ≠ [] then resolvedNames specs
       else if base ≠ "" then [base] else []) ∧
    List.Sublist (resolvedNames specs) (specs.map ModelSpec.ResolvedModel) ∧
    (∀ name, name ∈ resolvedNames specs ↔
      (name ≠ "" ∧ ∃ spec ∈ specs, spec.ResolvedModel = name)) ∧
    (∀ name, (resolvedNames specs).count name =
      if name = "" then 0 else (specs.map ModelSpec.ResolvedModel).count name) ∧
    buildResolvedModelList "fallback-model"
      [{ Model := "b" }, { Model := "", Provider := "anthropic" }, { Model := "a" },
        { Model := "b" }] = ["b", "a", "b"] := by
  refine ⟨?_, ?_, ?_, ?_, by decide⟩
  · rw [buildResolvedModelList_eq]
    unfold resolvedNames
    by_cases hn : (specs.map ModelSpec.ResolvedModel).filter (fun n => decide (n ≠ "")) = []
    · rw [hn]
      by_cases hb : base = ""
      · simp [hb]
      · simp [hb]
    · rw [if_neg (fun h => hn h.1), if_pos hn]
  · exact List.filter_sublist _
  · intro name
    unfold resolvedNames
    simp only [List.mem_filter, List.mem_map, decide_eq_true_eq]
    constructor
    · rintro ⟨⟨spec, hs, he⟩, hne⟩
      exact ⟨hne, spec, hs, he⟩
    · rintro ⟨hne, spec, hs, he⟩
      exact ⟨⟨spec, hs, he⟩, hne⟩
  · intro name
    unfold resolvedNames
    by_cases h : name = ""
    · rw [if_pos h]
      apply List.count_eq_zero_of_not_mem
      simp [h]
    · rw [if_neg h]
      exact List.count_filter (by simpa using h)

/-- After `prepareModels` on a profile the first candidate is the model. -/
theorem prepareModels_primary_profile (ap : AgentProfile) :
    (ap.prepareModels.ResolvedModels ≠ [] →
      ap.prepareModels.ResolvedModels.head? = some ap.prepareModels.Model ∧
      ap.prepareModels.ModelCandidates = ap.prepareModels.ResolvedModels) ∧
    (ap.prepareModels.ResolvedModels = [] → ap.prepareModels.Model = "") := by
  unfold AgentProfile.prepareModels AgentProfile.ModelCandidates
  cases h : buildResolvedModelList ap.Model ap.Models with
  | nil => simp [buildResolvedModelList_nil _ _ h]
  | cons first rest => simp

/-- After `prepareModels` on the defaults the first candidate is the model. -/
theorem prepareModels_primary_defaults (d : AgentDefaults) :
    (d.prepareModels.ResolvedModels ≠ [] →
      d.prepareModels.ResolvedModels.head? = some d.prepareModels.Model ∧
      d.prepareModels.ModelCandidates = d.prepareModels.ResolvedModels) ∧
    (d.prepareModels.ResolvedModels = [] → d.prepareModels.Model = "") := by
  unfold AgentDefaults.prepareModels AgentDefaults.ModelCandidates
  cases h : buildResolvedModelList d.Model d.Models with
  | nil => simp [buildResolvedModelList_nil _ _ h]
  | cons first rest => simp

/-- Every profile that `GetAgentProfile` returns comes out of `prepareModels`. -/
theorem GetAgentProfile_prepared (c : Config) (name : String) :
    ∃ ap : AgentProfile, c.GetAgentProfile name = ap.prepareModels := by
  unfold Config.GetAgentProfile
  by_cases h : name = "" ∨ name = "default"
  · exact ⟨_, by rw [if_pos h]⟩
  · exact ⟨_, by rw [if_neg h]⟩

/-- A spec whose model is not blank contributes a candidate name. -/
theorem resolvedNames_ne_nil (specs : List ModelSpec)
    (h : ∃ spec ∈ specs, isBlank spec.Model = false) : resolvedNames specs ≠ [] := by
  obtain ⟨spec, hs, hb⟩ := h
  have hne : spec.ResolvedModel ≠ "" := by
    intro he
    have := (TrimSpace_eq_empty_iff spec.Model).mp he
    rw [hb] at this
    cases this
  have hmem : spec.ResolvedModel ∈ resolvedNames specs := by
    unfold resolvedNames
    simp only [List.mem_filter, List.mem_map, decide_eq_true_eq]
    exact ⟨⟨spec, hs, rfl⟩, hne⟩
  exact List.ne_nil_of_mem hmem

/-- With a usable spec the candidate list is the list of the candidate names. -/
theorem buildResolvedModelList_of_names (base : String) (specs : List ModelSpec)
    (h : resolvedNames specs ≠ []) : buildResolvedModelList base specs = resolvedNames specs := by
  rw [buildResolvedModelList_eq]
  exact if_neg (fun hc => h hc.1)

/-- C22: after `prepareModels`, on a profile or on the defaults, and hence for
every profile returned by `GetAgentProfile`: if ResolvedModels is non-empty then
Model is its first entry and `ModelCandidates` is ResolvedModels; if
ResolvedModels is empty then Model is empty. -/
theorem prepareModels_first_candidate (ap : AgentProfile) (d : AgentDefaults) (c : Config)
    (name : String) :
    ((ap.prepareModels.ResolvedModels ≠ [] →
        ap.prepareModels.ResolvedModels.head? = some ap.prepareModels.Model ∧
        ap.prepareModels.ModelCandidates = ap.prepareModels.ResolvedModels) ∧
      (ap.prepareModels.ResolvedModels = [] → ap.prepareModels.Model = "")) ∧
    ((d.prepareModels.ResolvedModels ≠ [] →
        d.prepareModels.ResolvedModels.head? = some d.prepareModels.Model ∧
        d.prepareModels.ModelCandidates = d.prepareModels.ResolvedModels) ∧
      (d.prepareModels.ResolvedModels = [] → d.prepareModels.Model = "")) ∧
    ((c.GetAgentProfile name).ResolvedModels ≠ [] →
        (c.GetAgentProfile name).ResolvedModels.head? = some (c.GetAgentProfile name).Model ∧
        (c.GetAgentProfile name).ModelCandidates = (c.GetAgentProfile name).ResolvedModels) ∧
      ((c.GetAgentProfile name).ResolvedModels = [] → (c.GetAgentProfile name).Model = "") := by
  refine ⟨prepareModels_primary_profile ap, prepareModels_primary_defaults d, ?_⟩
  obtain ⟨ap1, h1⟩ := GetAgentProfile_prepared c name
  rw [h1]
  exact prepareModels_primary_profile ap1

/-- C22 on the specification's example profile, on the defaults of
`TestCreateProviderWithFallback`, and on a configuration without any model. -/
theorem prepareModels_first_candidate_witness :
    (oldNewProfile.prepareModels.ResolvedModels ≠ [] ∧
      fallbackTestConfig.Agents.Defaults.prepareModels.ResolvedModels ≠ [] ∧
      (coderConfig.GetAgentProfile "coder").ResolvedModels ≠ [] ∧
      (({} : Config).GetAgentProfile "coder").ResolvedModels = []) ∧
    (oldNewProfile.prepareModels.ResolvedModels.head? = some oldNewProfile.prepareModels.Model ∧
      oldNewProfile.prepareModels.ModelCandidates = oldNewProfile.prepareModels.ResolvedModels) ∧
    (fallbackTestConfig.Agents.Defaults.prepareModels.ResolvedModels.head? =
        some fallbackTestConfig.Agents.Defaults.prepareModels.Model ∧
      fallbackTestConfig.Agents.Defaults.prepareModels.ModelCandidates =
        fallbackTestConfig.Agents.Defaults.prepareModels.ResolvedModels) ∧
    ((coderConfig.GetAgentProfile "coder").ResolvedModels.head? =
        some (coderConfig.GetAgentProfile "coder").Model ∧
      (coderConfig.GetAgentProfile "coder").ModelCandidates =
        (coderConfig.GetAgentProfile "coder").ResolvedModels) ∧
    (({} : Config).GetAgentProfile "coder").Model = "" :=
  ⟨⟨by decide, by decide, by decide, by decide⟩,
    (prepareModels_first_candidate oldNewProfile fallbackTestConfig.Agents.Defaults coderConfig
      "coder").1.1 (by decide),
    (prepareModels_first_candidate oldNewProfile fallbackTestConfig.Agents.Defaults coderConfig
      "coder").2.1.1 (by decide),
    (prepareModels_first_candidate oldNewProfile fallbackTestConfig.Agents.Defaults coderConfig
      "coder").2.2.1 (by decide),
    (prepareModels_first_candidate oldNewProfile fallbackTestConfig.Agents.Defaults {}
      "coder").2.2.2 (by decide)⟩

/-- C23 as stated fails: a profile whose only model entry holds white space, and
whose legacy model is empty, has a non-empty Model field in its Models list and
no candidate after `prepareModels`. -/
theorem ModelCandidates_nonempty_counterexample :
    (∃ spec ∈ blankModelsProfile.Models, spec.Model ≠ "") ∧
    blankModelsProfile.prepareModels.ModelCandidates = [] := by
  decide

/-- C23 (amended): for every profile whose Model field is non-empty or whose
Models list contains an entry with a non-blank Model field, `ModelCandidates`
after `prepareModels` is non-empty. -/
theorem ModelCandidates_nonempty (ap : AgentProfile)
    (h : ap.Model ≠ "" ∨ ∃ spec ∈ ap.Models, isBlank spec.Model = false) :
    ap.prepareModels.ModelCandidates ≠ [] := by
  rw [prepareModels_candidates]
  by_cases hn : resolvedNames ap.Models = []
  · rcases h with hm | hs
    · rw [buildResolvedModelList_eq]
      unfold resolvedNames at hn
      rw [if_pos ⟨hn, hm⟩]
      exact List.cons_ne_nil _ _
    · exact absurd hn (resolvedNames_ne_nil _ hs)
  · rw [buildResolvedModelList_of_names _ _ hn]
    exact hn

/-- C23 (amended) on a profile with a legacy model only, and on one with a model
entry only. -/
theorem ModelCandidates_nonempty_witness :
    ((partialProfile.Model ≠ "" ∨ ∃ spec ∈ partialProfile.Models, isBlank spec.Model = false) ∧
      (coderProfile.Model ≠ "" ∨ ∃ spec ∈ coderProfile.Models, isBlank spec.Model = false)) ∧
    partialProfile.prepareModels.ModelCandidates ≠ [] ∧
    coderProfile.prepareModels.ModelCandidates ≠ [] :=
  ⟨⟨by decide, by decide⟩,
    ModelCandidates_nonempty partialProfile (by decide),
    ModelCandidates_nonempty coderProfile (by decide)⟩

/-- C24: for every profile and every defaults value, prepared or not,
`ModelCandidates` is ResolvedModels when that is non-empty, otherwise the list
holding Model alone when Model is non-empty, otherwise empty; with the nil slice
told apart from an initialized empty one, an empty ResolvedModels of either kind
gives `[Model]` when Model is non-empty, and the nil slice when Model is empty. -/
theorem ModelCandidates_cases (ap : AgentProfile) (d : AgentDefaults)
    (resolved : StringSlice) (model : String) :
    ap.ModelCandidates =
      (if ap.ResolvedModels ≠ [] then ap.ResolvedModels
       else if ap.Model ≠ "" then [ap.Model] else []) ∧
    d.ModelCandidates =
      (if d.ResolvedModels ≠ [] then d.ResolvedModels
       else if d.Model ≠ "" then [d.Model] else []) ∧
    (resolved.len > 0 → modelCandidatesSlice resolved model = resolved) ∧
    (resolved.len = 0 → model ≠ "" → modelCandidatesSlice resolved model = some [model]) ∧
    (resolved.len = 0 → model = "" → modelCandidatesSlice resolved model = none) ∧
    (modelCandidatesSlice resolved model).elems =
      ({ ResolvedModels := resolved.elems, Model := model } : AgentProfile).ModelCandidates ∧
    (modelCandidatesSlice resolved model).elems =
      ({ ResolvedModels := resolved.elems, Model := model } : AgentDefaults).ModelCandidates := by
  have hlen : resolved.elems.length = resolved.len := by
    cases resolved <;> rfl
  refine ⟨?_, ?_, ?_, ?_, ?_, ?_, ?_⟩
  · unfold AgentProfile.ModelCandidates
    cases ap.ResolvedModels <;> simp
  · unfold AgentDefaults.ModelCandidates
    cases d.ResolvedModels <;> simp
  · intro h
    simp [modelCandidatesSlice, h]
  · intro h hm
    simp [modelCandidatesSlice, h, hm]
  · intro h hm
    simp [modelCandidatesSlice, h, hm]
  · unfold modelCandidatesSlice AgentProfile.ModelCandidates
    simp only [hlen]
    by_cases h : resolved.len > 0
    · simp only [h, if_true]
    · simp only [h, if_false]
      have h0 : resolved.elems = [] := List.length_eq_zero.mp (by omega)
      by_cases hm : model = ""
      · simp [hm, StringSlice.elems]
      · simp [hm, StringSlice.elems]
  · unfold modelCandidatesSlice AgentDefaults.ModelCandidates
    simp only [hlen]
    by_cases h : resolved.len > 0
    · simp only [h, if_true]
    · simp only [h, if_false]
      by_cases hm : model = ""
      · simp [hm, StringSlice.elems]
      · simp [hm, StringSlice.elems]

/-- C24 on the values of the tests: resolved models present, an initialized empty
slice with a model, and the nil slice without a model. -/
theorem ModelCandidates_cases_witness :
    (StringSlice.len (some ["z.ai/new-model"]) > 0 ∧ StringSlice.len (some []) = 0 ∧
      "direct-model" ≠ "" ∧ StringSlice.len none = 0) ∧
    modelCandidatesSlice (some ["z.ai/new-model"]) "old-model" = some ["z.ai/new-model"] ∧
    modelCandidatesSlice (some []) "direct-model" = some ["direct-model"] ∧
    modelCandidatesSlice none "direct-model" = some ["direct-model"] ∧
    modelCandidatesSlice none "" = none ∧
    modelCandidatesSlice (some []) "" = none :=
  ⟨⟨by decide, by decide, by decide, by decide⟩,
    (ModelCandidates_cases {} {} (some ["z.ai/new-model"]) "old-model").2.2.1 (by decide),
    (ModelCandidates_cases {} {} (some []) "direct-model").2.2.2.1 (by decide) (by decide),
    (ModelCandidates_cases {} {} none "direct-model").2.2.2.1 (by decide) (by decide),
    (ModelCandidates_cases {} {} none "").2.2.2.2.1 (by decide) rfl,
    (ModelCandidates_cases {} {} (some []) "").2.2.2.2.1 (by decide) rfl⟩

/-- C25 as stated fails for a profile registered under `"default"`: its Models
are not consulted and the candidates are those of the defaults. -/
theorem GetAgentProfile_own_models_counterexample :
    reservedModelsConfig.Agents.Profiles.lookup "default" = some coderProfile ∧
    (∃ spec ∈ coderProfile.Models, isBlank spec.Model = false) ∧
    resolvedNames coderProfile.Models = ["claude-opus-4"] ∧
    (reservedModelsConfig.GetAgentProfile "default").ModelCandidates = ["glm-4.7"] ∧
    (reservedModelsConfig.GetAgentProfile "default").Model = "glm-4.7" := by
  decide

/-- C25 (amended): for every profile registered under a name other than `""` and
`"default"` whose Models list contains an entry with a non-blank model, the
candidate list of `GetAgentProfile name` is the list of the non-empty resolved
names of that profile's own Models, in declaration order, whatever the defaults
declare, and the resolved Model is its first entry, whatever the legacy Model of
the profile and of the defaults. -/
theorem GetAgentProfile_own_models (c : Config) (name : String) (p : AgentProfile)
    (hne : name ≠ "") (hnd : name ≠ "default")
    (hreg : c.Agents.Profiles.lookup name = some p)
    (hmodels : ∃ spec ∈ p.Models, isBlank spec.Model = false) :
    (c.GetAgentProfile name).ModelCandidates = resolvedNames p.Models ∧
    (c.GetAgentProfile name).ResolvedModels = resolvedNames p.Models ∧
    (resolvedNames p.Models).head? = some (c.GetAgentProfile name).Model ∧
    resolvedNames p.Models ≠ [] := by
  have hn := resolvedNames_ne_nil p.Models hmodels
  have hlen : p.Models.length > 0 := by
    obtain ⟨spec, hs, -⟩ := hmodels
    exact List.length_pos_of_mem hs
  rw [GetAgentProfile_registered c name p hne hnd hreg]
  have hMs : (mergeProfile (defaultsProfile c) p).Models = p.Models := by
    rw [mergeProfile_Models, if_pos hlen]
  have hb := buildResolvedModelList_of_names (mergeProfile (defaultsProfile c) p).Model
    p.Models hn
  rw [prepareModels_candidates, (prepareModels_fields _).2.2.2.2.2.2.2.2.2, prepareModels_Model,
    hMs, hb]
  refine ⟨rfl, rfl, ?_, hn⟩
  cases hr : resolvedNames p.Models with
  | nil => exact absurd hr hn
  | cons first rest => rfl

/-- C25 (amended) on the profile `"coder"` of `TestAgentsConfig_GetAgentProfile`. -/
theorem GetAgentProfile_own_models_witness :
    ("coder" ≠ "" ∧ "coder" ≠ "default" ∧
      coderConfig.Agents.Profiles.lookup "coder" = some coderProfile ∧
      (∃ spec ∈ coderProfile.Models, isBlank spec.Model = false)) ∧
    ((coderConfig.GetAgentProfile "coder").ModelCandidates = resolvedNames coderProfile.Models ∧
      (coderConfig.GetAgentProfile "coder").ResolvedModels = resolvedNames coderProfile.Models ∧
      (resolvedNames coderProfile.Models).head? =
        some (coderConfig.GetAgentProfile "coder").Model ∧
      resolvedNames coderProfile.Models ≠ []) :=
  ⟨⟨by decide, by decide, by decide, by decide⟩,
    GetAgentProfile_own_models coderConfig "coder" coderProfile (by decide) (by decide)
      (by decide) (by decide)⟩

/-! ## Claims on profile listing, flexible slices, routing by the deprecated id and binding -/

/-- A key has a value in an association list exactly when it is among the keys. -/
theorem lookup_isSome_iff_mem_keys (name : String) (profiles : List (String × AgentProfile)) :
    (∃ p, profiles.lookup name = some p) ↔ name ∈ profiles.map Prod.fst := by
  induction profiles with
  | nil => simp
  | cons kv rest ih =>
    obtain ⟨k, v⟩ := kv
    by_cases h : name = k
    · subst h
      simp [List.lookup]
    · have hb : (name == k) = false := by simpa using h
      simp only [List.lookup, hb, List.map_cons, List.mem_cons, h, false_or]
      exact ih

/-- The loop of `ListAgentProfiles` appends the keys in order. -/
theorem foldl_keys_eq (profiles : List (String × AgentProfile)) (acc : List String) :
    profiles.foldl (fun profiles kv => profiles ++ [kv.1]) acc =
      acc ++ profiles.map Prod.fst := by
  induction profiles generalizing acc with
  | nil => simp
  | cons kv rest ih => simp [List.foldl_cons, ih]

/-- C26: `ProfileExists name` is true if and only if the name is `"default"`, is
`""`, or is a key of `Agents.Profiles`. -/
theorem ProfileExists_iff (c : Config) (name : String) :
    c.ProfileExists name = true ↔
      (name = "default" ∨ name = "" ∨ name ∈ c.Agents.Profiles.map Prod.fst) := by
  unfold Config.ProfileExists
  by_cases h : name = "default" ∨ name = ""
  · rw [if_pos h]
    simp only [true_iff]
    rcases h with h | h
    · exact Or.inl h
    · exact Or.inr (Or.inl h)
  · rw [if_neg h]
    have hk := lookup_isSome_iff_mem_keys name c.Agents.Profiles
    push_neg at h
    cases hl : c.Agents.Profiles.lookup name with
    | none =>
      simp only [Bool.false_eq_true, false_iff]
      rintro (h1 | h1 | h1)
      · exact h.1 h1
      · exact h.2 h1
      · obtain ⟨p, hp⟩ := hk.mpr h1
        rw [hl] at hp
        cases hp
    | some p =>
      simp only [true_iff]
      exact Or.inr (Or.inr (hk.mp ⟨p, hl⟩))

/-- C27: `ListAgentProfiles` contains `"default"` and every key of
`Agents.Profiles`, contains nothing else, and has length one plus the number of
registered profiles; without profiles it is `"default"` alone. -/
theorem ListAgentProfiles_spec (c : Config) :
    "default" ∈ c.ListAgentProfiles ∧
    (∀ name ∈ c.Agents.Profiles.map Prod.fst, name ∈ c.ListAgentProfiles) ∧
    (∀ name ∈ c.ListAgentProfiles,
      name = "default" ∨ name ∈ c.Agents.Profiles.map Prod.fst) ∧
    c.ListAgentProfiles.length = 1 + c.Agents.Profiles.length ∧
    c.ListAgentProfiles = "default" :: c.Agents.Profiles.map Prod.fst ∧
    (({ c with Agents := { c.Agents with Profiles := [] } } : Config).ListAgentProfiles =
      ["default"]) ∧
    listTestConfig.ListAgentProfiles = ["default", "coder", "researcher"] := by
  have h : c.ListAgentProfiles = "default" :: c.Agents.Profiles.map Prod.fst := by
    unfold Config.ListAgentProfiles
    rw [foldl_keys_eq]
    rfl
  rw [h]
  refine ⟨List.mem_cons_self _ _, ?_, ?_, ?_, rfl, rfl, by decide⟩
  · intro name hn
    exact List.mem_cons_of_mem _ hn
  · intro name hn
    exact List.mem_cons.mp hn
  · simp [Nat.add_comm]

/-- The conversion loop of `UnmarshalJSON` converts every element in order. -/
theorem foldl_flexibleElem_eq (raw : List JSONElem) (acc : List String) :
    raw.foldl (fun (result : List String) v => result ++ [flexibleElem v]) acc =
      acc ++ raw.map flexibleElem := by
  induction raw generalizing acc with
  | nil => simp
  | cons v rest ih => simp [List.foldl_cons, ih]

/-- On an array of strings and small integers the first path of `UnmarshalJSON`
either gives the element-wise conversion or fails. -/
theorem unmarshalStrings_array (elems : List JSONElem)
    (h : ∀ e ∈ elems, (∃ s, e = JSONElem.string s) ∨
      ∃ negative magnitude, e = JSONElem.number (JSONNumber.integer negative magnitude)) :
    unmarshalStrings (JSONDoc.array elems) = .ok (elems.map flexibleElem) ∨
      ∃ msg, unmarshalStrings (JSONDoc.array elems) = .error msg := by
  unfold unmarshalStrings
  dsimp only
  split_ifs with hall
  · left
    congr 1
    apply List.map_congr_left
    intro e he
    rcases h e he with ⟨s, rfl⟩ | ⟨negative, magnitude, rfl⟩
    · rfl
    · rw [List.all_eq_true] at hall
      have := hall _ he
      simp at this
  · right
    exact ⟨_, rfl⟩

/-- On an array of strings and small integers the second path of `UnmarshalJSON`
decodes every element. -/
theorem unmarshalRaw_array (elems : List JSONElem)
    (h : ∀ e ∈ elems, (∃ s, e = JSONElem.string s) ∨
      ∃ negative magnitude, e = JSONElem.number (JSONNumber.integer negative magnitude)) :
    unmarshalRaw (JSONDoc.array elems) = .ok elems := by
  unfold unmarshalRaw
  dsimp only
  split_ifs with hany
  · rw [List.any_eq_true] at hany
    obtain ⟨e, he, hout⟩ := hany
    rcases h e he with ⟨s, rfl⟩ | ⟨negative, magnitude, rfl⟩ <;> simp at hout
  · rfl

/-- On an array of strings and small integers, both paths of `UnmarshalJSON` give
the element-wise conversion. -/
theorem UnmarshalJSON_array (elems : List JSONElem)
    (h : ∀ e ∈ elems, (∃ s, e = JSONElem.string s) ∨
      ∃ negative magnitude, e = JSONElem.number (JSONNumber.integer negative magnitude)) :
    FlexibleStringSlice.UnmarshalJSON (JSONDoc.array elems) = .ok (elems.map flexibleElem) := by
  unfold FlexibleStringSlice.UnmarshalJSON
  rcases unmarshalStrings_array elems h with hs | ⟨msg, hs⟩
  · rw [hs]
  · rw [hs, unmarshalRaw_array elems h]
    simp only [foldl_flexibleElem_eq, List.nil_append]

/-- C28: for every JSON array whose elements are strings or integer-valued numbers
of magnitude below `2^53`, `UnmarshalJSON` succeeds and sets the slice to a list of
the same length and order, each string taken as it is and each number rendered as
its decimal digits (with its sign), without exponent or fraction; so
`["123", 123]` decodes to `["123", "123"]`. -/
theorem UnmarshalJSON_strings_and_integers (elems : List JSONElem)
    (h : ∀ e ∈ elems, (∃ s, e = JSONElem.string s) ∨
      ∃ negative magnitude, magnitude < 2 ^ 53 ∧
        e = JSONElem.number (JSONNumber.integer negative magnitude)) :
    ∃ result, FlexibleStringSlice.UnmarshalJSON (JSONDoc.array elems) = .ok result ∧
      result.length = elems.length ∧
      List.Forall₂
        (fun e text =>
          (∀ s, e = JSONElem.string s → text = s) ∧
          (∀ negative magnitude, e = JSONElem.number (JSONNumber.integer negative magnitude) →
            text = (if negative then "-" else "") ++ toString magnitude))
        elems result ∧
      FlexibleStringSlice.UnmarshalJSON
        (JSONDoc.array [JSONElem.string "123", JSONElem.number (JSONNumber.integer false 123)]) =
        .ok ["123", "123"] := by
  have h1 : ∀ e ∈ elems, (∃ s, e = JSONElem.string s) ∨
      ∃ negative magnitude, e = JSONElem.number (JSONNumber.integer negative magnitude) := by
    intro e he
    rcases h e he with hs | ⟨negative, magnitude, -, hn⟩
    · exact Or.inl hs
    · exact Or.inr ⟨negative, magnitude, hn⟩
  refine ⟨elems.map flexibleElem, UnmarshalJSON_array elems h1, List.length_map _ _, ?_, rfl⟩
  rw [List.forall₂_map_right_iff, List.forall₂_same]
  intro e _
  constructor
  · rintro s rfl
    rfl
  · rintro negative magnitude rfl
    rfl

/-- C28 on the array `["123", 123]`. -/
theorem UnmarshalJSON_strings_and_integers_witness :
    (∀ e ∈ [JSONElem.string "123", JSONElem.number (JSONNumber.integer false 123)],
      (∃ s, e = JSONElem.string s) ∨
      ∃ negative magnitude, magnitude < 2 ^ 53 ∧
        e = JSONElem.number (JSONNumber.integer negative magnitude)) ∧
    (∃ result, FlexibleStringSlice.UnmarshalJSON
        (JSONDoc.array [JSONElem.string "123", JSONElem.number (JSONNumber.integer false 123)]) =
          .ok result ∧
      result.length =
        [JSONElem.string "123", JSONElem.number (JSONNumber.integer false 123)].length ∧
      List.Forall₂
        (fun e text =>
          (∀ s, e = JSONElem.string s → text = s) ∧
          (∀ negative magnitude, e = JSONElem.number (JSONNumber.integer negative magnitude) →
            text = (if negative then "-" else "") ++ toString magnitude))
        [JSONElem.string "123", JSONElem.number (JSONNumber.integer false 123)] result ∧
      FlexibleStringSlice.UnmarshalJSON
        (JSONDoc.array [JSONElem.string "123", JSONElem.number (JSONNumber.integer false 123)]) =
        .ok ["123", "123"]) :=
  ⟨by
      intro e he
      simp only [List.mem_cons, List.mem_singleton, List.not_mem_nil, or_false] at he
      rcases he with rfl | rfl
      · exact Or.inl ⟨"123", rfl⟩
      · exact Or.inr ⟨false, 123, by norm_num, rfl⟩,
    UnmarshalJSON_strings_and_integers
      [JSONElem.string "123", JSONElem.number (JSONNumber.integer false 123)]
      (by
        intro e he
        simp only [List.mem_cons, List.mem_singleton, List.not_mem_nil, or_false] at he
        rcases he with rfl | rfl
        · exact Or.inl ⟨"123", rfl⟩
        · exact Or.inr ⟨false, 123, by norm_num, rfl⟩)⟩

/-- C29 as stated fails.  A rule whose deprecated single id is the wildcard matches
every non-empty user id, not that id alone; and a rule with the deprecated id
does not decide the routing when an earlier rule matches. -/
theorem EffectiveUserIDs_legacy_counterexample :
    (legacyWildcardRule.UserIDs = [] ∧ legacyWildcardRule.UserID = "*" ∧
      "123456" ≠ legacyWildcardRule.UserID ∧
      ruleMatches "telegram" "123456" legacyWildcardRule ∧
      ({ Agents := { Routing := [legacyWildcardRule] } } : Config).GetRoutedAgent
        "telegram" "123456" = legacyWildcardRule.Agent) ∧
    (legacyRule.UserIDs = [] ∧ legacyRule.UserID = "123456" ∧ legacyRule.Channel = "telegram" ∧
      ({ Agents := { Routing := [channelRule, legacyRule] } } : Config).GetRoutedAgent
        "telegram" "123456" = "researcher" ∧
      legacyRule.Agent ≠ "researcher") := by
  decide

/-- C29 (amended): `EffectiveUserIDs` is UserIDs when that is non-empty, the list
holding UserID alone when UserIDs is empty and UserID is non-empty, and the empty
list otherwise; hence a rule on channel `C` that sets only the deprecated UserID
to `U`, where `U` is not the wildcard, makes `GetRoutedAgent C U` return its
Agent when no earlier rule matches, and does not match `(C, V)` for any `V`
different from `U`. -/
theorem EffectiveUserIDs_legacy (c : Config) (rule : RoutingRule) (channel user : String)
    (pre post : List RoutingRule)
    (hids : rule.UserIDs = []) (hid : rule.UserID = user) (hset : user ≠ "")
    (hwild : user ≠ "*") (hchan : rule.Channel = channel)
    (hpre : ∀ r ∈ pre, ¬ ruleMatches channel user r) :
    (∀ r : RoutingRule, r.EffectiveUserIDs =
      if r.UserIDs ≠ [] then r.UserIDs else if r.UserID ≠ "" then [r.UserID] else []) ∧
    rule.EffectiveUserIDs = [user] ∧
    ({ c with Agents := { c.Agents with Routing := pre ++ rule :: post } } : Config).GetRoutedAgent
      channel user = rule.Agent ∧
    (∀ other, other ≠ user → ¬ ruleMatches channel other rule) := by
  have heff : rule.EffectiveUserIDs = [user] := by
    unfold RoutingRule.EffectiveUserIDs
    rw [hids, hid]
    simp [hset]
  refine ⟨?_, heff, ?_, ?_⟩
  · intro r
    unfold RoutingRule.EffectiveUserIDs
    cases hu : r.UserIDs with
    | nil =>
      by_cases h : r.UserID = ""
      · simp [h]
      · simp [h]
    | cons a l => simp
  · show routeRules channel user (pre ++ rule :: post) = rule.Agent
    rw [routeRules_skip channel user pre _ hpre, routeRules_cons,
      if_pos ⟨hchan, Or.inr (Or.inl (by rw [heff]; exact List.mem_singleton.mpr rfl))⟩]
  · intro other hne hm
    unfold ruleMatches at hm
    rw [heff] at hm
    rcases hm.2 with h | h | ⟨h, -⟩
    · cases h
    · exact hne (List.mem_singleton.mp h)
    · exact hwild (List.mem_singleton.mp h).symm

/-- C29 (amended) on the rule of `TestAgentLoop_getAgentProfile`. -/
theorem EffectiveUserIDs_legacy_witness :
    (legacyRule.UserIDs = [] ∧ legacyRule.UserID = "123456" ∧ "123456" ≠ "" ∧ "123456" ≠ "*" ∧
      legacyRule.Channel = "telegram" ∧
      (∀ r ∈ ([] : List RoutingRule), ¬ ruleMatches "telegram" "123456" r)) ∧
    ((∀ r : RoutingRule, r.EffectiveUserIDs =
        if r.UserIDs ≠ [] then r.UserIDs else if r.UserID ≠ "" then [r.UserID] else []) ∧
      legacyRule.EffectiveUserIDs = ["123456"] ∧
      ({ DefaultConfig with
          Agents := { DefaultConfig.Agents with Routing := [] ++ legacyRule :: [] } }
        : Config).GetRoutedAgent "telegram" "123456" = legacyRule.Agent ∧
      (∀ other, other ≠ "123456" → ¬ ruleMatches "telegram" other legacyRule)) :=
  ⟨⟨by decide, by decide, by decide, by decide, by decide, by simp⟩,
    EffectiveUserIDs_legacy DefaultConfig legacyRule "telegram" "123456" [] []
      (by decide) (by decide) (by decide) (by decide) (by decide) (by simp)⟩

/-- C30: the profile governing a turn is `GetAgentProfile (GetRoutedAgent channel
sender)` when a routing rule matches, whatever the sticky binding of the session;
otherwise `GetAgentProfile` of the sticky binding when one is set; otherwise
the default profile. -/
theorem getAgentProfile_precedence (c : Config) (sessions : SessionManager)
    (sessionKey channel senderID : String) :
    ((∃ r ∈ c.Agents.Routing, ruleMatches channel senderID r) →
      getAgentProfile c sessions sessionKey channel senderID =
        c.GetAgentProfile (c.GetRoutedAgent channel senderID)) ∧
    ((∀ r ∈ c.Agents.Routing, ¬ ruleMatches channel senderID r) →
      sessions.GetCurrentAgent sessionKey ≠ "" →
      getAgentProfile c sessions sessionKey channel senderID =
        c.GetAgentProfile (sessions.GetCurrentAgent sessionKey)) ∧
    ((∀ r ∈ c.Agents.Routing, ¬ ruleMatches channel senderID r) →
      sessions.GetCurrentAgent sessionKey = "" →
      getAgentProfile c sessions sessionKey channel senderID = c.GetAgentProfile "default" ∧
      getAgentProfile c sessions sessionKey channel senderID = c.GetAgentProfile "") := by
  have hany : c.Agents.Routing.any (fun r => decide (ruleMatches channel senderID r)) = true ↔
      ∃ r ∈ c.Agents.Routing, ruleMatches channel senderID r := by
    simp [List.any_eq_true]
  have hnone : (∀ r ∈ c.Agents.Routing, ¬ ruleMatches channel senderID r) →
      ¬ c.Agents.Routing.any (fun r => decide (ruleMatches channel senderID r)) = true := by
    intro h ha
    obtain ⟨r, hr, hm⟩ := hany.mp ha
    exact h r hr hm
  obtain ⟨he, hd⟩ := GetAgentProfile_default c
  refine ⟨?_, ?_, ?_⟩
  · intro h
    unfold getAgentProfile
    rw [if_pos (hany.mpr h)]
  · intro h hs
    unfold getAgentProfile
    rw [if_neg (hnone h)]
    simp only [hs, ne_eq, not_false_eq_true, if_true]
  · intro h hs
    unfold getAgentProfile
    rw [if_neg (hnone h)]
    simp only [hs, ne_eq, not_true_eq_false, if_false, true_and]
    exact hd.trans he.symm

/-- C30 on the three cases of `TestAgentLoop_getAgentProfile`. -/
theorem getAgentProfile_precedence_witness :
    ((∃ r ∈ loopTestConfig.Agents.Routing, ruleMatches "telegram" "123456" r) ∧
      (∀ r ∈ loopTestConfig.Agents.Routing, ¬ ruleMatches "discord" "123456" r) ∧
      loopTestSessions.GetCurrentAgent "test:2" ≠ "" ∧
      (∀ r ∈ loopTestConfig.Agents.Routing, ¬ ruleMatches "" "" r) ∧
      loopTestSessions.GetCurrentAgent "test:3" = "") ∧
    getAgentProfile loopTestConfig loopTestSessions "test:1" "telegram" "123456" =
      loopTestConfig.GetAgentProfile (loopTestConfig.GetRoutedAgent "telegram" "123456") ∧
    getAgentProfile loopTestConfig loopTestSessions "test:2" "discord" "123456" =
      loopTestConfig.GetAgentProfile (loopTestSessions.GetCurrentAgent "test:2") ∧
    (getAgentProfile loopTestConfig loopTestSessions "test:3" "" "" =
        loopTestConfig.GetAgentProfile "default" ∧
      getAgentProfile loopTestConfig loopTestSessions "test:3" "" "" =
        loopTestConfig.GetAgentProfile "") ∧
    (getAgentProfile loopTestConfig loopTestSessions "test:1" "telegram" "123456").Model =
      "claude-opus" ∧
    (getAgentProfile loopTestConfig loopTestSessions "test:3" "" "").Model = "glm-4.7" :=
  ⟨⟨by decide, by decide, by decide, by decide, by decide⟩,
    (getAgentProfile_precedence loopTestConfig loopTestSessions "test:1" "telegram" "123456").1
      (by decide),
    (getAgentProfile_precedence loopTestConfig loopTestSessions "test:2" "discord" "123456").2.1
      (by decide) (by decide),
    (getAgentProfile_precedence loopTestConfig loopTestSessions "test:3" "" "").2.2
      (by decide) (by decide),
    by decide, by decide⟩

/-! ## Claims on the session store and on switching the agent -/

/-- Looking a key up after a list of bindings was extended at the end. -/
theorem lookup_append_session (sm tail : SessionManager) (k : String) :
    (sm ++ tail).lookup k =
      match sm.lookup k with
      | some session => some session
      | none => tail.lookup k := by
  induction sm with
  | nil => rfl
  | cons kv rest ih =>
    obtain ⟨k1, v⟩ := kv
    by_cases h : k = k1
    · subst h
      simp [List.lookup]
    · have hb : (k == k1) = false := by simpa using h
      simp only [List.cons_append, List.lookup, hb]
      exact ih

/-- Looking a key up after the sessions of one key were rebound. -/
theorem lookup_map_rebind (sm : SessionManager) (key name k : String) :
    (sm.map (fun kv =>
        if kv.1 = key then (kv.1, { kv.2 with CurrentAgent := name }) else kv)).lookup k =
      if k = key then (sm.lookup k).map (fun session => { session with CurrentAgent := name })
      else sm.lookup k := by
  induction sm with
  | nil => simp
  | cons kv rest ih =>
    obtain ⟨k1, v⟩ := kv
    rw [List.map_cons]
    dsimp only
    by_cases h2 : k1 = key
    · rw [if_pos h2]
      by_cases h1 : k = k1
      · have hb : (k == k1) = true := by simpa using h1
        simp only [List.lookup, hb, if_pos (h1.trans h2), Option.map_some']
      · have hb : (k == k1) = false := by simpa using h1
        simp only [List.lookup, hb]
        exact ih
    · rw [if_neg h2]
      by_cases h1 : k = k1
      · have hb : (k == k1) = true := by simpa using h1
        have hne : ¬ k = key := fun hk => h2 (h1 ▸ hk)
        simp only [List.lookup, hb, if_neg hne]
      · have hb : (k == k1) = false := by simpa using h1
        simp only [List.lookup, hb]
        exact ih

/-- After `SetCurrentAgent` the key is bound to the name. -/
theorem GetCurrentAgent_SetCurrentAgent (sm : SessionManager) (key name : String) :
    (sm.SetCurrentAgent key name).GetCurrentAgent key = name := by
  unfold SessionManager.SetCurrentAgent SessionManager.GetCurrentAgent
  cases h : sm.lookup key with
  | none =>
    simp only [lookup_append_session, h]
    simp [List.lookup]
  | some session =>
    simp only [lookup_map_rebind, if_true, h, Option.map_some']

/-- After `SetCurrentAgent` the binding of every other key is what it was. -/
theorem GetCurrentAgent_SetCurrentAgent_other (sm : SessionManager) (key name other : String)
    (h : other ≠ key) :
    (sm.SetCurrentAgent key name).GetCurrentAgent other = sm.GetCurrentAgent other := by
  unfold SessionManager.SetCurrentAgent SessionManager.GetCurrentAgent
  have hb : (other == key) = false := by simpa using h
  cases hk : sm.lookup key with
  | none =>
    simp only [lookup_append_session]
    cases ho : sm.lookup other with
    | none => simp [List.lookup, hb]
    | some session => rfl
  | some session =>
    simp only [lookup_map_rebind, if_neg h]

/-- C31: `GetCurrentAgent` on a key without session returns the empty string; after
`SetCurrentAgent k x` it returns `x` for `k`, also when `k` was unknown before
the call, and a later `SetCurrentAgent k y` makes it return `y`; the bindings of
the other keys are unchanged. -/
theorem SetCurrentAgent_then_GetCurrentAgent (sm : SessionManager) (k x y : String) :
    (sm.lookup k = none → sm.GetCurrentAgent k = "") ∧
    SessionManager.GetCurrentAgent [] k = "" ∧
    (sm.SetCurrentAgent k x).GetCurrentAgent k = x ∧
    (sm.lookup k = none →
      (sm.SetCurrentAgent k x).lookup k = some { Key := k, CurrentAgent := x }) ∧
    ((sm.SetCurrentAgent k x).SetCurrentAgent k y).GetCurrentAgent k = y ∧
    (∀ other, other ≠ k →
      (sm.SetCurrentAgent k x).GetCurrentAgent other = sm.GetCurrentAgent other ∧
      ((sm.SetCurrentAgent k x).SetCurrentAgent k y).GetCurrentAgent other =
        sm.GetCurrentAgent other) := by
  refine ⟨?_, rfl, GetCurrentAgent_SetCurrentAgent sm k x, ?_,
    GetCurrentAgent_SetCurrentAgent _ k y, ?_⟩
  · intro h
    unfold SessionManager.GetCurrentAgent
    rw [h]
  · intro h
    unfold SessionManager.SetCurrentAgent
    rw [h]
    simp only [lookup_append_session, h]
    simp [List.lookup]
  · intro other ho
    refine ⟨GetCurrentAgent_SetCurrentAgent_other sm k x other ho, ?_⟩
    rw [GetCurrentAgent_SetCurrentAgent_other _ k y other ho,
      GetCurrentAgent_SetCurrentAgent_other sm k x other ho]

/-- C31 on the calls of `TestSessionManager_SetCurrentAgent` and of
`TestSessionManager_SetCurrentAgent_NonExistentSession`. -/
theorem SetCurrentAgent_then_GetCurrentAgent_witness :
    (List.lookup "non:existent" loopTestSessions = none ∧ "test:2" ≠ "non:existent") ∧
    loopTestSessions.GetCurrentAgent "non:existent" = "" ∧
    (loopTestSessions.SetCurrentAgent "non:existent" "researcher").GetCurrentAgent
      "non:existent" = "researcher" ∧
    ((loopTestSessions.SetCurrentAgent "non:existent" "researcher").SetCurrentAgent
      "non:existent" "coder").GetCurrentAgent "non:existent" = "coder" ∧
    (loopTestSessions.SetCurrentAgent "non:existent" "researcher").GetCurrentAgent "test:2" =
      loopTestSessions.GetCurrentAgent "test:2" ∧
    loopTestSessions.GetCurrentAgent "test:2" = "coder" :=
  ⟨⟨by decide, by decide⟩,
    (SetCurrentAgent_then_GetCurrentAgent loopTestSessions "non:existent" "researcher" "coder").1
      (by decide),
    (SetCurrentAgent_then_GetCurrentAgent loopTestSessions "non:existent" "researcher" "coder").2.2.1,
    (SetCurrentAgent_then_GetCurrentAgent loopTestSessions "non:existent" "researcher"
      "coder").2.2.2.2.1,
    ((SetCurrentAgent_then_GetCurrentAgent loopTestSessions "non:existent" "researcher"
      "coder").2.2.2.2.2 "test:2" (by decide)).1,
    by decide⟩

/-- A list that starts with the text contains it. -/
theorem containsChars_of_isPrefixOf (sub l : List Char) (h : sub.isPrefixOf l = true) :
    containsChars sub l = true := by
  cases l with
  | nil =>
    cases sub with
    | nil => rfl
    | cons c cs => simp [List.isPrefixOf] at h
  | cons c cs =>
    unfold containsChars
    rw [h]
    rfl

/-- Text contained in a list is contained in every extension to the left. -/
theorem containsChars_append_left (sub a l : List Char) (h : containsChars sub l = true) :
    containsChars sub (a ++ l) = true := by
  induction a with
  | nil => exact h
  | cons c cs ih =>
    rw [List.cons_append]
    unfold containsChars
    rw [ih]
    exact Bool.or_true _

/-- A list contains the text in its middle. -/
theorem containsChars_middle (sub a b : List Char) :
    containsChars sub (a ++ (sub ++ b)) = true := by
  apply containsChars_append_left
  apply containsChars_of_isPrefixOf
  rw [List.isPrefixOf_iff_prefix]
  exact List.prefix_append sub b

/-- For a name other than the empty one, `ProfileExists` is the test of the
specification: the name is `"default"` or registered. -/
theorem ProfileExists_of_ne_empty (c : Config) (name : String) (hne : name ≠ "") :
    c.ProfileExists name = true ↔
      (name = "default" ∨ name ∈ c.Agents.Profiles.map Prod.fst) := by
  unfold Config.ProfileExists
  have hk := lookup_isSome_iff_mem_keys name c.Agents.Profiles
  by_cases hd : name = "default"
  · rw [if_pos (Or.inl hd)]
    simp only [true_iff]
    exact Or.inl hd
  · have hno : ¬ (name = "default" ∨ name = "") := fun h => h.elim hd hne
    rw [if_neg hno]
    cases hl : c.Agents.Profiles.lookup name with
    | none =>
      simp only [Bool.false_eq_true, false_iff]
      rintro (h1 | h1)
      · exact hd h1
      · obtain ⟨p, hp⟩ := hk.mpr h1
        rw [hl] at hp
        cases hp
    | some p =>
      simp only [true_iff]
      exact Or.inr (hk.mp ⟨p, hl⟩)

/-- C32: for every session and every name that is neither `"default"` nor a
registered profile, `SwitchAgent` fails with an error whose message contains
"does not exist" and leaves the binding of the session unchanged; for a
registered name it succeeds and the binding becomes that name.  For a name other
than the empty one the test is that of `ProfileExists`. -/
theorem SwitchAgent_spec (c : Config) (sessions : SessionManager)
    (sessionKey name : String) :
    (name ≠ "default" → name ∉ c.Agents.Profiles.map Prod.fst →
      ∃ err, SwitchAgent c sessions sessionKey name = .error err ∧
        Contains err.Error "does not exist" = true ∧
        storeAfter sessions (SwitchAgent c sessions sessionKey name) = sessions ∧
        (storeAfter sessions (SwitchAgent c sessions sessionKey name)).GetCurrentAgent
          sessionKey = sessions.GetCurrentAgent sessionKey) ∧
    (name ∈ c.Agents.Profiles.map Prod.fst →
      ∃ after, SwitchAgent c sessions sessionKey name = .ok after ∧
        after = storeAfter sessions (SwitchAgent c sessions sessionKey name) ∧
        after.GetCurrentAgent sessionKey = name ∧
        ∀ other, other ≠ sessionKey →
          after.GetCurrentAgent other = sessions.GetCurrentAgent other) ∧
    (name ≠ "" →
      ((∃ after, SwitchAgent c sessions sessionKey name = .ok after) ↔
        c.ProfileExists name = true)) := by
  refine ⟨?_, ?_, ?_⟩
  · intro hd hr
    have hno : ¬ (name = "default" ∨ name ∈ c.Agents.Profiles.map Prod.fst) :=
      fun h => h.elim hd hr
    have hs : SwitchAgent c sessions sessionKey name =
        .error (errorsNew ("agent profile '" ++ name ++ "' does not exist")) := by
      unfold SwitchAgent
      rw [if_neg hno]
    refine ⟨_, hs, ?_, ?_, ?_⟩
    · show containsChars "does not exist".data
        ("agent profile '" ++ name ++ "' does not exist").data = true
      rw [String.data_append, String.data_append]
      have h := containsChars_middle "does not exist".data
        ("agent profile '".data ++ name.data ++ "' ".data) []
      rw [List.append_nil] at h
      rw [← h]
      congr 1
      simp
    · rw [hs]
      rfl
    · rw [hs]
      rfl
  · intro hr
    have hs : SwitchAgent c sessions sessionKey name =
        .ok (sessions.SetCurrentAgent sessionKey name) := by
      unfold SwitchAgent
      rw [if_pos (Or.inr hr)]
    refine ⟨_, hs, ?_, GetCurrentAgent_SetCurrentAgent sessions sessionKey name, ?_⟩
    · rw [hs]
      rfl
    · intro other ho
      exact GetCurrentAgent_SetCurrentAgent_other sessions sessionKey name other ho
  · intro hne
    rw [ProfileExists_of_ne_empty c name hne]
    unfold SwitchAgent
    by_cases h : name = "default" ∨ name ∈ c.Agents.Profiles.map Prod.fst
    · rw [if_pos h]
      exact ⟨fun _ => h, fun _ => ⟨_, rfl⟩⟩
    · rw [if_neg h]
      constructor
      · rintro ⟨after, ha⟩
        cases ha
      · intro h1
        exact absurd h1 h

/-- C32 on the calls of `TestAgentLoop_SwitchAgent`. -/
theorem SwitchAgent_spec_witness :
    ("nonexistent" ≠ "default" ∧
      "nonexistent" ∉ switchTestConfig.Agents.Profiles.map Prod.fst ∧
      "coder" ∈ switchTestConfig.Agents.Profiles.map Prod.fst) ∧
    (∃ err, SwitchAgent switchTestConfig switchedSessions "test:session" "nonexistent" =
        .error err ∧
      Contains err.Error "does not exist" = true ∧
      storeAfter switchedSessions
        (SwitchAgent switchTestConfig switchedSessions "test:session" "nonexistent") =
        switchedSessions ∧
      (storeAfter switchedSessions
        (SwitchAgent switchTestConfig switchedSessions "test:session"
          "nonexistent")).GetCurrentAgent "test:session" =
        switchedSessions.GetCurrentAgent "test:session") ∧
    (∃ after, SwitchAgent switchTestConfig [] "test:session" "coder" = .ok after ∧
      after = storeAfter [] (SwitchAgent switchTestConfig [] "test:session" "coder") ∧
      after.GetCurrentAgent "test:session" = "coder" ∧
      ∀ other, other ≠ "test:session" →
        after.GetCurrentAgent other = SessionManager.GetCurrentAgent [] other) ∧
    switchedSessions.GetCurrentAgent "test:session" = "coder" :=
  ⟨⟨by decide, by decide, by decide⟩,
    (SwitchAgent_spec switchTestConfig switchedSessions "test:session" "nonexistent").1
      (by decide) (by decide),
    (SwitchAgent_spec switchTestConfig [] "test:session" "coder").2.1 (by decide),
    by decide⟩

/-! ## Claims on the wildcard and the anonymous sender -/

/-- Over rules whose user ids for the channel are wildcards alone, the loop of
`GetRoutedAgent` returns nothing for the empty user id and the agent of the first
rule of the channel for every other user id. -/
theorem routeRules_wildcard_only (channel : String) (rules : List RoutingRule)
    (h : ∀ r ∈ rules, r.Channel = channel →
      r.EffectiveUserIDs ≠ [] ∧ ∀ id ∈ r.EffectiveUserIDs, id = "*") :
    routeRules channel "" rules = "" ∧
    ∀ u, u ≠ "" → routeRules channel u rules =
      match rules.find? (fun r => decide (r.Channel = channel)) with
      | some r => r.Agent
      | none => "" := by
  induction rules with
  | nil => exact ⟨rfl, fun _ _ => rfl⟩
  | cons r rest ih =>
    have ih1 := ih (fun r1 hr1 => h r1 (List.mem_cons_of_mem _ hr1))
    by_cases hc : r.Channel = channel
    · obtain ⟨hne, hall⟩ := h r (List.mem_cons_self _ _) hc
      have hstar : "*" ∈ r.EffectiveUserIDs := by
        cases hids : r.EffectiveUserIDs with
        | nil => exact absurd hids hne
        | cons a l =>
          have ha : a = "*" := hall a (by rw [hids]; exact List.mem_cons_self _ _)
          rw [ha]
          exact List.mem_cons_self _ _
      constructor
      · rw [routeRules_cons, if_neg, ih1.1]
        rintro ⟨-, h1 | h1 | ⟨-, h1⟩⟩
        · exact hne h1
        · exact absurd (hall "" h1) (by decide)
        · exact h1 rfl
      · intro u hu
        rw [routeRules_cons, if_pos ⟨hc, Or.inr (Or.inr ⟨hstar, hu⟩)⟩]
        simp [List.find?, hc]
    · constructor
      · rw [routeRules_cons, if_neg (fun hm => hc hm.1), ih1.1]
      · intro u hu
        rw [routeRules_cons, if_neg (fun hm => hc hm.1), ih1.2 u hu]
        simp [List.find?, hc]

/-- C33: the wildcard never matches an anonymous sender: for every rule list in
which every rule for channel `C` has effective user ids consisting only of `"*"`,
`GetRoutedAgent C ""` returns `""`, while `GetRoutedAgent C u` for every non-empty
`u` returns the agent of the first rule for `C` (and `""` when there is no rule
for `C`). -/
theorem GetRoutedAgent_wildcard_anonymous (c : Config) (channel : String)
    (h : ∀ r ∈ c.Agents.Routing, r.Channel = channel →
      r.EffectiveUserIDs ≠ [] ∧ ∀ id ∈ r.EffectiveUserIDs, id = "*") :
    c.GetRoutedAgent channel "" = "" ∧
    (∀ r ∈ c.Agents.Routing, ¬ ruleMatches channel "" r) ∧
    ∀ u, u ≠ "" → c.GetRoutedAgent channel u =
      match c.Agents.Routing.find? (fun r => decide (r.Channel = channel)) with
      | some r => r.Agent
      | none => "" := by
  obtain ⟨h1, h2⟩ := routeRules_wildcard_only channel c.Agents.Routing h
  refine ⟨h1, ?_, h2⟩
  intro r hr hm
  obtain ⟨hne, hall⟩ := h r hr hm.1
  rcases hm.2 with h3 | h3 | ⟨-, h3⟩
  · exact hne h3
  · exact absurd (hall "" h3) (by decide)
  · exact h3 rfl

/-- C33 on a rule list with two wildcard rules for channel `"line"`. -/
theorem GetRoutedAgent_wildcard_anonymous_witness :
    (∀ r ∈ wildcardOnlyConfig.Agents.Routing, r.Channel = "line" →
      r.EffectiveUserIDs ≠ [] ∧ ∀ id ∈ r.EffectiveUserIDs, id = "*") ∧
    wildcardOnlyConfig.GetRoutedAgent "line" "" = "" ∧
    (∀ r ∈ wildcardOnlyConfig.Agents.Routing, ¬ ruleMatches "line" "" r) ∧
    (∀ u, u ≠ "" → wildcardOnlyConfig.GetRoutedAgent "line" u =
      match wildcardOnlyConfig.Agents.Routing.find? (fun r => decide (r.Channel = "line")) with
      | some r => r.Agent
      | none => "") ∧
    wildcardOnlyConfig.GetRoutedAgent "line" "111" = "creative" :=
  ⟨by decide, (GetRoutedAgent_wildcard_anonymous wildcardOnlyConfig "line" (by decide)).1,
    (GetRoutedAgent_wildcard_anonymous wildcardOnlyConfig "line" (by decide)).2.1,
    (GetRoutedAgent_wildcard_anonymous wildcardOnlyConfig "line" (by decide)).2.2,
    by decide⟩

/-! ## Claims on candidate preparation: idempotence and order of evaluation -/

/-- The candidate list when no spec has a usable name. -/
theorem buildResolvedModelList_of_no_names (base : String) (specs : List ModelSpec)
    (h : resolvedNames specs = []) :
    buildResolvedModelList base specs = if base ≠ "" then [base] else [] := by
  rw [buildResolvedModelList_eq]
  unfold resolvedNames at h
  rw [h]
  by_cases hb : base = ""
  · simp [hb]
  · simp [hb]

/-- The model after preparation when no spec has a usable name: unchanged. -/
theorem headD_buildResolvedModelList_of_no_names (base : String) (specs : List ModelSpec)
    (h : resolvedNames specs = []) :
    (buildResolvedModelList base specs).headD base = base := by
  rw [buildResolvedModelList_of_no_names base specs h]
  by_cases hb : base = ""
  · simp [hb]
  · simp [hb]

/-- Building the candidates again from the prepared model gives the same list. -/
theorem buildResolvedModelList_headD (base : String) (specs : List ModelSpec) :
    buildResolvedModelList ((buildResolvedModelList base specs).headD base) specs =
      buildResolvedModelList base specs := by
  by_cases h : resolvedNames specs = []
  · rw [headD_buildResolvedModelList_of_no_names base specs h]
  · rw [buildResolvedModelList_of_names _ _ h, buildResolvedModelList_of_names _ _ h]

/-- The profile after `prepareModels`, field by field. -/
theorem AgentProfile_prepareModels_eq (ap : AgentProfile) :
    ap.prepareModels =
      { ap with
        ResolvedModels := buildResolvedModelList ap.Model ap.Models
        Model := (buildResolvedModelList ap.Model ap.Models).headD ap.Model } := by
  unfold AgentProfile.prepareModels
  cases h : buildResolvedModelList ap.Model ap.Models <;> rfl

/-- The defaults after `prepareModels`, field by field. -/
theorem AgentDefaults_prepareModels_eq (d : AgentDefaults) :
    d.prepareModels =
      { d with
        ResolvedModels := buildResolvedModelList d.Model d.Models
        Model := (buildResolvedModelList d.Model d.Models).headD d.Model } := by
  unfold AgentDefaults.prepareModels
  cases h : buildResolvedModelList d.Model d.Models <;> rfl

/-- The first entry of a list is its own default. -/
theorem headD_headD (l : List String) (a : String) : l.headD (l.headD a) = l.headD a := by
  cases l <;> rfl

/-- Preparing a profile twice is preparing it once. -/
theorem AgentProfile_prepareModels_twice (ap : AgentProfile) :
    ap.prepareModels.prepareModels = ap.prepareModels := by
  rw [AgentProfile_prepareModels_eq ap.prepareModels, AgentProfile_prepareModels_eq ap]
  dsimp only
  rw [buildResolvedModelList_headD, headD_headD]

/-- Preparing the defaults twice is preparing them once. -/
theorem AgentDefaults_prepareModels_twice (d : AgentDefaults) :
    d.prepareModels.prepareModels = d.prepareModels := by
  rw [AgentDefaults_prepareModels_eq d.prepareModels, AgentDefaults_prepareModels_eq d]
  dsimp only
  rw [buildResolvedModelList_headD, headD_headD]

/-- A registered profile after `PrepareAgentModels` is the prepared profile. -/
theorem lookup_PrepareAgentModels (c : Config) (name : String) :
    c.PrepareAgentModels.Agents.Profiles.lookup name =
      (c.Agents.Profiles.lookup name).map AgentProfile.prepareModels := by
  unfold Config.PrepareAgentModels
  dsimp only
  induction c.Agents.Profiles with
  | nil => rfl
  | cons kv rest ih =>
    obtain ⟨k, v⟩ := kv
    by_cases hk : name = k
    · have hb : (name == k) = true := by simpa using hk
      simp only [List.map_cons, List.lookup, hb, Option.map_some']
    · have hb : (name == k) = false := by simpa using hk
      simp only [List.map_cons, List.lookup, hb]
      exact ih

/-- The profile `GetAgentProfile` starts from, after `PrepareAgentModels`, is the
prepared one. -/
theorem defaultsProfile_PrepareAgentModels (c : Config) :
    defaultsProfile c.PrepareAgentModels = (defaultsProfile c).prepareModels := by
  rw [AgentProfile_prepareModels_eq]
  unfold defaultsProfile Config.PrepareAgentModels
  dsimp only
  rw [AgentDefaults_prepareModels_eq]

/-- The outcome of `prepareModels` depends on the model only through the candidate
list, and not on the stored candidates. -/
theorem prepareModels_congr (a b : AgentProfile)
    (hW : a.Workspace = b.Workspace) (hR : a.RestrictToWorkspace = b.RestrictToWorkspace)
    (hP : a.Provider = b.Provider) (hT : a.MaxTokens = b.MaxTokens)
    (hF : a.Temperature = b.Temperature) (hI : a.MaxToolIterations = b.MaxToolIterations)
    (hS : a.SystemPrompt = b.SystemPrompt) (hA : a.AllowedTools = b.AllowedTools)
    (hM : a.Models = b.Models)
    (hb : buildResolvedModelList a.Model a.Models = buildResolvedModelList b.Model b.Models) :
    a.prepareModels = b.prepareModels := by
  have hhead : (buildResolvedModelList a.Model a.Models).headD a.Model =
      (buildResolvedModelList b.Model b.Models).headD b.Model := by
    cases h : buildResolvedModelList a.Model a.Models with
    | nil =>
      rw [← hb, h]
      have ha := buildResolvedModelList_nil _ _ h
      have hb1 := buildResolvedModelList_nil _ _ (hb ▸ h)
      simp only [List.headD_nil]
      rw [ha, hb1]
    | cons first rest =>
      rw [← hb, h]
      rfl
  rw [AgentProfile_prepareModels_eq a, AgentProfile_prepareModels_eq b, hhead, hb]
  obtain ⟨a1, a2, a3, a4, a5, a6, a7, a8, a9, a10, a11⟩ := a
  obtain ⟨b1, b2, b3, b4, b5, b6, b7, b8, b9, b10, b11⟩ := b
  dsimp only at hW hR hP hT hF hI hS hA hM
  subst hW hR hP hT hF hI hS hA hM
  rfl

/-- C35: candidate preparation is idempotent: applying `prepareModels` twice to a
profile or to the defaults gives the same value as applying it once, and
`PrepareAgentModels` twice is `PrepareAgentModels` once; it keeps the profile
names, in order, and changes no field other than Model and ResolvedModels. -/
theorem PrepareAgentModels_idempotent (ap : AgentProfile) (d : AgentDefaults) (c : Config) :
    ap.prepareModels.prepareModels = ap.prepareModels ∧
    d.prepareModels.prepareModels = d.prepareModels ∧
    c.PrepareAgentModels.PrepareAgentModels = c.PrepareAgentModels ∧
    c.PrepareAgentModels.Agents.Profiles.map Prod.fst = c.Agents.Profiles.map Prod.fst ∧
    ({ ap.prepareModels with Model := ap.Model, ResolvedModels := ap.ResolvedModels } = ap) ∧
    ({ d.prepareModels with Model := d.Model, ResolvedModels := d.ResolvedModels } = d) ∧
    c.PrepareAgentModels.Agents.Defaults = c.Agents.Defaults.prepareModels ∧
    (∀ name, c.PrepareAgentModels.Agents.Profiles.lookup name =
      (c.Agents.Profiles.lookup name).map AgentProfile.prepareModels) ∧
    c.PrepareAgentModels.Agents.Routing = c.Agents.Routing ∧
    c.PrepareAgentModels.Providers = c.Providers := by
  refine ⟨AgentProfile_prepareModels_twice ap, AgentDefaults_prepareModels_twice d, ?_, ?_, ?_, ?_,
    rfl, ?_, rfl, rfl⟩
  · unfold Config.PrepareAgentModels
    dsimp only
    rw [AgentDefaults_prepareModels_twice, List.map_map]
    congr 3
    funext kv
    simp only [Function.comp, AgentProfile_prepareModels_twice]
  · unfold Config.PrepareAgentModels
    dsimp only
    rw [List.map_map]
    rfl
  · rw [AgentProfile_prepareModels_eq]
  · rw [AgentDefaults_prepareModels_eq]
  · exact lookup_PrepareAgentModels c


/-- C34 as stated fails for a profile whose only model entry is blank and whose
legacy model is empty, when the defaults declare a legacy model and a model
list: before preparation the profile resolves to the legacy model of
the defaults, after preparation to the first candidate of the defaults. -/
theorem GetAgentProfile_PrepareAgentModels_counterexample :
    (blankPrepareConfig.GetAgentProfile "coder").Model = "glm-4.7" ∧
    (blankPrepareConfig.GetAgentProfile "coder").ResolvedModels = ["glm-4.7"] ∧
    (blankPrepareConfig.PrepareAgentModels.GetAgentProfile "coder").Model = "claude-3" ∧
    (blankPrepareConfig.PrepareAgentModels.GetAgentProfile "coder").ResolvedModels =
      ["claude-3"] ∧
    blankPrepareConfig.PrepareAgentModels.GetAgentProfile "coder" ≠
      blankPrepareConfig.GetAgentProfile "coder" := by
  decide

/-- C34 (amended): `GetAgentProfile name` evaluated after `PrepareAgentModels`
equals `GetAgentProfile name` on the original configuration, in every field,
unless the name is registered to a profile with an empty Model whose Models list
is non-empty and holds blank models only, in a configuration whose preparation
changes the Model of the defaults. -/
theorem GetAgentProfile_PrepareAgentModels (c : Config) (name : String)
    (h : ∀ p, name ≠ "" → name ≠ "default" → c.Agents.Profiles.lookup name = some p →
      p.Model ≠ "" ∨ p.Models = [] ∨ resolvedNames p.Models ≠ [] ∨
        c.Agents.Defaults.prepareModels.Model = c.Agents.Defaults.Model) :
    c.PrepareAgentModels.GetAgentProfile name = c.GetAgentProfile name := by
  by_cases hname : name = "" ∨ name = "default"
  · unfold Config.GetAgentProfile
    rw [if_pos hname, if_pos hname, defaultsProfile_PrepareAgentModels,
      AgentProfile_prepareModels_twice]
  · have hne : name ≠ "" := fun h1 => hname (Or.inl h1)
    have hnd : name ≠ "default" := fun h1 => hname (Or.inr h1)
    cases hl : c.Agents.Profiles.lookup name with
    | none =>
      have hl1 : c.PrepareAgentModels.Agents.Profiles.lookup name = none := by
        rw [lookup_PrepareAgentModels, hl]
        rfl
      unfold Config.GetAgentProfile
      rw [if_neg hname, if_neg hname]
      simp only [hl, hl1]
      rw [defaultsProfile_PrepareAgentModels, AgentProfile_prepareModels_twice]
    | some p =>
      have hl1 : c.PrepareAgentModels.Agents.Profiles.lookup name = some p.prepareModels := by
        rw [lookup_PrepareAgentModels, hl]
        rfl
      rw [GetAgentProfile_registered _ name _ hne hnd hl1,
        GetAgentProfile_registered c name p hne hnd hl, defaultsProfile_PrepareAgentModels]
      obtain ⟨pW, pR, pP, pT, pF, pI, pS, pA, pM, -⟩ := prepareModels_fields p
      obtain ⟨dW, dR, dP, dT, dF, dI, dS, dA, dM, -⟩ := prepareModels_fields (defaultsProfile c)
      have hModels : (mergeProfile (defaultsProfile c).prepareModels p.prepareModels).Models =
          (mergeProfile (defaultsProfile c) p).Models := by
        rw [mergeProfile_Models, mergeProfile_Models, pM, dM]
      apply prepareModels_congr
      · rw [mergeProfile_Workspace, mergeProfile_Workspace, pW, dW]
      · rw [mergeProfile_RestrictToWorkspace, mergeProfile_RestrictToWorkspace, pR]
      · rw [mergeProfile_Provider, mergeProfile_Provider, pP, dP]
      · rw [mergeProfile_MaxTokens, mergeProfile_MaxTokens, pT, dT]
      · rw [mergeProfile_Temperature, mergeProfile_Temperature, pF, dF]
      · rw [mergeProfile_MaxToolIterations, mergeProfile_MaxToolIterations, pI, dI]
      · rw [mergeProfile_SystemPrompt, mergeProfile_SystemPrompt, pS, dS]
      · rw [mergeProfile_AllowedTools, mergeProfile_AllowedTools, pA, dA]
      · exact hModels
      · rw [hModels]
        by_cases hn : resolvedNames (mergeProfile (defaultsProfile c) p).Models = []
        · have hpm : p.prepareModels.Model = p.Model := by
            rw [prepareModels_Model]
            apply headD_buildResolvedModelList_of_no_names
            rw [mergeProfile_Models] at hn
            by_cases hlen : p.Models.length > 0
            · rw [if_pos hlen] at hn
              exact hn
            · have : p.Models = [] := List.length_eq_zero.mp (by omega)
              rw [this]
              rfl
          have hbase : (mergeProfile (defaultsProfile c).prepareModels p.prepareModels).Model =
              (mergeProfile (defaultsProfile c) p).Model := by
            rw [mergeProfile_Model, mergeProfile_Model, hpm]
            by_cases hm : p.Model = ""
            · rw [if_neg (by simpa using hm), if_neg (by simpa using hm)]
              rw [mergeProfile_Models] at hn
              by_cases hlen : p.Models.length > 0
              · rw [if_pos hlen] at hn
                rcases h p hne hnd hl with h1 | h1 | h1 | h1
                · exact absurd hm h1
                · rw [h1] at hlen
                  exact absurd hlen (by decide)
                · exact absurd hn h1
                · rw [prepareModels_Model]
                  rw [AgentDefaults_prepareModels_eq] at h1
                  exact h1
              · rw [if_neg hlen] at hn
                rw [prepareModels_Model]
                exact headD_buildResolvedModelList_of_no_names _ _ hn
            · rw [if_pos hm, if_pos hm]
          rw [hbase]
        · rw [buildResolvedModelList_of_names _ _ hn, buildResolvedModelList_of_names _ _ hn]

/-- C34 (amended) on the profile `"coder"` of `TestAgentsConfig_GetAgentProfile`,
whose model entries are not blank. -/
theorem GetAgentProfile_PrepareAgentModels_witness :
    (∀ p, "coder" ≠ "" → "coder" ≠ "default" →
      coderConfig.Agents.Profiles.lookup "coder" = some p →
      p.Model ≠ "" ∨ p.Models = [] ∨ resolvedNames p.Models ≠ [] ∨
        coderConfig.Agents.Defaults.prepareModels.Model = coderConfig.Agents.Defaults.Model) ∧
    coderConfig.PrepareAgentModels.GetAgentProfile "coder" =
      coderConfig.GetAgentProfile "coder" :=
  ⟨fun p _ _ hp => by
      have hc : p = coderProfile := by
        have h1 : coderConfig.Agents.Profiles.lookup "coder" = some coderProfile := by decide
        rw [h1] at hp
        exact (Option.some.inj hp).symm
      rw [hc]
      exact Or.inr (Or.inr (Or.inl (by decide))),
    GetAgentProfile_PrepareAgentModels coderConfig "coder" (fun p _ _ hp => by
      have hc : p = coderProfile := by
        have h1 : coderConfig.Agents.Profiles.lookup "coder" = some coderProfile := by decide
        rw [h1] at hp
        exact (Option.some.inj hp).symm
      rw [hc]
      exact Or.inr (Or.inr (Or.inl (by decide))))⟩

/-! ## Claims on the message for retryable errors -/

/-- A cut at a non-empty separator removes the separator: the parts are shorter
than the text. -/
theorem cutChars_length (sep : List Char) (hsep : sep ≠ []) (s before after : List Char)
    (h : cutChars sep s = some (before, after)) :
    before.length + sep.length + after.length = s.length := by
  induction s generalizing before after with
  | nil =>
    unfold cutChars at h
    have he : sep.isEmpty = false := by
      cases sep with
      | nil => exact absurd rfl hsep
      | cons c cs => rfl
    rw [he] at h
    simp at h
  | cons c cs ih =>
    unfold cutChars at h
    by_cases hp : sep.isPrefixOf (c :: cs) = true
    · rw [if_pos hp] at h
      simp only [Option.some.injEq, Prod.mk.injEq] at h
      have hle := (List.isPrefixOf_iff_prefix.mp hp).length_le
      rw [← h.1, ← h.2, List.length_drop]
      simp only [List.length_nil]
      omega
    · rw [if_neg hp] at h
      cases hc : cutChars sep cs with
      | none =>
        rw [hc] at h
        simp at h
      | some ba =>
        obtain ⟨b, a⟩ := ba
        rw [hc] at h
        simp only [Option.some.injEq, Prod.mk.injEq] at h
        have := ih b a hc
        rw [← h.1, ← h.2]
        simp only [List.length_cons]
        omega

/-- The length of the text is fuel enough for `splitChars`: more fuel gives the
same parts. -/
theorem splitChars_fuel (sep : List Char) (hsep : sep ≠ []) (fuel : Nat) (s : List Char)
    (h : s.length ≤ fuel) : splitChars sep (fuel + 1) s = splitChars sep fuel s := by
  induction fuel generalizing s with
  | zero =>
    have hs : s = [] := List.length_eq_zero.mp (by omega)
    subst hs
    have hc : cutChars sep [] = none := by
      unfold cutChars
      cases sep with
      | nil => exact absurd rfl hsep
      | cons c cs => rfl
    rw [splitChars, splitChars, hc]
  | succ fuel ih =>
    rw [splitChars]
    conv_rhs => rw [splitChars]
    cases hc : cutChars sep s with
    | none => rfl
    | some ba =>
      obtain ⟨b, a⟩ := ba
      have hlen := cutChars_length sep hsep s b a hc
      have hpos : 0 < sep.length := List.length_pos.mpr hsep
      dsimp only
      rw [ih a (by omega)]

/-- Text that a list does not contain is not at its start. -/
theorem not_prefix_of_not_containsChars (sub l : List Char) (h : containsChars sub l = false) :
    ¬ sub <+: l := by
  intro hp
  have h1 := containsChars_of_isPrefixOf sub l (List.isPrefixOf_iff_prefix.mpr hp)
  rw [h] at h1
  cases h1

/-- Text that a list does not contain is not contained in its tail. -/
theorem containsChars_tail (sub : List Char) (c : Char) (cs : List Char)
    (h : containsChars sub (c :: cs) = false) : containsChars sub cs = false := by
  unfold containsChars at h
  exact (Bool.or_eq_false_iff.mp h).2

/-- Cutting at the first occurrence of a separator. -/
theorem cutChars_first (sep pre tail : List Char) (hsep : sep ≠ [])
    (hfirst : containsChars sep (pre ++ sep.dropLast) = false) :
    cutChars sep (pre ++ (sep ++ tail)) = some (pre, tail) := by
  induction pre with
  | nil =>
    cases hs : sep with
    | nil => exact absurd hs hsep
    | cons c cs =>
      have hp : (c :: cs).isPrefixOf (c :: (cs ++ tail)) = true := by
        rw [List.isPrefixOf_iff_prefix, ← List.cons_append]
        exact List.prefix_append _ _
      rw [List.nil_append, List.cons_append]
      unfold cutChars
      rw [if_pos hp, ← List.cons_append, List.drop_left]
  | cons p pre ih =>
    have hnp : ¬ sep <+: p :: (pre ++ (sep ++ tail)) := by
      intro hp
      have h1 : (p :: pre ++ sep.dropLast) <+: p :: (pre ++ (sep ++ tail)) := by
        have hs : sep.dropLast ++ [sep.getLast hsep] = sep := List.dropLast_append_getLast hsep
        refine ⟨[sep.getLast hsep] ++ tail, ?_⟩
        conv_rhs => rw [← hs]
        simp only [List.cons_append, List.append_assoc]
      have hlen : sep.length ≤ (p :: pre ++ sep.dropLast).length := by
        simp only [List.length_append, List.length_cons, List.length_dropLast]
        have : 0 < sep.length := List.length_pos.mpr hsep
        omega
      exact not_prefix_of_not_containsChars sep _ hfirst
        (List.prefix_of_prefix_length_le hp h1 hlen)
    have hnb : sep.isPrefixOf (p :: (pre ++ (sep ++ tail))) = false := by
      cases hb : sep.isPrefixOf (p :: (pre ++ (sep ++ tail))) with
      | false => rfl
      | true => exact absurd (List.isPrefixOf_iff_prefix.mp hb) hnp
    rw [List.cons_append]
    unfold cutChars
    rw [hnb, ih (containsChars_tail sep p _ hfirst)]
    rfl

/-- A separator without colon does not start inside a text that it neither
starts nor contains, when a colon follows that text. -/
theorem not_prefix_append_colon (sep text rest : List Char) (hcolon : ':' ∉ sep)
    (htext : ¬ sep <+: text) : ¬ sep <+: text ++ ':' :: rest := by
  intro hp
  have h2 : text ++ [':'] <+: text ++ ':' :: rest := ⟨rest, by simp⟩
  rcases List.prefix_or_prefix_of_prefix hp h2 with h | h
  · rcases List.prefix_concat_iff.mp h with h3 | h3
    · apply hcolon
      rw [h3]
      simp
    · exact htext h3
  · obtain ⟨t, ht⟩ := h
    apply hcolon
    rw [← ht]
    simp

/-- Cutting a text that starts with a host and a colon, at a separator that the
host does not contain, leaves the host and the colon at the start. -/
theorem cutChars_keeps_host (sep host rest : List Char) (hcolon : ':' ∉ sep)
    (hhost : containsChars sep host = false) (before after : List Char)
    (hcut : cutChars sep (host ++ ':' :: rest) = some (before, after)) :
    ∃ r, before = host ++ ':' :: r := by
  induction host generalizing before after with
  | nil =>
    have hnp := not_prefix_append_colon sep [] rest hcolon
      (not_prefix_of_not_containsChars sep [] hhost)
    have hnb : sep.isPrefixOf (':' :: rest) = false := by
      cases hb : sep.isPrefixOf (':' :: rest) with
      | false => rfl
      | true => exact absurd (List.isPrefixOf_iff_prefix.mp hb) hnp
    rw [List.nil_append] at hcut
    unfold cutChars at hcut
    rw [hnb] at hcut
    cases hc : cutChars sep rest with
    | none =>
      rw [hc] at hcut
      simp at hcut
    | some ba =>
      obtain ⟨b, a⟩ := ba
      rw [hc] at hcut
      simp only [Bool.false_eq_true, if_false, Option.some.injEq, Prod.mk.injEq] at hcut
      exact ⟨b, hcut.1.symm⟩
  | cons h host ih =>
    have hnp := not_prefix_append_colon sep (h :: host) rest hcolon
      (not_prefix_of_not_containsChars sep _ hhost)
    have hnb : sep.isPrefixOf (h :: (host ++ ':' :: rest)) = false := by
      cases hb : sep.isPrefixOf (h :: (host ++ ':' :: rest)) with
      | false => rfl
      | true => exact absurd (List.isPrefixOf_iff_prefix.mp hb) hnp
    rw [List.cons_append] at hcut
    unfold cutChars at hcut
    rw [hnb] at hcut
    cases hc : cutChars sep (host ++ ':' :: rest) with
    | none =>
      rw [hc] at hcut
      simp at hcut
    | some ba =>
      obtain ⟨b, a⟩ := ba
      rw [hc] at hcut
      simp only [Bool.false_eq_true, if_false, Option.some.injEq, Prod.mk.injEq] at hcut
      obtain ⟨r, hr⟩ := ih (containsChars_tail sep h host hhost) b a hc
      exact ⟨r, by rw [← hcut.1, hr]; rfl⟩

/-- The second part of a split at a separator whose first occurrence is followed
by a host and a colon starts with the host and the colon. -/
theorem splitChars_second (sep pre host rest : List Char) (fuel : Nat) (hsep : sep ≠ [])
    (hcolon : ':' ∉ sep) (hfirst : containsChars sep (pre ++ sep.dropLast) = false)
    (hhost : containsChars sep host = false) :
    ∃ r more, splitChars sep (fuel + 2) (pre ++ (sep ++ (host ++ ':' :: rest))) =
      pre :: (host ++ ':' :: r) :: more := by
  have h1 := cutChars_first sep pre (host ++ ':' :: rest) hsep hfirst
  rw [splitChars, h1]
  dsimp only
  rw [splitChars]
  cases hc : cutChars sep (host ++ ':' :: rest) with
  | none => exact ⟨rest, [], rfl⟩
  | some ba =>
    obtain ⟨b, a⟩ := ba
    obtain ⟨r, hr⟩ := cutChars_keeps_host sep host rest hcolon hhost b a hc
    exact ⟨r, splitChars sep fuel a, by rw [hr]⟩

/-- The first part of a split at the colon is the text before the first colon. -/
theorem splitChars_colon_head (host r : List Char) (fuel : Nat)
    (hhost : containsChars [':'] host = false) :
    ∃ more, splitChars [':'] (fuel + 1) (host ++ ':' :: r) = host :: more := by
  have h1 := cutChars_first [':'] host r (by simp)
    (by rw [List.dropLast_single, List.append_nil]; exact hhost)
  rw [List.singleton_append] at h1
  rw [splitChars, h1]
  exact ⟨_, rfl⟩

/-- C36: `GetRetryableErrorMessage` returns `""` for nil and the message of the
error for every error whose message does not contain "i/o timeout"; for every
message that contains "i/o timeout" and in which the first occurrence of
"lookup " is followed by a host, containing neither a colon nor "lookup ", and
then a colon, it returns the DNS resolution text naming that host. -/
theorem GetRetryableErrorMessage_spec (err : GoError) :
    GetRetryableErrorMessage none = "" ∧
    (Contains err.Error "i/o timeout" = false →
      GetRetryableErrorMessage (some err) = err.Error) ∧
    (∀ pre host rest : String,
      err.Error = pre ++ "lookup " ++ host ++ ":" ++ rest →
      Contains err.Error "i/o timeout" = true →
      Contains (pre ++ "lookup") "lookup " = false →
      Contains host ":" = false →
      Contains host "lookup " = false →
      GetRetryableErrorMessage (some err) =
        "DNS resolution timeout for " ++ host ++ ". Check your network/DNS settings.") := by
  refine ⟨rfl, ?_, ?_⟩
  · intro h
    unfold GetRetryableErrorMessage
    dsimp only
    rw [h]
    rfl
  · intro pre host rest hmsg htimeout hfirst hcolon hhost
    have hdata : err.Error.data =
        pre.data ++ ("lookup ".data ++ (host.data ++ ':' :: rest.data)) := by
      rw [hmsg]
      simp [String.data_append]
    have hlookup : Contains err.Error "lookup" = true := by
      unfold Contains
      rw [hdata]
      exact containsChars_middle "lookup".data pre.data
        (' ' :: (host.data ++ ':' :: rest.data))
    have hlen : ∃ fuel, err.Error.data.length = fuel + 2 := by
      refine ⟨err.Error.data.length - 2, ?_⟩
      rw [hdata]
      simp only [List.length_append, List.length_cons]
      have : "lookup ".data.length = 7 := rfl
      omega
    obtain ⟨fuel, hfuel⟩ := hlen
    have hfirst1 : containsChars "lookup ".data (pre.data ++ "lookup ".data.dropLast) = false := by
      unfold Contains at hfirst
      rw [String.data_append] at hfirst
      exact hfirst
    obtain ⟨r, more, hsplit⟩ := splitChars_second "lookup ".data pre.data host.data rest.data
      fuel (by decide) (by decide) hfirst1 hhost
    have hparts : Split err.Error "lookup " =
        pre :: String.mk (host.data ++ ':' :: r) :: more.map String.mk := by
      unfold Split
      rw [hfuel, hdata, hsplit]
      rfl
    have hfuel2 : (String.mk (host.data ++ ':' :: r)).data.length =
        (host.data.length + r.length) + 1 := by
      simp only [List.length_append, List.length_cons]
      omega
    obtain ⟨more2, hsplit2⟩ := splitChars_colon_head host.data r (host.data.length + r.length)
      hcolon
    have hhostpart : Split (String.mk (host.data ++ ':' :: r)) ":" =
        host :: more2.map String.mk := by
      unfold Split
      rw [hfuel2]
      show List.map String.mk (splitChars [':'] _ (host.data ++ ':' :: r)) = _
      rw [hsplit2]
      rfl
    unfold GetRetryableErrorMessage
    dsimp only
    rw [htimeout, hlookup, hparts]
    simp only [if_true, List.length_cons, List.getD_cons_succ, List.getD_cons_zero, hhostpart,
      List.headD_cons]
    rw [if_pos (by omega)]

/-- C36 on the message of a failed DNS lookup. -/
theorem GetRetryableErrorMessage_spec_witness :
    (Contains unauthorized.Error "i/o timeout" = false ∧
      dnsTimeout.Error = "dial tcp: " ++ "lookup " ++ "api.example.com" ++ ":" ++ " i/o timeout" ∧
      Contains dnsTimeout.Error "i/o timeout" = true ∧
      Contains ("dial tcp: " ++ "lookup") "lookup " = false ∧
      Contains "api.example.com" ":" = false ∧
      Contains "api.example.com" "lookup " = false) ∧
    GetRetryableErrorMessage (some unauthorized) = unauthorized.Error ∧
    GetRetryableErrorMessage (some dnsTimeout) =
      "DNS resolution timeout for " ++ "api.example.com" ++
        ". Check your network/DNS settings." :=
  ⟨⟨by decide, by decide, by decide, by decide, by decide, by decide⟩,
    (GetRetryableErrorMessage_spec unauthorized).2.1 (by decide),
    (GetRetryableErrorMessage_spec dnsTimeout).2.2 "dial tcp: " "api.example.com" " i/o timeout"
      (by decide) (by decide) (by decide) (by decide) (by decide)⟩

/-! ## Claims on the provider selection -/

/-- One step of the search for the provider of the key. -/
theorem keyProvider_step (c : Config) (n : ProviderName) (rest : List ProviderName) :
    (n :: rest).find? (fun n => decide ((c.Providers.byName n).APIKey ≠ "")) =
      if (c.Providers.byName n).APIKey ≠ "" then some n
      else rest.find? (fun n => decide ((c.Providers.byName n).APIKey ≠ "")) := by
  by_cases h : (c.Providers.byName n).APIKey ≠ ""
  · rw [if_pos h, List.find?_cons_of_pos]
    exact decide_eq_true h
  · rw [if_neg h, List.find?_cons_of_neg]
    simpa using h

/-- The provider of the key, as the chain of tests of `GetAPIKey`. -/
theorem keyProvider_eq (c : Config) :
    c.keyProvider =
      if c.Providers.OpenRouter.APIKey ≠ "" then some ProviderName.OpenRouter
      else if c.Providers.Anthropic.APIKey ≠ "" then some ProviderName.Anthropic
      else if c.Providers.OpenAI.APIKey ≠ "" then some ProviderName.OpenAI
      else if c.Providers.Gemini.APIKey ≠ "" then some ProviderName.Gemini
      else if c.Providers.Zhipu.APIKey ≠ "" then some ProviderName.Zhipu
      else if c.Providers.Groq.APIKey ≠ "" then some ProviderName.Groq
      else if c.Providers.VLLM.APIKey ≠ "" then some ProviderName.VLLM
      else if c.Providers.ShengSuanYun.APIKey ≠ "" then some ProviderName.ShengSuanYun
      else none := by
  unfold Config.keyProvider apiKeyOrder
  simp only [keyProvider_step]
  rfl

/-- `GetAPIKey` returns the key of the first provider, in its order, with a key. -/
theorem GetAPIKey_eq_keyProvider (c : Config) :
    c.GetAPIKey =
      match c.keyProvider with
      | some n => (c.Providers.byName n).APIKey
      | none => "" := by
  rw [keyProvider_eq]
  unfold Config.GetAPIKey
  by_cases h0 : c.Providers.OpenRouter.APIKey ≠ ""
  · rw [if_pos h0, if_pos h0]
    rfl
  rw [if_neg h0, if_neg h0]
  by_cases h1 : c.Providers.Anthropic.APIKey ≠ ""
  · rw [if_pos h1, if_pos h1]
    rfl
  rw [if_neg h1, if_neg h1]
  by_cases h2 : c.Providers.OpenAI.APIKey ≠ ""
  · rw [if_pos h2, if_pos h2]
    rfl
  rw [if_neg h2, if_neg h2]
  by_cases h3 : c.Providers.Gemini.APIKey ≠ ""
  · rw [if_pos h3, if_pos h3]
    rfl
  rw [if_neg h3, if_neg h3]
  by_cases h4 : c.Providers.Zhipu.APIKey ≠ ""
  · rw [if_pos h4, if_pos h4]
    rfl
  rw [if_neg h4, if_neg h4]
  by_cases h5 : c.Providers.Groq.APIKey ≠ ""
  · rw [if_pos h5, if_pos h5]
    rfl
  rw [if_neg h5, if_neg h5]
  by_cases h6 : c.Providers.VLLM.APIKey ≠ ""
  · rw [if_pos h6, if_pos h6]
    rfl
  rw [if_neg h6, if_neg h6]
  by_cases h7 : c.Providers.ShengSuanYun.APIKey ≠ ""
  · rw [if_pos h7, if_pos h7]
    rfl
  rw [if_neg h7, if_neg h7]

/-- The provider of the key has a key. -/
theorem keyProvider_has_key (c : Config) (n : ProviderName) (hn : c.keyProvider = some n) :
    (c.Providers.byName n).APIKey ≠ "" := by
  unfold Config.keyProvider at hn
  have h := List.find?_some hn
  exact of_decide_eq_true h

/-- When the provider of the key is OpenRouter, Zhipu or VLLM, a non-empty result
of `GetAPIBase` is the API base of that provider. -/
theorem GetAPIBase_of_keyProvider (c : Config) (n : ProviderName)
    (hn : c.keyProvider = some n)
    (hsel : n = ProviderName.OpenRouter ∨ n = ProviderName.Zhipu ∨ n = ProviderName.VLLM)
    (hbase : c.GetAPIBase ≠ "") : c.GetAPIBase = c.baseOf n := by
  have hkey := keyProvider_has_key c n hn
  rw [keyProvider_eq] at hn
  rcases hsel with rfl | rfl | rfl
  · have h1 : c.Providers.OpenRouter.APIKey ≠ "" := hkey
    unfold Config.GetAPIBase Config.baseOf
    rw [if_pos h1]
    by_cases h2 : c.Providers.OpenRouter.APIBase = ""
    · rw [if_neg (not_not.mpr h2), if_pos ⟨rfl, h2⟩]
    · rw [if_pos h2, if_neg (fun h => h2 h.2)]
      rfl
  · have h1 : c.Providers.OpenRouter.APIKey = "" := by
      by_contra h1
      rw [if_pos h1] at hn
      cases hn
    have h2 : c.Providers.Zhipu.APIKey ≠ "" := hkey
    unfold Config.GetAPIBase Config.baseOf
    rw [if_neg (not_not.mpr h1), if_pos h2, if_neg (fun h => by cases h.1)]
    rfl
  · have h1 : c.Providers.OpenRouter.APIKey = "" := by
      by_contra h1
      rw [if_pos h1] at hn
      cases hn
    have h2 : c.Providers.Zhipu.APIKey = "" := by
      by_contra h2
      rw [if_neg (not_not.mpr h1)] at hn
      by_cases ha : c.Providers.Anthropic.APIKey ≠ ""
      · rw [if_pos ha] at hn
        cases hn
      rw [if_neg ha] at hn
      by_cases hb : c.Providers.OpenAI.APIKey ≠ ""
      · rw [if_pos hb] at hn
        cases hn
      rw [if_neg hb] at hn
      by_cases hg : c.Providers.Gemini.APIKey ≠ ""
      · rw [if_pos hg] at hn
        cases hn
      rw [if_neg hg, if_pos h2] at hn
      cases hn
    unfold Config.GetAPIBase at hbase ⊢
    unfold Config.baseOf
    rw [if_neg (not_not.mpr h1), if_neg (not_not.mpr h2)] at hbase ⊢
    rw [if_neg (show ¬ (ProviderName.VLLM = ProviderName.OpenRouter ∧
      c.Providers.OpenRouter.APIBase = "") from fun h => by cases h.1)]
    by_cases h3 : c.Providers.VLLM.APIKey ≠ "" ∧ c.Providers.VLLM.APIBase ≠ ""
    · rw [if_pos h3]
      rfl
    · rw [if_neg h3] at hbase
      exact absurd rfl hbase

/-- C37 fails on the code: with a key for Anthropic and a key and an API base for
Zhipu, `GetAPIKey` returns the Anthropic key and `GetAPIBase` the Zhipu base;
with a key for Groq and a key and a base for VLLM, the Groq key goes with the
VLLM base. -/
theorem GetAPIBase_of_other_provider :
    (mixedProvidersConfig.GetAPIKey = "sk-ant-key" ∧
      mixedProvidersConfig.keyProvider = some ProviderName.Anthropic ∧
      mixedProvidersConfig.GetAPIKey = mixedProvidersConfig.Providers.Anthropic.APIKey ∧
      mixedProvidersConfig.GetAPIBase = "https://open.bigmodel.cn/api/paas/v4" ∧
      mixedProvidersConfig.GetAPIBase ≠ "" ∧
      mixedProvidersConfig.GetAPIBase = mixedProvidersConfig.Providers.Zhipu.APIBase ∧
      mixedProvidersConfig.GetAPIBase ≠ mixedProvidersConfig.baseOf ProviderName.Anthropic ∧
      mixedProvidersConfig.GetAPIKey ≠ mixedProvidersConfig.Providers.Zhipu.APIKey) ∧
    (groqVLLMConfig.GetAPIKey = "gsk-key" ∧
      groqVLLMConfig.keyProvider = some ProviderName.Groq ∧
      groqVLLMConfig.GetAPIBase = "http://localhost:8000/v1" ∧
      groqVLLMConfig.GetAPIBase = groqVLLMConfig.Providers.VLLM.APIBase ∧
      groqVLLMConfig.GetAPIBase ≠ groqVLLMConfig.baseOf ProviderName.Groq ∧
      groqVLLMConfig.GetAPIKey ≠ groqVLLMConfig.Providers.VLLM.APIKey) := by
  decide

end Picoclaw
